import Mathlib

/-!
The md4c HTML renderer (`md4c/render_html.c`): embedding and verified properties.

The renderer is a push-driven state machine: the parser calls the block, span
and text callbacks, which write byte runs to a caller-supplied sink.  The
embedding below follows `render_html.c` function by function.

* A byte (`MD_CHAR`, C `char`) is kept by its value as `unsigned char`.
  Where the C code reads a `char` as an integer, `char_to_int` performs the
  conversion; whether plain `char` is signed is a field of `Env`.
* The sink (`process_output` with `userdata`) is the list of the byte runs
  written so far, one entry per call.
* `MD_SIZE` and `MD_OFFSET` are declared in `md4c.h`, which is not among the
  sources; sizes and offsets are natural numbers (no wrap-around).
* C loops are given as structurally recursive functions on a step budget that
  the entry point fixes from the size of its input.
-/

set_option autoImplicit false

namespace Md4c

/-- A byte: the value of a C `char` read as `unsigned char`. -/
abbrev MD_CHAR := Fin 256

/-- Conversion of an integer value to `unsigned char`. -/
def to_uchar (n : Nat) : MD_CHAR := ⟨n % 256, Nat.mod_lt _ (by decide)⟩

/-- A C character constant. -/
def cchar (c : Char) : MD_CHAR := to_uchar c.toNat

/-- The bytes of a C string literal (without the terminating NUL). -/
def cstr (s : String) : List MD_CHAR := s.toList.map cchar

/-- The integer value of a `char`: sign-extended when plain `char` is signed. -/
def char_to_int (char_signed : Bool) (ch : MD_CHAR) : Int :=
  if char_signed && decide (128 ≤ ch.val) then (ch.val : Int) - 256 else (ch.val : Int)

/-- Conversion of an `int` to `unsigned` (32 bits). -/
def to_unsigned (i : Int) : Nat := (i % 4294967296).toNat

/-- Entry of the entity table (`struct entity` of `entity.h`): the two codepoints. -/
structure entity where
  codepoints0 : Nat
  codepoints1 : Nat
deriving DecidableEq, Repr

/-- What `render_html.c` takes from outside its own text: the signedness of
plain `char`, the two renderer flag bits of `render_html.h`, and
`entity_lookup` of `entity.c`.  None of these is among the sources; they are
parameters of the embedding. -/
structure Env where
  char_signed : Bool
  MD_RENDER_FLAG_DEBUG : Nat
  MD_RENDER_FLAG_VERBATIM_ENTITIES : Nat
  entity_lookup : List MD_CHAR → Option entity

/-- The renderer state `struct MD_RENDER_HTML_tag`.  The fields
`process_output` and `userdata` are the sink: `output` lists the runs passed
to `process_output`, oldest first. -/
structure MD_RENDER_HTML where
  output : List (List MD_CHAR)
  flags : Nat
  image_nesting_level : Int
  escape_map : List Nat
deriving DecidableEq, Repr

/-- The type of the `fn_append` function pointers. -/
abbrev FnAppend := MD_RENDER_HTML → List MD_CHAR → MD_RENDER_HTML

/-- All bytes the sink has received, concatenated. -/
def written (r : MD_RENDER_HTML) : List MD_CHAR := r.output.flatten

/-- The bytes written to the sink on the way from state `r` to state `r2`. -/
def written_since (r r2 : MD_RENDER_HTML) : List MD_CHAR :=
  (r2.output.drop r.output.length).flatten

def ISDIGIT (s : Bool) (ch : MD_CHAR) : Bool :=
  decide ((48 : Int) ≤ char_to_int s ch) && decide (char_to_int s ch ≤ 57)

def ISLOWER (s : Bool) (ch : MD_CHAR) : Bool :=
  decide ((97 : Int) ≤ char_to_int s ch) && decide (char_to_int s ch ≤ 122)

def ISUPPER (s : Bool) (ch : MD_CHAR) : Bool :=
  decide ((65 : Int) ≤ char_to_int s ch) && decide (char_to_int s ch ≤ 90)

def ISALNUM (s : Bool) (ch : MD_CHAR) : Bool :=
  ISLOWER s ch || ISUPPER s ch || ISDIGIT s ch

/-- C library `strchr(s, ch) != NULL` for a string literal `s`: the
terminating NUL is part of the string that is searched. -/
def strchr_found (s : List MD_CHAR) (ch : MD_CHAR) : Bool :=
  (s ++ [0]).contains ch

def render_text (r : MD_RENDER_HTML) (text : List MD_CHAR) : MD_RENDER_HTML :=
  { r with output := r.output ++ [text] }

def RENDER_LITERAL (r : MD_RENDER_HTML) (literal : String) : MD_RENDER_HTML :=
  render_text r (cstr literal)

def HTML_NEED_ESCAPE (r : MD_RENDER_HTML) (ch : MD_CHAR) : Bool :=
  r.escape_map.getD ch.val 0 != 0

/-- The unrolled inner loop of `render_html_escaped` (lines 87-89). -/
def html_scan_unrolled (r : MD_RENDER_HTML) (data : List MD_CHAR) : Nat → Nat → Nat
  | 0, off => off
  | fuel + 1, off =>
    if decide (off + 3 < data.length) && !HTML_NEED_ESCAPE r (data.getD (off + 0) 0)
        && !HTML_NEED_ESCAPE r (data.getD (off + 1) 0)
        && !HTML_NEED_ESCAPE r (data.getD (off + 2) 0)
        && !HTML_NEED_ESCAPE r (data.getD (off + 3) 0) then
      html_scan_unrolled r data fuel (off + 4)
    else off

/-- The byte-wise inner loop of `render_html_escaped` (lines 90-91). -/
def html_scan_single (r : MD_RENDER_HTML) (data : List MD_CHAR) : Nat → Nat → Nat
  | 0, off => off
  | fuel + 1, off =>
    if decide (off < data.length) && !HTML_NEED_ESCAPE r (data.getD off 0) then
      html_scan_single r data fuel (off + 1)
    else off

/-- The `switch` of `render_html_escaped` (lines 97-102): no `default` case. -/
def html_escape_switch (r : MD_RENDER_HTML) (ch : MD_CHAR) : MD_RENDER_HTML :=
  if ch = cchar '&' then RENDER_LITERAL r "&amp;"
  else if ch = cchar '<' then RENDER_LITERAL r "&lt;"
  else if ch = cchar '>' then RENDER_LITERAL r "&gt;"
  else if ch = cchar '"' then RENDER_LITERAL r "&quot;"
  else r

/-- The `while(1)` loop of `render_html_escaped`; one unit of `fuel` per iteration. -/
def render_html_escaped_loop (data : List MD_CHAR) :
    Nat → MD_RENDER_HTML → Nat → Nat → MD_RENDER_HTML
  | 0, r, _, _ => r
  | fuel + 1, r, beg, off =>
    let off1 := html_scan_unrolled r data data.length off
    let off2 := html_scan_single r data data.length off1
    let r1 := if off2 > beg then render_text r ((data.drop beg).take (off2 - beg)) else r
    if off2 < data.length then
      let r2 := html_escape_switch r1 (data.getD off2 0)
      render_html_escaped_loop data fuel r2 (off2 + 1) (off2 + 1)
    else r1

def render_html_escaped (r : MD_RENDER_HTML) (data : List MD_CHAR) : MD_RENDER_HTML :=
  render_html_escaped_loop data (data.length + 1) r 0 0

def hex_chars : List MD_CHAR := cstr "0123456789ABCDEF"

def URL_NEED_ESCAPE (s : Bool) (ch : MD_CHAR) : Bool :=
  !ISALNUM s ch && !strchr_found (cstr "-_.+!*'(),%#@?=;:/,+$") ch

/-- The inner loop of `render_url_escaped` (lines 122-123). -/
def url_scan (s : Bool) (data : List MD_CHAR) : Nat → Nat → Nat
  | 0, off => off
  | fuel + 1, off =>
    if decide (off < data.length) && !URL_NEED_ESCAPE s (data.getD off 0) then
      url_scan s data fuel (off + 1)
    else off

/-- The `switch` of `render_url_escaped` (lines 130-139). -/
def url_escape_switch (s : Bool) (r : MD_RENDER_HTML) (ch : MD_CHAR) : MD_RENDER_HTML :=
  if ch = cchar '&' then RENDER_LITERAL r "&amp;"
  else if ch = cchar '\'' then RENDER_LITERAL r "&#x27;"
  else
    let hex0 := cchar '%'
    let hex1 := hex_chars.getD ((to_unsigned (char_to_int s ch) >>> 4) &&& 0xf) 0
    let hex2 := hex_chars.getD ((to_unsigned (char_to_int s ch) >>> 0) &&& 0xf) 0
    render_text r [hex0, hex1, hex2]

/-- The `while(1)` loop of `render_url_escaped`; one unit of `fuel` per iteration. -/
def render_url_escaped_loop (s : Bool) (data : List MD_CHAR) :
    Nat → MD_RENDER_HTML → Nat → Nat → MD_RENDER_HTML
  | 0, r, _, _ => r
  | fuel + 1, r, beg, off =>
    let off1 := url_scan s data data.length off
    let r1 := if off1 > beg then render_text r ((data.drop beg).take (off1 - beg)) else r
    if off1 < data.length then
      let r2 := url_escape_switch s r1 (data.getD off1 0)
      render_url_escaped_loop s data fuel r2 (off1 + 1) (off1 + 1)
    else r1

def render_url_escaped (env : Env) (r : MD_RENDER_HTML) (data : List MD_CHAR) :
    MD_RENDER_HTML :=
  render_url_escaped_loop env.char_signed data (data.length + 1) r 0 0

def hex_val (s : Bool) (ch : MD_CHAR) : Nat :=
  if (48 : Int) ≤ char_to_int s ch ∧ char_to_int s ch ≤ 57 then
    to_unsigned (char_to_int s ch - 48)
  else if (65 : Int) ≤ char_to_int s ch ∧ char_to_int s ch ≤ 90 then
    to_unsigned (char_to_int s ch - 65 + 10)
  else
    to_unsigned (char_to_int s ch - 97 + 10)

def utf8_replacement_char : List MD_CHAR := [0xef, 0xbf, 0xbd]

/-- The byte array `utf8` and the count `n` computed by lines 169-187 of
`render_utf8_codepoint`; `codepoint` is the value of an `unsigned`. -/
def utf8_buffer (codepoint : Nat) : Nat × List MD_CHAR :=
  if codepoint ≤ 0x7f then
    (1, [to_uchar codepoint])
  else if codepoint ≤ 0x7ff then
    (2, [to_uchar (0xc0 ||| ((codepoint >>> 6) &&& 0x1f)),
         to_uchar (0x80 + ((codepoint >>> 0) &&& 0x3f))])
  else if codepoint ≤ 0xffff then
    (3, [to_uchar (0xe0 ||| ((codepoint >>> 12) &&& 0xf)),
         to_uchar (0x80 + ((codepoint >>> 6) &&& 0x3f)),
         to_uchar (0x80 + ((codepoint >>> 0) &&& 0x3f))])
  else
    (4, [to_uchar (0xf0 ||| ((codepoint >>> 18) &&& 0x7)),
         to_uchar (0x80 + ((codepoint >>> 12) &&& 0x3f)),
         to_uchar (0x80 + ((codepoint >>> 6) &&& 0x3f)),
         to_uchar (0x80 + ((codepoint >>> 0) &&& 0x3f))])

def render_utf8_codepoint (r : MD_RENDER_HTML) (codepoint : Nat) (fn_append : FnAppend) :
    MD_RENDER_HTML :=
  let n := (utf8_buffer codepoint).1
  let utf8 := (utf8_buffer codepoint).2
  if 0 < codepoint ∧ codepoint ≤ 0x10ffff then
    fn_append r (utf8.take n)
  else
    fn_append r utf8_replacement_char

/-- The hexadecimal digit loop of `render_entity` (lines 213-214), in `unsigned` arithmetic. -/
def entity_hex_codepoint (s : Bool) (text : List MD_CHAR) : Nat :=
  ((text.drop 3).take (text.length - 1 - 3)).foldl
    (fun codepoint ch => (16 * codepoint + hex_val s ch) % 4294967296) 0

/-- The decimal digit loop of `render_entity` (lines 218-219), in `unsigned` arithmetic. -/
def entity_dec_codepoint (s : Bool) (text : List MD_CHAR) : Nat :=
  ((text.drop 2).take (text.length - 1 - 2)).foldl
    (fun codepoint ch => to_unsigned (10 * (codepoint : Int) + (char_to_int s ch - 48))) 0

def render_entity (env : Env) (r : MD_RENDER_HTML) (text : List MD_CHAR)
    (fn_append : FnAppend) : MD_RENDER_HTML :=
  if r.flags &&& env.MD_RENDER_FLAG_VERBATIM_ENTITIES != 0 then
    fn_append r text
  else if decide (text.length > 3) && decide (text.getD 1 0 = cchar '#') then
    let codepoint :=
      if text.getD 2 0 = cchar 'x' ∨ text.getD 2 0 = cchar 'X' then
        entity_hex_codepoint env.char_signed text
      else
        entity_dec_codepoint env.char_signed text
    render_utf8_codepoint r codepoint fn_append
  else
    match env.entity_lookup text with
    | some ent =>
      let r1 := render_utf8_codepoint r ent.codepoints0 fn_append
      if ent.codepoints1 != 0 then render_utf8_codepoint r1 ent.codepoints1 fn_append
      else r1
    | none => fn_append r text

/-- The text kinds `MD_TEXTTYPE` of `md4c.h` (not among the sources).  The
renderer names `NULLCHAR`, `BR`, `SOFTBR`, `HTML` and `ENTITY`; every other
kind takes the `default` branch of its switches. -/
inductive MD_TEXTTYPE where
  | MD_TEXT_NORMAL
  | MD_TEXT_NULLCHAR
  | MD_TEXT_BR
  | MD_TEXT_SOFTBR
  | MD_TEXT_ENTITY
  | MD_TEXT_CODE
  | MD_TEXT_HTML
  | MD_TEXT_LATEXMATH
deriving DecidableEq, Repr

open MD_TEXTTYPE

/-- The attribute value `MD_ATTRIBUTE` of `md4c.h` (not among the sources),
with the four fields the renderer reads; `text = none` is the NULL pointer. -/
structure MD_ATTRIBUTE where
  text : Option (List MD_CHAR)
  size : Nat
  substr_types : List MD_TEXTTYPE
  substr_offsets : List Nat
deriving DecidableEq, Repr

/-- The `for` loop of `render_attribute`, from index `i`; one unit of `fuel`
per evaluation of the loop condition.  The loop ends only where the condition
`substr_offsets[i] < size` fails, and the result is then the state together
with the final value of `i`.  The result is `none` when the budget runs out
before the loop has ended, when `substr_offsets` or `substr_types` is read
past its end (undefined in C), and when `substr_offsets[i+1] - off` would
wrap (sizes are unbounded here, so a wrapped difference has no counterpart). -/
def render_attribute_loop (env : Env) (attr : MD_ATTRIBUTE) (fn_append : FnAppend) :
    Nat → Nat → MD_RENDER_HTML → Option (MD_RENDER_HTML × Nat)
  | 0, _, _ => none
  | fuel + 1, i, r =>
    match attr.substr_offsets.get? i with
    | none => none
    | some off =>
      if off < attr.size then
        match attr.substr_types.get? i, attr.substr_offsets.get? (i + 1) with
        | some type, some next =>
          if off ≤ next then
            let size := next - off
            let text := ((attr.text.getD []).drop off).take size
            let r1 :=
              match type with
              | MD_TEXT_NULLCHAR => render_utf8_codepoint r 0x0000 render_text
              | MD_TEXT_ENTITY => render_entity env r text fn_append
              | _ => fn_append r text
            render_attribute_loop env attr fn_append fuel (i + 1) r1
          else none
        | _, _ => none
      else some (r, i)

/-- The function `render_attribute`.  The budget is one more than the number
of offsets, enough for every loop that ends within the arrays; for an
attribute on which the loop does not end there (undefined in C) the state is
returned as it was. -/
def render_attribute (env : Env) (r : MD_RENDER_HTML) (attr : MD_ATTRIBUTE)
    (fn_append : FnAppend) : MD_RENDER_HTML :=
  match render_attribute_loop env attr fn_append (attr.substr_offsets.length + 1) 0 r with
  | some (r1, _) => r1
  | none => r

structure MD_BLOCK_OL_DETAIL where
  start : Nat
deriving DecidableEq, Repr

structure MD_BLOCK_LI_DETAIL where
  is_task : Bool
  task_mark : MD_CHAR
deriving DecidableEq, Repr

structure MD_BLOCK_H_DETAIL where
  level : Nat
deriving DecidableEq, Repr

structure MD_BLOCK_CODE_DETAIL where
  lang : MD_ATTRIBUTE
deriving DecidableEq, Repr

inductive MD_ALIGN where
  | MD_ALIGN_DEFAULT
  | MD_ALIGN_LEFT
  | MD_ALIGN_CENTER
  | MD_ALIGN_RIGHT
deriving DecidableEq, Repr

structure MD_BLOCK_TD_DETAIL where
  align : MD_ALIGN
deriving DecidableEq, Repr

structure MD_SPAN_A_DETAIL where
  href : MD_ATTRIBUTE
  title : MD_ATTRIBUTE
deriving DecidableEq, Repr

structure MD_SPAN_IMG_DETAIL where
  src : MD_ATTRIBUTE
  title : MD_ATTRIBUTE
deriving DecidableEq, Repr

structure MD_SPAN_WIKILINK_DETAIL where
  target : MD_ATTRIBUTE
deriving DecidableEq, Repr

/-- A block event: the `MD_BLOCKTYPE` together with the detail structure the
callbacks cast `detail` to for that type. -/
inductive MD_BLOCKTYPE where
  | MD_BLOCK_DOC
  | MD_BLOCK_QUOTE
  | MD_BLOCK_UL
  | MD_BLOCK_OL (det : MD_BLOCK_OL_DETAIL)
  | MD_BLOCK_LI (det : MD_BLOCK_LI_DETAIL)
  | MD_BLOCK_HR
  | MD_BLOCK_H (det : MD_BLOCK_H_DETAIL)
  | MD_BLOCK_CODE (det : MD_BLOCK_CODE_DETAIL)
  | MD_BLOCK_HTML
  | MD_BLOCK_P
  | MD_BLOCK_TABLE
  | MD_BLOCK_THEAD
  | MD_BLOCK_TBODY
  | MD_BLOCK_TR
  | MD_BLOCK_TH (det : MD_BLOCK_TD_DETAIL)
  | MD_BLOCK_TD (det : MD_BLOCK_TD_DETAIL)
deriving DecidableEq, Repr

/-- A span event: the `MD_SPANTYPE` together with the detail structure the
callbacks cast `detail` to for that type. -/
inductive MD_SPANTYPE where
  | MD_SPAN_EM
  | MD_SPAN_STRONG
  | MD_SPAN_A (det : MD_SPAN_A_DETAIL)
  | MD_SPAN_IMG (det : MD_SPAN_IMG_DETAIL)
  | MD_SPAN_CODE
  | MD_SPAN_DEL
  | MD_SPAN_LATEXMATH
  | MD_SPAN_LATEXMATH_DISPLAY
  | MD_SPAN_WIKILINK (det : MD_SPAN_WIKILINK_DETAIL)
deriving DecidableEq, Repr

open MD_ALIGN MD_BLOCKTYPE MD_SPANTYPE

/-- The text `snprintf` produces for the conversion `%u`. -/
def format_unsigned (n : Nat) : String := String.mk (Nat.toDigits 10 (n % 4294967296))

def render_open_ol_block (r : MD_RENDER_HTML) (det : MD_BLOCK_OL_DETAIL) : MD_RENDER_HTML :=
  if det.start = 1 then
    RENDER_LITERAL r "<ol>\n"
  else
    let buf := (cstr ("<ol start=\"" ++ format_unsigned det.start ++ "\">\n")).take 63
    render_text r buf

def render_open_li_block (r : MD_RENDER_HTML) (det : MD_BLOCK_LI_DETAIL) : MD_RENDER_HTML :=
  if det.is_task then
    let r1 := RENDER_LITERAL r
      "<li class=\"task-list-item\"><input type=\"checkbox\" class=\"task-list-item-checkbox\" disabled"
    let r2 :=
      if det.task_mark = cchar 'x' ∨ det.task_mark = cchar 'X' then RENDER_LITERAL r1 " checked"
      else r1
    RENDER_LITERAL r2 ">"
  else
    RENDER_LITERAL r "<li>"

def render_open_code_block (env : Env) (r : MD_RENDER_HTML) (det : MD_BLOCK_CODE_DETAIL) :
    MD_RENDER_HTML :=
  let r1 := RENDER_LITERAL r "<pre><code"
  let r2 :=
    if det.lang.text.isSome then
      let a := RENDER_LITERAL r1 " class=\"language-"
      let b := render_attribute env a det.lang render_html_escaped
      RENDER_LITERAL b "\""
    else r1
  RENDER_LITERAL r2 ">"

def render_open_td_block (r : MD_RENDER_HTML) (cell_type : String) (det : MD_BLOCK_TD_DETAIL) :
    MD_RENDER_HTML :=
  let r1 := RENDER_LITERAL r "<"
  let r2 := RENDER_LITERAL r1 cell_type
  match det.align with
  | MD_ALIGN_LEFT => RENDER_LITERAL r2 " align=\"left\">"
  | MD_ALIGN_CENTER => RENDER_LITERAL r2 " align=\"center\">"
  | MD_ALIGN_RIGHT => RENDER_LITERAL r2 " align=\"right\">"
  | _ => RENDER_LITERAL r2 ">"

def render_open_a_span (env : Env) (r : MD_RENDER_HTML) (det : MD_SPAN_A_DETAIL) :
    MD_RENDER_HTML :=
  let r1 := RENDER_LITERAL r "<a href=\""
  let r2 := render_attribute env r1 det.href (render_url_escaped env)
  let r3 :=
    if det.title.text.isSome then
      let a := RENDER_LITERAL r2 "\" title=\""
      render_attribute env a det.title render_html_escaped
    else r2
  RENDER_LITERAL r3 "\">"

def render_open_img_span (env : Env) (r : MD_RENDER_HTML) (det : MD_SPAN_IMG_DETAIL) :
    MD_RENDER_HTML :=
  let r1 := RENDER_LITERAL r "<img src=\""
  let r2 := render_attribute env r1 det.src (render_url_escaped env)
  let r3 := RENDER_LITERAL r2 "\" alt=\""
  { r3 with image_nesting_level := r3.image_nesting_level + 1 }

def render_close_img_span (env : Env) (r : MD_RENDER_HTML) (det : MD_SPAN_IMG_DETAIL) :
    MD_RENDER_HTML :=
  let r1 :=
    if det.title.text.isSome then
      let a := RENDER_LITERAL r "\" title=\""
      render_attribute env a det.title render_html_escaped
    else r
  let r2 := RENDER_LITERAL r1 "\">"
  { r2 with image_nesting_level := r2.image_nesting_level - 1 }

def render_open_wikilink_span (env : Env) (r : MD_RENDER_HTML)
    (det : MD_SPAN_WIKILINK_DETAIL) : MD_RENDER_HTML :=
  let r1 := RENDER_LITERAL r "<x-wikilink data-target=\""
  let r2 := render_attribute env r1 det.target render_html_escaped
  RENDER_LITERAL r2 "\">"

/-- The heading tables `head` of the two block callbacks, read at
`level - 1`; a level outside 1..6 (an out-of-bounds read in C) gives no text. -/
def head_at (head : List String) (level : Nat) : String :=
  if 1 ≤ level then head.getD (level - 1) "" else ""

def enter_block_callback (env : Env) (type : MD_BLOCKTYPE) (r : MD_RENDER_HTML) :
    MD_RENDER_HTML :=
  let head := ["<h1>", "<h2>", "<h3>", "<h4>", "<h5>", "<h6>"]
  match type with
  | MD_BLOCK_DOC => r
  | MD_BLOCK_QUOTE => RENDER_LITERAL r "<blockquote>\n"
  | MD_BLOCK_UL => RENDER_LITERAL r "<ul>\n"
  | MD_BLOCK_OL det => render_open_ol_block r det
  | MD_BLOCK_LI det => render_open_li_block r det
  | MD_BLOCK_HR => RENDER_LITERAL r "<hr>\n"
  | MD_BLOCK_H det => RENDER_LITERAL r (head_at head det.level)
  | MD_BLOCK_CODE det => render_open_code_block env r det
  | MD_BLOCK_HTML => r
  | MD_BLOCK_P => RENDER_LITERAL r "<p>"
  | MD_BLOCK_TABLE => RENDER_LITERAL r "<table>\n"
  | MD_BLOCK_THEAD => RENDER_LITERAL r "<thead>\n"
  | MD_BLOCK_TBODY => RENDER_LITERAL r "<tbody>\n"
  | MD_BLOCK_TR => RENDER_LITERAL r "<tr>\n"
  | MD_BLOCK_TH det => render_open_td_block r "th" det
  | MD_BLOCK_TD det => render_open_td_block r "td" det

def leave_block_callback (type : MD_BLOCKTYPE) (r : MD_RENDER_HTML) : MD_RENDER_HTML :=
  let head := ["</h1>\n", "</h2>\n", "</h3>\n", "</h4>\n", "</h5>\n", "</h6>\n"]
  match type with
  | MD_BLOCK_DOC => r
  | MD_BLOCK_QUOTE => RENDER_LITERAL r "</blockquote>\n"
  | MD_BLOCK_UL => RENDER_LITERAL r "</ul>\n"
  | MD_BLOCK_OL _ => RENDER_LITERAL r "</ol>\n"
  | MD_BLOCK_LI _ => RENDER_LITERAL r "</li>\n"
  | MD_BLOCK_HR => r
  | MD_BLOCK_H det => RENDER_LITERAL r (head_at head det.level)
  | MD_BLOCK_CODE _ => RENDER_LITERAL r "</code></pre>\n"
  | MD_BLOCK_HTML => r
  | MD_BLOCK_P => RENDER_LITERAL r "</p>\n"
  | MD_BLOCK_TABLE => RENDER_LITERAL r "</table>\n"
  | MD_BLOCK_THEAD => RENDER_LITERAL r "</thead>\n"
  | MD_BLOCK_TBODY => RENDER_LITERAL r "</tbody>\n"
  | MD_BLOCK_TR => RENDER_LITERAL r "</tr>\n"
  | MD_BLOCK_TH _ => RENDER_LITERAL r "</th>\n"
  | MD_BLOCK_TD _ => RENDER_LITERAL r "</td>\n"

def enter_span_callback (env : Env) (type : MD_SPANTYPE) (r : MD_RENDER_HTML) :
    MD_RENDER_HTML :=
  if r.image_nesting_level > 0 then r
  else
    match type with
    | MD_SPAN_EM => RENDER_LITERAL r "<em>"
    | MD_SPAN_STRONG => RENDER_LITERAL r "<strong>"
    | MD_SPAN_A det => render_open_a_span env r det
    | MD_SPAN_IMG det => render_open_img_span env r det
    | MD_SPAN_CODE => RENDER_LITERAL r "<code>"
    | MD_SPAN_DEL => RENDER_LITERAL r "<del>"
    | MD_SPAN_LATEXMATH => RENDER_LITERAL r "<x-equation>"
    | MD_SPAN_LATEXMATH_DISPLAY => RENDER_LITERAL r "<x-equation type=\"display\">"
    | MD_SPAN_WIKILINK det => render_open_wikilink_span env r det

def leave_span_callback (env : Env) (type : MD_SPANTYPE) (r : MD_RENDER_HTML) :
    MD_RENDER_HTML :=
  if r.image_nesting_level > 0 then
    match type with
    | MD_SPAN_IMG det => if r.image_nesting_level = 1 then render_close_img_span env r det else r
    | _ => r
  else
    match type with
    | MD_SPAN_EM => RENDER_LITERAL r "</em>"
    | MD_SPAN_STRONG => RENDER_LITERAL r "</strong>"
    | MD_SPAN_A _ => RENDER_LITERAL r "</a>"
    | MD_SPAN_IMG _ => r
    | MD_SPAN_CODE => RENDER_LITERAL r "</code>"
    | MD_SPAN_DEL => RENDER_LITERAL r "</del>"
    | MD_SPAN_LATEXMATH => RENDER_LITERAL r "</x-equation>"
    | MD_SPAN_LATEXMATH_DISPLAY => RENDER_LITERAL r "</x-equation>"
    | MD_SPAN_WIKILINK _ => RENDER_LITERAL r "</x-wikilink>"

def text_callback (env : Env) (type : MD_TEXTTYPE) (text : List MD_CHAR)
    (r : MD_RENDER_HTML) : MD_RENDER_HTML :=
  match type with
  | MD_TEXT_NULLCHAR => render_utf8_codepoint r 0x0000 render_text
  | MD_TEXT_BR => RENDER_LITERAL r (if r.image_nesting_level = 0 then "<br>\n" else " ")
  | MD_TEXT_SOFTBR => RENDER_LITERAL r (if r.image_nesting_level = 0 then "\n" else " ")
  | MD_TEXT_HTML => render_text r text
  | MD_TEXT_ENTITY => render_entity env r text render_html_escaped
  | _ => render_html_escaped r text

/-- The escape map as `md_render_html` builds it: all zero (the initialiser
of line 510), then the four assignments of lines 524-527. -/
def md_render_html_escape_map : List Nat :=
  ((((List.replicate 256 0).set (cchar '"').val 1).set (cchar '&').val 1).set
    (cchar '<').val 1).set (cchar '>').val 1

/-- The local `render` of `md_render_html` after lines 510-527: an empty sink,
the renderer flags of the caller, nesting level 0 and the escape map. -/
def md_render_html_render (renderer_flags : Nat) : MD_RENDER_HTML :=
  { output := []
    flags := renderer_flags
    image_nesting_level := 0
    escape_map := md_render_html_escape_map }

/-- One call the parser makes into the renderer. -/
inductive Event where
  | enter_block (type : MD_BLOCKTYPE)
  | leave_block (type : MD_BLOCKTYPE)
  | enter_span (type : MD_SPANTYPE)
  | leave_span (type : MD_SPANTYPE)
  | text (type : MD_TEXTTYPE) (text : List MD_CHAR)
deriving DecidableEq, Repr

/-- The callback table of `md_render_html`: each event goes to its callback. -/
def dispatch (env : Env) (r : MD_RENDER_HTML) : Event → MD_RENDER_HTML
  | Event.enter_block type => enter_block_callback env type r
  | Event.leave_block type => leave_block_callback type r
  | Event.enter_span type => enter_span_callback env type r
  | Event.leave_span type => leave_span_callback env type r
  | Event.text type text => text_callback env type text r

/-- The renderer run over the events the parser pushes, in order. -/
def dispatch_all (env : Env) (r : MD_RENDER_HTML) (events : List Event) : MD_RENDER_HTML :=
  events.foldl (dispatch env) r

/-- The driver `md_render_html`: `md_parse` (not among the sources) is the
parameter that turns the input into the events it pushes and its status; the
result is that status and the final renderer state. -/
def md_render_html (env : Env) (md_parse : List MD_CHAR → Nat → List Event × Int)
    (input : List MD_CHAR) (parser_flags renderer_flags : Nat) : Int × MD_RENDER_HTML :=
  let render := md_render_html_render renderer_flags
  let parsed := md_parse input parser_flags
  (parsed.2, dispatch_all env render parsed.1)

/-! ## Derived descriptions used in the statements -/

/-- The runs the `switch` of `render_html_escaped` passes to the sink for `ch`. -/
def html_switch_chunks (ch : MD_CHAR) : List (List MD_CHAR) :=
  if ch = cchar '&' then [cstr "&amp;"]
  else if ch = cchar '<' then [cstr "&lt;"]
  else if ch = cchar '>' then [cstr "&gt;"]
  else if ch = cchar '"' then [cstr "&quot;"]
  else []

/-- The bytes `render_html_escaped` writes for one byte under escape map `em`. -/
def html_byte (em : List Nat) (ch : MD_CHAR) : List MD_CHAR :=
  if em.getD ch.val 0 != 0 then (html_switch_chunks ch).flatten else [ch]

/-- The HTML-text escaping of one byte in the words of the specification:
the four characters become their named entities, every other byte is kept. -/
def html_escape_spec (ch : MD_CHAR) : List MD_CHAR :=
  if ch = cchar '&' then cstr "&amp;"
  else if ch = cchar '<' then cstr "&lt;"
  else if ch = cchar '>' then cstr "&gt;"
  else if ch = cchar '"' then cstr "&quot;"
  else [ch]

/-- The four entity forms the HTML-text escaper produces. -/
def html_entities : List (List MD_CHAR) :=
  [cstr "&amp;", cstr "&lt;", cstr "&gt;", cstr "&quot;"]

/-- The runs the `switch` of `render_url_escaped` passes to the sink for `ch`. -/
def url_switch_chunks (s : Bool) (ch : MD_CHAR) : List (List MD_CHAR) :=
  if ch = cchar '&' then [cstr "&amp;"]
  else if ch = cchar '\'' then [cstr "&#x27;"]
  else [[cchar '%',
         hex_chars.getD ((to_unsigned (char_to_int s ch) >>> 4) &&& 0xf) 0,
         hex_chars.getD ((to_unsigned (char_to_int s ch) >>> 0) &&& 0xf) 0]]

/-- The bytes `render_url_escaped` writes for one byte. -/
def url_byte (s : Bool) (ch : MD_CHAR) : List MD_CHAR :=
  if URL_NEED_ESCAPE s ch then (url_switch_chunks s ch).flatten else [ch]

/-- ASCII letters and digits, by byte value. -/
def is_ascii_alnum (ch : MD_CHAR) : Bool :=
  (decide (48 ≤ ch.val) && decide (ch.val ≤ 57)) ||
  (decide (65 ≤ ch.val) && decide (ch.val ≤ 90)) ||
  (decide (97 ≤ ch.val) && decide (ch.val ≤ 122))

/-- The URL-safe punctuation set as the specification lists it. -/
def url_safe_punctuation : List MD_CHAR := cstr "-_.+!*'(),%#@?=;:/,+$"

/-- The uppercase hexadecimal digit of a nibble. -/
def upper_hex_digit (n : Nat) : MD_CHAR :=
  if n < 10 then to_uchar (48 + n) else to_uchar (65 + (n - 10))

/-- Every `&` of `l` starts, at its position in `l`, one of the sequences `ents`. -/
def amp_starts (ents : List (List MD_CHAR)) (l : List MD_CHAR) : Prop :=
  ∀ i, i < l.length → l.getD i 0 = cchar '&' → ∃ e ∈ ents, e <+: l.drop i

instance (ents : List (List MD_CHAR)) (l : List MD_CHAR) : Decidable (amp_starts ents l) := by
  unfold amp_starts
  infer_instance

/-- An environment for evaluating the renderer on concrete inputs: plain
`char` signed, the flag bits 0x0001 (debug) and 0x0002 (verbatim entities),
and an entity table in which no name is found. -/
def env_no_entities : Env :=
  { char_signed := true
    MD_RENDER_FLAG_DEBUG := 1
    MD_RENDER_FLAG_VERBATIM_ENTITIES := 2
    entity_lookup := fun _ => none }

/-- A UTF-8 continuation byte: bit pattern 10xxxxxx. -/
def is_continuation (b : MD_CHAR) : Bool := decide (b.val / 64 = 2)

/-- Standard UTF-8 decoding (RFC 3629) of a byte sequence that holds exactly
one encoded character: the lead byte fixes the length, every further byte
must be a continuation byte, and overlong forms, surrogates and values above
0x10FFFF are rejected. -/
def utf8_decode (bs : List MD_CHAR) : Option Nat :=
  match bs with
  | [b0] => if b0.val < 0x80 then some b0.val else none
  | [b0, b1] =>
    if b0.val / 32 = 6 ∧ is_continuation b1 = true then
      let c := (b0.val % 32) * 64 + b1.val % 64
      if 0x80 ≤ c then some c else none
    else none
  | [b0, b1, b2] =>
    if b0.val / 16 = 14 ∧ is_continuation b1 = true ∧ is_continuation b2 = true then
      let c := (b0.val % 16) * 4096 + (b1.val % 64) * 64 + b2.val % 64
      if 0x800 ≤ c ∧ ¬ (0xD800 ≤ c ∧ c ≤ 0xDFFF) then some c else none
    else none
  | [b0, b1, b2, b3] =>
    if b0.val / 8 = 30 ∧ is_continuation b1 = true ∧ is_continuation b2 = true
        ∧ is_continuation b3 = true then
      let c := (b0.val % 8) * 262144 + (b1.val % 64) * 4096 + (b2.val % 64) * 64 + b3.val % 64
      if 0x10000 ≤ c ∧ c ≤ 0x10FFFF then some c else none
    else none
  | _ => none

/-- An ASCII decimal digit. -/
def is_dec_digit (b : MD_CHAR) : Bool := decide (48 ≤ b.val) && decide (b.val ≤ 57)

/-- The number a string of decimal digits denotes (base 10, most significant first). -/
def dec_value (ds : List MD_CHAR) : Nat :=
  ds.foldl (fun acc b => 10 * acc + (b.val - 48)) 0

/-- An ASCII hexadecimal digit, in either letter case. -/
def is_hex_digit (b : MD_CHAR) : Bool :=
  is_dec_digit b || (decide (65 ≤ b.val) && decide (b.val ≤ 70))
    || (decide (97 ≤ b.val) && decide (b.val ≤ 102))

/-- The value of one hexadecimal digit. -/
def hex_digit_value (b : MD_CHAR) : Nat :=
  if b.val ≤ 57 then b.val - 48 else if b.val ≤ 70 then b.val - 55 else b.val - 87

/-- The number a string of hexadecimal digits denotes (base 16, most significant first). -/
def hex_value (hs : List MD_CHAR) : Nat :=
  hs.foldl (fun acc b => 16 * acc + hex_digit_value b) 0

/-- What one iteration of the loop of `render_attribute` does for sub-run `i`. -/
def render_sub_run (env : Env) (fn_append : FnAppend) (text : List MD_CHAR)
    (types : List MD_TEXTTYPE) (offsets : List Nat) (acc : MD_RENDER_HTML) (i : Nat) :
    MD_RENDER_HTML :=
  match types.getD i MD_TEXT_NORMAL with
  | MD_TEXT_NULLCHAR => render_text acc [0xEF, 0xBF, 0xBD]
  | MD_TEXT_ENTITY =>
    render_entity env acc
      ((text.drop (offsets.getD i 0)).take (offsets.getD (i + 1) 0 - offsets.getD i 0)) fn_append
  | _ =>
    fn_append acc
      ((text.drop (offsets.getD i 0)).take (offsets.getD (i + 1) 0 - offsets.getD i 0))

/-- From `r` to `r2` the sink received further runs whose concatenation is
`bs`, and the flags and the escape map are the same. -/
def Emits (r r2 : MD_RENDER_HTML) (bs : List MD_CHAR) : Prop :=
  ∃ ws, r2.output = r.output ++ ws ∧ ws.flatten = bs ∧ r2.flags = r.flags ∧
    r2.escape_map = r.escape_map

/-- As `Emits`, with the image nesting level unchanged as well. -/
def Keeps (r r2 : MD_RENDER_HTML) (bs : List MD_CHAR) : Prop :=
  Emits r r2 bs ∧ r2.image_nesting_level = r.image_nesting_level

/-- The bytes `render_url_escaped` writes for a run: the per-byte outputs in order. -/
def url_escaped (env : Env) (t : List MD_CHAR) : List MD_CHAR :=
  t.flatMap (url_byte env.char_signed)

/-- The HTML-text escaping of a run in the words of the specification. -/
def html_escaped (t : List MD_CHAR) : List MD_CHAR := t.flatMap html_escape_spec

/-- An attribute value that is one literal sub-run holding `t`. -/
def literal_attribute (t : List MD_CHAR) : MD_ATTRIBUTE :=
  { text := some t
    size := t.length
    substr_types := [MD_TEXT_NORMAL]
    substr_offsets := [0, t.length] }

/-- An attribute that is not present: its text is the NULL pointer. -/
def absent_attribute : MD_ATTRIBUTE :=
  { text := none
    size := 0
    substr_types := [MD_TEXT_NORMAL]
    substr_offsets := [0, 0] }

/-- An optional attribute: absent, or one literal sub-run. -/
def optional_attribute (t : Option (List MD_CHAR)) : MD_ATTRIBUTE :=
  match t with
  | none => absent_attribute
  | some t => literal_attribute t

/-- The events allowed inside the alt text here: enter and leave of spans
other than images, and text of kind Plain. -/
def is_alt_event (e : Event) : Bool :=
  match e with
  | Event.enter_span (MD_SPAN_IMG _) => false
  | Event.leave_span (MD_SPAN_IMG _) => false
  | Event.enter_span _ => true
  | Event.leave_span _ => true
  | Event.text MD_TEXT_NORMAL _ => true
  | _ => false

/-- The HTML-text escaping of the text runs of an event sequence, in order. -/
def alt_text (events : List Event) : List MD_CHAR :=
  events.flatMap (fun e =>
    match e with
    | Event.text _ t => html_escaped t
    | _ => [])

/-- The decimal digits of `n`, most significant first, without padding; the
digit 0 alone for `n = 0`.  At most `fuel` digits are produced. -/
def decimal_digits_core : Nat → Nat → List MD_CHAR
  | 0, _ => []
  | fuel + 1, n =>
    if n < 10 then [to_uchar (48 + n)]
    else decimal_digits_core fuel (n / 10) ++ [to_uchar (48 + n % 10)]

/-- An image span with the given source and no title. -/
def image_span (src : String) : MD_SPANTYPE :=
  MD_SPAN_IMG ⟨literal_attribute (cstr src), optional_attribute none⟩

/-- The initial render state moved inside an image: nesting level 1. -/
def render_inside_image : MD_RENDER_HTML :=
  { md_render_html_render 0 with image_nesting_level := 1 }

/-- An append function that only adds runs to the sink and leaves the flags,
the escape map and the image nesting level as they are. -/
def KeepsFn (f : FnAppend) : Prop := ∀ r t, ∃ bs, Keeps r (f r t) bs

/-- The renderer state after the parser has pushed `events`, from the initial
state that `md_render_html` sets up. -/
def render_after (env : Env) (renderer_flags : Nat) (events : List Event) : MD_RENDER_HTML :=
  dispatch_all env (md_render_html_render renderer_flags) events

/-- An environment whose entity table knows `&lt;` (codepoint 60) and
`&NotEqualTilde;` (the two codepoints 0x2242 and 0x338) and nothing else. -/
def env_two_entities : Env :=
  { char_signed := true
    MD_RENDER_FLAG_DEBUG := 1
    MD_RENDER_FLAG_VERBATIM_ENTITIES := 2
    entity_lookup := fun t =>
      if t = cstr "&lt;" then some ⟨60, 0⟩
      else if t = cstr "&NotEqualTilde;" then some ⟨0x2242, 0x338⟩
      else none }

/-! ## Proofs -/

section lists

variable {α : Type}

theorem getD_eq_of_lt [Inhabited α] (l : List α) (i : Nat) (d : α) (h : i < l.length) :
    l.getD i d = l[i] := by
  simp [List.getD, List.getElem?_eq_getElem h]

/-- A scanned stretch on which `f` is the identity is copied as it stands. -/
theorem flatMap_drop_split (f : MD_CHAR → List MD_CHAR) (data : List MD_CHAR) :
    ∀ (k beg : Nat), beg + k ≤ data.length →
      (∀ i, beg ≤ i → i < beg + k → f (data.getD i 0) = [data.getD i 0]) →
      (data.drop beg).flatMap f
        = (data.drop beg).take k ++ (data.drop (beg + k)).flatMap f := by
  intro k
  induction k with
  | zero => intro beg _ _; simp
  | succ k ih =>
    intro beg hle hid
    have hlt : beg < data.length := by omega
    have h0 := hid beg (le_refl _) (by omega)
    rw [getD_eq_of_lt data beg 0 hlt] at h0
    rw [List.drop_eq_getElem_cons hlt, List.flatMap_cons, h0, List.take_succ_cons]
    have := ih (beg + 1) (by omega) (fun i h1 h2 => hid i (by omega) (by omega))
    rw [this]
    have e : beg + 1 + k = beg + (k + 1) := by omega
    rw [e]
    simp

theorem flatMap_drop_step (f : MD_CHAR → List MD_CHAR) (data : List MD_CHAR) (off : Nat)
    (h : off < data.length) :
    (data.drop off).flatMap f = f (data.getD off 0) ++ (data.drop (off + 1)).flatMap f := by
  rw [getD_eq_of_lt data off 0 h, List.drop_eq_getElem_cons h, List.flatMap_cons]

end lists

theorem HTML_NEED_ESCAPE_eq (r : MD_RENDER_HTML) (ch : MD_CHAR) :
    HTML_NEED_ESCAPE r ch = (r.escape_map.getD ch.val 0 != 0) := rfl

theorem html_scan_unrolled_spec (r : MD_RENDER_HTML) (data : List MD_CHAR) :
    ∀ (fuel off : Nat), off ≤ html_scan_unrolled r data fuel off ∧
      (off ≤ data.length → html_scan_unrolled r data fuel off ≤ data.length) ∧
      ∀ i, off ≤ i → i < html_scan_unrolled r data fuel off →
        HTML_NEED_ESCAPE r (data.getD i 0) = false := by
  intro fuel
  induction fuel with
  | zero => intro off; simp [html_scan_unrolled]; intro i h1 h2; omega
  | succ fuel ih =>
    intro off
    unfold html_scan_unrolled
    split
    · rename_i hc
      simp only [Bool.and_eq_true, decide_eq_true_eq, Bool.not_eq_true'] at hc
      obtain ⟨⟨⟨⟨hlt, h0⟩, h1⟩, h2⟩, h3⟩ := hc
      obtain ⟨a, b, c⟩ := ih (off + 4)
      refine ⟨by omega, fun _ => b (by omega), ?_⟩
      intro i hi hi2
      by_cases h4 : off + 4 ≤ i
      · exact c i h4 hi2
      · have : i = off + 0 ∨ i = off + 1 ∨ i = off + 2 ∨ i = off + 3 := by omega
        rcases this with e | e | e | e <;> rw [e] <;> assumption
    · refine ⟨le_refl _, fun h => h, ?_⟩
      intro i h1 h2; omega

theorem html_scan_single_spec (r : MD_RENDER_HTML) (data : List MD_CHAR) :
    ∀ (fuel off : Nat), off ≤ html_scan_single r data fuel off ∧
      (off ≤ data.length → html_scan_single r data fuel off ≤ data.length) ∧
      (∀ i, off ≤ i → i < html_scan_single r data fuel off →
        HTML_NEED_ESCAPE r (data.getD i 0) = false) ∧
      (data.length - off ≤ fuel → html_scan_single r data fuel off < data.length →
        HTML_NEED_ESCAPE r (data.getD (html_scan_single r data fuel off) 0) = true) := by
  intro fuel
  induction fuel with
  | zero =>
    intro off
    simp only [html_scan_single]
    refine ⟨le_refl _, fun h => h, ?_, ?_⟩
    · intro i h1 h2; omega
    · intro h1 h2; omega
  | succ fuel ih =>
    intro off
    unfold html_scan_single
    split
    · rename_i hc
      simp only [Bool.and_eq_true, decide_eq_true_eq, Bool.not_eq_true'] at hc
      obtain ⟨hlt, h0⟩ := hc
      obtain ⟨a, b, c, d⟩ := ih (off + 1)
      refine ⟨by omega, fun _ => b (by omega), ?_, ?_⟩
      · intro i hi hi2
        by_cases h4 : off + 1 ≤ i
        · exact c i h4 hi2
        · have : i = off := by omega
          rw [this]; exact h0
      · intro h1 h2
        exact d (by omega) h2
    · rename_i hc
      refine ⟨le_refl _, fun h => h, ?_, ?_⟩
      · intro i h1 h2; omega
      · intro _ h2
        simp only [Bool.and_eq_true, decide_eq_true_eq, Bool.not_eq_true', not_and,
          Bool.not_eq_false] at hc
        exact hc h2

theorem html_escape_switch_eq (r : MD_RENDER_HTML) (ch : MD_CHAR) :
    html_escape_switch r ch = { r with output := r.output ++ html_switch_chunks ch } := by
  unfold html_escape_switch html_switch_chunks RENDER_LITERAL render_text
  split_ifs <;> simp

/-- The loop of `render_html_escaped`, given enough iterations for the bytes
left, appends runs whose concatenation is the byte-wise escaping of the rest
of the data, and changes nothing else of the state. -/
theorem render_html_escaped_loop_spec (data : List MD_CHAR) :
    ∀ (fuel : Nat) (r : MD_RENDER_HTML) (beg : Nat), beg ≤ data.length →
      data.length - beg < fuel →
      ∃ ws, render_html_escaped_loop data fuel r beg beg = { r with output := r.output ++ ws } ∧
        ws.flatten = (data.drop beg).flatMap (html_byte r.escape_map) := by
  intro fuel
  induction fuel with
  | zero => intro r beg _ h; omega
  | succ fuel ih =>
    intro r beg hbeg hfuel
    unfold render_html_escaped_loop
    dsimp only
    obtain ⟨a1, b1, c1⟩ := html_scan_unrolled_spec r data data.length beg
    generalize html_scan_unrolled r data data.length beg = o1 at a1 b1 c1 ⊢
    obtain ⟨a2, b2, c2, d2⟩ := html_scan_single_spec r data data.length o1
    generalize html_scan_single r data data.length o1 = o2 at a2 b2 c2 d2 ⊢
    have ho1 : o1 ≤ data.length := b1 hbeg
    have ho2 : o2 ≤ data.length := b2 ho1
    have hid : ∀ i, beg ≤ i → i < beg + (o2 - beg) →
        html_byte r.escape_map (data.getD i 0) = [data.getD i 0] := by
      intro i h1 h2
      have hn : HTML_NEED_ESCAPE r (data.getD i 0) = false := by
        by_cases h : i < o1
        · exact c1 i h1 h
        · exact c2 i (by omega) (by omega)
      rw [HTML_NEED_ESCAPE_eq] at hn
      simp only [html_byte, hn, Bool.false_eq_true, if_false]
    have hsplit := flatMap_drop_split (html_byte r.escape_map) data (o2 - beg) beg (by omega) hid
    have e : beg + (o2 - beg) = o2 := by omega
    rw [e] at hsplit
    -- the flushed stretch
    have hflush : ∃ w1, (if o2 > beg then render_text r ((data.drop beg).take (o2 - beg)) else r)
          = { r with output := r.output ++ w1 } ∧
        w1.flatten = (data.drop beg).take (o2 - beg) := by
      by_cases h : o2 > beg
      · exact ⟨[(data.drop beg).take (o2 - beg)], by simp [h, render_text], by simp⟩
      · refine ⟨[], by simp [h], ?_⟩
        have : o2 - beg = 0 := by omega
        simp [this]
    obtain ⟨w1, hw1, hw1f⟩ := hflush
    show ∃ ws, (if o2 < data.length then
          render_html_escaped_loop data fuel
            (html_escape_switch
              (if o2 > beg then render_text r ((data.drop beg).take (o2 - beg)) else r)
              (data.getD o2 0)) (o2 + 1) (o2 + 1)
        else (if o2 > beg then render_text r ((data.drop beg).take (o2 - beg)) else r))
          = { r with output := r.output ++ ws } ∧
        ws.flatten = (data.drop beg).flatMap (html_byte r.escape_map)
    rw [hw1]
    by_cases hlt : o2 < data.length
    · simp only [hlt, if_true]
      rw [html_escape_switch_eq]
      obtain ⟨ws, hws, hwsf⟩ := ih
        { r with output := r.output ++ w1 ++ html_switch_chunks (data.getD o2 0) }
        (o2 + 1) (by omega) (by omega)
      refine ⟨w1 ++ html_switch_chunks (data.getD o2 0) ++ ws, ?_, ?_⟩
      · rw [hws]; simp [List.append_assoc]
      · have hneed := d2 (by omega) hlt
        rw [HTML_NEED_ESCAPE_eq] at hneed
        rw [hsplit, flatMap_drop_step _ data o2 hlt]
        simp only [List.flatten_append, hw1f, hwsf, html_byte, hneed, if_true,
          List.append_assoc]
    · simp only [hlt, if_false]
      refine ⟨w1, rfl, ?_⟩
      have : o2 = data.length := by omega
      rw [hsplit, hw1f, this]
      simp

theorem render_html_escaped_spec (r : MD_RENDER_HTML) (data : List MD_CHAR) :
    ∃ ws, render_html_escaped r data = { r with output := r.output ++ ws } ∧
      ws.flatten = data.flatMap (html_byte r.escape_map) := by
  have := render_html_escaped_loop_spec data (data.length + 1) r 0 (by omega) (by omega)
  simpa [render_html_escaped] using this

theorem written_since_append (r : MD_RENDER_HTML) (ws : List (List MD_CHAR)) :
    written_since r { r with output := r.output ++ ws } = ws.flatten := by
  simp [written_since]

set_option maxRecDepth 100000 in
theorem html_byte_md_render_html :
    ∀ ch : MD_CHAR, html_byte md_render_html_escape_map ch = html_escape_spec ch := by
  decide

/-! ### The URL escaper -/

theorem url_scan_spec (s : Bool) (data : List MD_CHAR) :
    ∀ (fuel off : Nat), off ≤ url_scan s data fuel off ∧
      (off ≤ data.length → url_scan s data fuel off ≤ data.length) ∧
      (∀ i, off ≤ i → i < url_scan s data fuel off →
        URL_NEED_ESCAPE s (data.getD i 0) = false) ∧
      (data.length - off ≤ fuel → url_scan s data fuel off < data.length →
        URL_NEED_ESCAPE s (data.getD (url_scan s data fuel off) 0) = true) := by
  intro fuel
  induction fuel with
  | zero =>
    intro off
    simp only [url_scan]
    refine ⟨le_refl _, fun h => h, ?_, ?_⟩
    · intro i h1 h2; omega
    · intro h1 h2; omega
  | succ fuel ih =>
    intro off
    unfold url_scan
    split
    · rename_i hc
      simp only [Bool.and_eq_true, decide_eq_true_eq, Bool.not_eq_true'] at hc
      obtain ⟨hlt, h0⟩ := hc
      obtain ⟨a, b, c, d⟩ := ih (off + 1)
      refine ⟨by omega, fun _ => b (by omega), ?_, ?_⟩
      · intro i hi hi2
        by_cases h4 : off + 1 ≤ i
        · exact c i h4 hi2
        · have : i = off := by omega
          rw [this]; exact h0
      · intro h1 h2
        exact d (by omega) h2
    · rename_i hc
      refine ⟨le_refl _, fun h => h, ?_, ?_⟩
      · intro i h1 h2; omega
      · intro _ h2
        simp only [Bool.and_eq_true, decide_eq_true_eq, Bool.not_eq_true', not_and,
          Bool.not_eq_false] at hc
        exact hc h2

theorem url_escape_switch_eq (s : Bool) (r : MD_RENDER_HTML) (ch : MD_CHAR) :
    url_escape_switch s r ch = { r with output := r.output ++ url_switch_chunks s ch } := by
  unfold url_escape_switch url_switch_chunks RENDER_LITERAL render_text
  split_ifs <;> simp

theorem render_url_escaped_loop_spec (s : Bool) (data : List MD_CHAR) :
    ∀ (fuel : Nat) (r : MD_RENDER_HTML) (beg : Nat), beg ≤ data.length →
      data.length - beg < fuel →
      ∃ ws, render_url_escaped_loop s data fuel r beg beg
          = { r with output := r.output ++ ws } ∧
        ws.flatten = (data.drop beg).flatMap (url_byte s) := by
  intro fuel
  induction fuel with
  | zero => intro r beg _ h; omega
  | succ fuel ih =>
    intro r beg hbeg hfuel
    unfold render_url_escaped_loop
    dsimp only
    obtain ⟨a2, b2, c2, d2⟩ := url_scan_spec s data data.length beg
    generalize url_scan s data data.length beg = o2 at a2 b2 c2 d2 ⊢
    have ho2 : o2 ≤ data.length := b2 hbeg
    have hid : ∀ i, beg ≤ i → i < beg + (o2 - beg) →
        url_byte s (data.getD i 0) = [data.getD i 0] := by
      intro i h1 h2
      have hn : URL_NEED_ESCAPE s (data.getD i 0) = false := c2 i h1 (by omega)
      simp only [url_byte, hn, Bool.false_eq_true, if_false]
    have hsplit := flatMap_drop_split (url_byte s) data (o2 - beg) beg (by omega) hid
    have e : beg + (o2 - beg) = o2 := by omega
    rw [e] at hsplit
    have hflush : ∃ w1, (if o2 > beg then render_text r ((data.drop beg).take (o2 - beg)) else r)
          = { r with output := r.output ++ w1 } ∧
        w1.flatten = (data.drop beg).take (o2 - beg) := by
      by_cases h : o2 > beg
      · exact ⟨[(data.drop beg).take (o2 - beg)], by simp [h, render_text], by simp⟩
      · refine ⟨[], by simp [h], ?_⟩
        have : o2 - beg = 0 := by omega
        simp [this]
    obtain ⟨w1, hw1, hw1f⟩ := hflush
    rw [hw1]
    by_cases hlt : o2 < data.length
    · simp only [hlt, if_true]
      rw [url_escape_switch_eq]
      obtain ⟨ws, hws, hwsf⟩ := ih
        { r with output := r.output ++ w1 ++ url_switch_chunks s (data.getD o2 0) }
        (o2 + 1) (by omega) (by omega)
      refine ⟨w1 ++ url_switch_chunks s (data.getD o2 0) ++ ws, ?_, ?_⟩
      · rw [hws]; simp [List.append_assoc]
      · have hneed := d2 (by omega) hlt
        rw [hsplit, flatMap_drop_step _ data o2 hlt]
        simp only [List.flatten_append, hw1f, hwsf, url_byte, hneed, if_true,
          List.append_assoc]
    · simp only [hlt, if_false]
      refine ⟨w1, rfl, ?_⟩
      have : o2 = data.length := by omega
      rw [hsplit, hw1f, this]
      simp

theorem render_url_escaped_spec (env : Env) (r : MD_RENDER_HTML) (data : List MD_CHAR) :
    ∃ ws, render_url_escaped env r data = { r with output := r.output ++ ws } ∧
      ws.flatten = data.flatMap (url_byte env.char_signed) := by
  have := render_url_escaped_loop_spec env.char_signed data (data.length + 1) r 0
    (by omega) (by omega)
  simpa [render_url_escaped] using this

theorem written_since_render_url_escaped (env : Env) (r : MD_RENDER_HTML)
    (data : List MD_CHAR) :
    written_since r (render_url_escaped env r data) = data.flatMap (url_byte env.char_signed) := by
  obtain ⟨ws, h1, h2⟩ := render_url_escaped_spec env r data
  rw [h1, written_since_append, h2]

theorem written_since_render_html_escaped (r : MD_RENDER_HTML) (data : List MD_CHAR) :
    written_since r (render_html_escaped r data) = data.flatMap (html_byte r.escape_map) := by
  obtain ⟨ws, h1, h2⟩ := render_html_escaped_spec r data
  rw [h1, written_since_append, h2]

/-! ### Facts about concatenations of per-byte outputs -/

theorem flatMap_eq_self (f : MD_CHAR → List MD_CHAR) (d : List MD_CHAR)
    (h : ∀ b ∈ d, f b = [b]) : d.flatMap f = d := by
  induction d with
  | nil => rfl
  | cons a t ih =>
    rw [List.flatMap_cons, h a (List.mem_cons_self _ _),
      ih (fun b hb => h b (List.mem_cons_of_mem _ hb))]
    rfl

theorem not_mem_flatMap (f : MD_CHAR → List MD_CHAR) (d : List MD_CHAR) (x : MD_CHAR)
    (h : ∀ b, x ∉ f b) : x ∉ d.flatMap f := by
  intro hx
  rw [List.mem_flatMap] at hx
  obtain ⟨b, _, hb⟩ := hx
  exact h b hb

theorem amp_starts_append (ents : List (List MD_CHAR)) (a b : List MD_CHAR)
    (ha : amp_starts ents a) (hb : amp_starts ents b) : amp_starts ents (a ++ b) := by
  intro i hi hamp
  by_cases h : i < a.length
  · have e1 : (a ++ b).getD i 0 = a.getD i 0 := by
      simp [List.getD, List.getElem?_append_left h]
    obtain ⟨e, he, hp⟩ := ha i h (e1 ▸ hamp)
    refine ⟨e, he, ?_⟩
    rw [List.drop_append_of_le_length (by omega)]
    exact hp.trans (List.prefix_append _ _)
  · have hle : a.length ≤ i := by omega
    have e1 : (a ++ b).getD i 0 = b.getD (i - a.length) 0 := by
      simp [List.getD, List.getElem?_append_right hle]
    have hlen : i - a.length < b.length := by
      rw [List.length_append] at hi; omega
    obtain ⟨e, he, hp⟩ := hb (i - a.length) hlen (e1 ▸ hamp)
    refine ⟨e, he, ?_⟩
    have e2 : (a ++ b).drop i = b.drop (i - a.length) := by
      have : i = a.length + (i - a.length) := by omega
      conv_lhs => rw [this]
      exact List.drop_append _
    rw [e2]; exact hp

theorem amp_starts_flatMap (ents : List (List MD_CHAR)) (f : MD_CHAR → List MD_CHAR)
    (h : ∀ b, amp_starts ents (f b)) (d : List MD_CHAR) : amp_starts ents (d.flatMap f) := by
  induction d with
  | nil => intro i hi; simp at hi
  | cons a t ih =>
    rw [List.flatMap_cons]
    exact amp_starts_append ents _ _ (h a) ih

set_option maxRecDepth 100000 in
theorem html_escape_spec_safe : ∀ ch : MD_CHAR,
    cchar '<' ∉ html_escape_spec ch ∧ cchar '>' ∉ html_escape_spec ch ∧
    cchar '"' ∉ html_escape_spec ch ∧ amp_starts html_entities (html_escape_spec ch) := by
  decide

set_option maxRecDepth 100000 in
theorem url_byte_safe_set : ∀ (s : Bool) (ch : MD_CHAR),
    is_ascii_alnum ch = true ∨ ch ∈ url_safe_punctuation → url_byte s ch = [ch] := by
  decide

set_option maxRecDepth 100000 in
theorem url_byte_safe : ∀ (s : Bool) (ch : MD_CHAR),
    cchar '<' ∉ url_byte s ch ∧ cchar '>' ∉ url_byte s ch ∧
    cchar '"' ∉ url_byte s ch ∧ amp_starts [cstr "&amp;"] (url_byte s ch) := by
  decide

set_option maxRecDepth 100000 in
theorem url_byte_percent : ∀ (s : Bool) (ch : MD_CHAR),
    ch ≠ 0 → is_ascii_alnum ch = false → ch ∉ url_safe_punctuation → ch ≠ cchar '&' →
    url_byte s ch = [cchar '%', upper_hex_digit (ch.val / 16), upper_hex_digit (ch.val % 16)] := by
  decide

/-! ### The UTF-8 emitter -/

theorem and_mask (x : Nat) :
    x &&& 0x3f = x % 64 ∧ x &&& 0x1f = x % 32 ∧ x &&& 0xf = x % 16 ∧ x &&& 0x7 = x % 8 :=
  ⟨Nat.and_pow_two_sub_one_eq_mod x 6, Nat.and_pow_two_sub_one_eq_mod x 5,
   Nat.and_pow_two_sub_one_eq_mod x 4, Nat.and_pow_two_sub_one_eq_mod x 3⟩

theorem shift_div (x : Nat) :
    x >>> 0 = x ∧ x >>> 6 = x / 64 ∧ x >>> 12 = x / 4096 ∧ x >>> 18 = x / 262144 :=
  ⟨rfl, Nat.shiftRight_eq_div_pow x 6, Nat.shiftRight_eq_div_pow x 12,
   Nat.shiftRight_eq_div_pow x 18⟩

theorem or_lead2 : ∀ y, y < 32 → 0xc0 ||| y = 0xc0 + y := by decide

theorem or_lead3 : ∀ y, y < 16 → 0xe0 ||| y = 0xe0 + y := by decide

theorem or_lead4 : ∀ y, y < 8 → 0xf0 ||| y = 0xf0 + y := by decide

/-- The buffer of `render_utf8_codepoint` in arithmetic form. -/
theorem utf8_buffer_eq (c : Nat) :
    utf8_buffer c =
      if c ≤ 0x7f then (1, [to_uchar c])
      else if c ≤ 0x7ff then (2, [to_uchar (0xc0 + c / 64 % 32), to_uchar (0x80 + c % 64)])
      else if c ≤ 0xffff then
        (3, [to_uchar (0xe0 + c / 4096 % 16), to_uchar (0x80 + c / 64 % 64),
             to_uchar (0x80 + c % 64)])
      else
        (4, [to_uchar (0xf0 + c / 262144 % 8), to_uchar (0x80 + c / 4096 % 64),
             to_uchar (0x80 + c / 64 % 64), to_uchar (0x80 + c % 64)]) := by
  unfold utf8_buffer
  simp only [(and_mask _).1, (and_mask _).2.1, (and_mask _).2.2.1, (and_mask _).2.2.2,
    (shift_div c).1, (shift_div c).2.1, (shift_div c).2.2.1, (shift_div c).2.2.2]
  rw [or_lead2 _ (Nat.mod_lt _ (by decide)), or_lead3 _ (Nat.mod_lt _ (by decide)),
    or_lead4 _ (Nat.mod_lt _ (by decide))]

theorem to_uchar_val (n : Nat) : (to_uchar n).val = n % 256 := rfl

theorem render_utf8_codepoint_in_range (c : Nat) (hpos : 0 < c) (hmax : c ≤ 0x10ffff)
    (r : MD_RENDER_HTML) (fn_append : FnAppend) :
    render_utf8_codepoint r c fn_append
      = fn_append r ((utf8_buffer c).2.take (utf8_buffer c).1) := by
  unfold render_utf8_codepoint
  simp only [hpos, hmax, and_self, if_true]

theorem render_utf8_codepoint_out_of_range (c : Nat) (h : c = 0 ∨ 0x10ffff < c)
    (r : MD_RENDER_HTML) (fn_append : FnAppend) :
    render_utf8_codepoint r c fn_append = fn_append r utf8_replacement_char := by
  unfold render_utf8_codepoint
  have : ¬ (0 < c ∧ c ≤ 0x10ffff) := by omega
  simp only [this, if_false]

/-- The bytes `render_utf8_codepoint` hands over for a codepoint in range. -/
theorem utf8_taken_eq (c : Nat) :
    (utf8_buffer c).2.take (utf8_buffer c).1 =
      if c ≤ 0x7f then [to_uchar c]
      else if c ≤ 0x7ff then [to_uchar (0xc0 + c / 64 % 32), to_uchar (0x80 + c % 64)]
      else if c ≤ 0xffff then
        [to_uchar (0xe0 + c / 4096 % 16), to_uchar (0x80 + c / 64 % 64),
         to_uchar (0x80 + c % 64)]
      else
        [to_uchar (0xf0 + c / 262144 % 8), to_uchar (0x80 + c / 4096 % 64),
         to_uchar (0x80 + c / 64 % 64), to_uchar (0x80 + c % 64)] := by
  rw [utf8_buffer_eq]
  split_ifs <;> rfl

theorem utf8_decode_taken (c : Nat) (hpos : 0 < c) (hmax : c ≤ 0x10ffff)
    (hscalar : c < 0xD800 ∨ 0xDFFF < c) :
    utf8_decode ((utf8_buffer c).2.take (utf8_buffer c).1) = some c := by
  rw [utf8_taken_eq]
  by_cases h1 : c ≤ 0x7f
  · rw [if_pos h1]
    have e : c % 256 = c := by omega
    simp only [utf8_decode, to_uchar_val, e]
    rw [if_pos (by omega)]
  · rw [if_neg h1]
    by_cases h2 : c ≤ 0x7ff
    · rw [if_pos h2]
      simp only [utf8_decode, to_uchar_val, is_continuation, decide_eq_true_eq]
      rw [if_pos (by omega), if_pos (by omega)]
      congr 1; omega
    · rw [if_neg h2]
      by_cases h3 : c ≤ 0xffff
      · rw [if_pos h3]
        simp only [utf8_decode, to_uchar_val, is_continuation, decide_eq_true_eq]
        rw [if_pos (by omega), if_pos (by omega)]
        congr 1; omega
      · rw [if_neg h3]
        simp only [utf8_decode, to_uchar_val, is_continuation, decide_eq_true_eq]
        rw [if_pos (by omega), if_pos (by omega)]
        congr 1; omega

/-! ### Entity references in text -/

theorem text_callback_entity_verbatim (env : Env) (r : MD_RENDER_HTML) (t : List MD_CHAR)
    (hflag : r.flags &&& env.MD_RENDER_FLAG_VERBATIM_ENTITIES ≠ 0) :
    text_callback env MD_TEXT_ENTITY t r = render_html_escaped r t := by
  simp only [text_callback, render_entity]
  rw [if_pos (by simpa using hflag)]

theorem text_callback_entity_not_found (env : Env) (r : MD_RENDER_HTML) (t : List MD_CHAR)
    (hflag : r.flags &&& env.MD_RENDER_FLAG_VERBATIM_ENTITIES = 0)
    (hnamed : ¬ (3 < t.length ∧ t.getD 1 0 = cchar '#'))
    (hlookup : env.entity_lookup t = none) :
    text_callback env MD_TEXT_ENTITY t r = render_html_escaped r t := by
  simp only [text_callback, render_entity]
  rw [if_neg (by simp [hflag]), if_neg (by simpa using hnamed), hlookup]

set_option maxRecDepth 100000 in
theorem html_escape_spec_ne_nil : ∀ ch : MD_CHAR, html_escape_spec ch ≠ [] := by
  decide

/-! ### The claims -/

/-- C1: with the escape map that `md_render_html` builds, the runs
`render_html_escaped` writes to the sink, concatenated, are the concatenation
over the bytes of the data, in order, of `&amp;` for `&`, `&lt;` for `<`,
`&gt;` for `>`, `&quot;` for `"` and the byte itself for every other byte,
for data of every length; data without the four characters is written
unchanged.  Nothing else of the state changes. -/
theorem render_html_escaped_contract (r : MD_RENDER_HTML) (d : List MD_CHAR)
    (hmap : r.escape_map = md_render_html_escape_map) :
    ∃ ws, render_html_escaped r d = { r with output := r.output ++ ws } ∧
      ws.flatten = d.flatMap html_escape_spec ∧
      ((∀ b ∈ d, b ≠ cchar '&' ∧ b ≠ cchar '<' ∧ b ≠ cchar '>' ∧ b ≠ cchar '"') →
        ws.flatten = d) := by
  obtain ⟨ws, h1, h2⟩ := render_html_escaped_spec r d
  have h3 : ws.flatten = d.flatMap html_escape_spec := by
    rw [h2, hmap]
    exact congrArg _ (funext html_byte_md_render_html)
  refine ⟨ws, h1, h3, ?_⟩
  intro hno
  rw [h3]
  apply flatMap_eq_self
  intro b hb
  obtain ⟨a1, a2, a3, a4⟩ := hno b hb
  simp [html_escape_spec, a1, a2, a3, a4]

theorem render_html_escaped_contract_witness :
    (md_render_html_render 0).escape_map = md_render_html_escape_map ∧
    ∃ ws, render_html_escaped (md_render_html_render 0) (cstr "a<b>&\"c d e")
        = { md_render_html_render 0 with output := (md_render_html_render 0).output ++ ws } ∧
      ws.flatten = (cstr "a<b>&\"c d e").flatMap html_escape_spec ∧
      ((∀ b ∈ cstr "a<b>&\"c d e",
          b ≠ cchar '&' ∧ b ≠ cchar '<' ∧ b ≠ cchar '>' ∧ b ≠ cchar '"') →
        ws.flatten = cstr "a<b>&\"c d e") :=
  ⟨rfl, render_html_escaped_contract (md_render_html_render 0) (cstr "a<b>&\"c d e") rfl⟩

/-- C2: with the escape map that `md_render_html` builds, the bytes
`render_html_escaped` writes contain no `<`, no `>` and no `"`, and every `&`
among them is the first byte of one of `&amp;`, `&lt;`, `&gt;`, `&quot;` at
that position of the output. -/
theorem render_html_escaped_no_markup (r : MD_RENDER_HTML) (d : List MD_CHAR)
    (hmap : r.escape_map = md_render_html_escape_map) :
    ∀ out, out = written_since r (render_html_escaped r d) →
      cchar '<' ∉ out ∧ cchar '>' ∉ out ∧ cchar '"' ∉ out ∧
      ∀ i, i < out.length → out.getD i 0 = cchar '&' →
        ∃ e ∈ html_entities, e <+: out.drop i := by
  intro out hout
  have h : out = d.flatMap html_escape_spec := by
    rw [hout, written_since_render_html_escaped, hmap]
    exact congrArg _ (funext html_byte_md_render_html)
  subst h
  exact ⟨not_mem_flatMap _ _ _ (fun b => (html_escape_spec_safe b).1),
    not_mem_flatMap _ _ _ (fun b => (html_escape_spec_safe b).2.1),
    not_mem_flatMap _ _ _ (fun b => (html_escape_spec_safe b).2.2.1),
    amp_starts_flatMap _ _ (fun b => (html_escape_spec_safe b).2.2.2) d⟩

theorem render_html_escaped_no_markup_witness :
    (md_render_html_render 0).escape_map = md_render_html_escape_map ∧
    cchar '<' ∉ written_since (md_render_html_render 0)
        (render_html_escaped (md_render_html_render 0) (cstr "<a>&amp;\"b\"")) ∧
    cchar '>' ∉ written_since (md_render_html_render 0)
        (render_html_escaped (md_render_html_render 0) (cstr "<a>&amp;\"b\"")) ∧
    cchar '"' ∉ written_since (md_render_html_render 0)
        (render_html_escaped (md_render_html_render 0) (cstr "<a>&amp;\"b\"")) ∧
    ∀ i, i < (written_since (md_render_html_render 0)
        (render_html_escaped (md_render_html_render 0) (cstr "<a>&amp;\"b\""))).length →
      (written_since (md_render_html_render 0)
        (render_html_escaped (md_render_html_render 0) (cstr "<a>&amp;\"b\""))).getD i 0 = cchar '&' →
      ∃ e ∈ html_entities, e <+: (written_since (md_render_html_render 0)
        (render_html_escaped (md_render_html_render 0) (cstr "<a>&amp;\"b\""))).drop i :=
  ⟨rfl, render_html_escaped_no_markup (md_render_html_render 0)
    (cstr "<a>&amp;\"b\"") rfl _ rfl⟩

/-- C3: a byte run made only of ASCII letters, ASCII digits and bytes of the
punctuation set `-_.+!*'(),%#@?=;:/,+$` is written by `render_url_escaped`
exactly as it is, in order (the writes concatenated). -/
theorem render_url_escaped_safe_run (env : Env) (r : MD_RENDER_HTML) (d : List MD_CHAR)
    (hsafe : ∀ b ∈ d, is_ascii_alnum b = true ∨ b ∈ url_safe_punctuation) :
    ∃ ws, render_url_escaped env r d = { r with output := r.output ++ ws } ∧
      ws.flatten = d := by
  obtain ⟨ws, h1, h2⟩ := render_url_escaped_spec env r d
  refine ⟨ws, h1, ?_⟩
  rw [h2]
  exact flatMap_eq_self _ _ (fun b hb => url_byte_safe_set env.char_signed b (hsafe b hb))

set_option maxRecDepth 8000 in
theorem render_url_escaped_safe_run_witness :
    (∀ b ∈ cstr "a.com/x?y=(1)#it's",
      is_ascii_alnum b = true ∨ b ∈ url_safe_punctuation) ∧
    ∃ ws, render_url_escaped env_no_entities (md_render_html_render 0)
          (cstr "a.com/x?y=(1)#it's")
        = { md_render_html_render 0 with output := (md_render_html_render 0).output ++ ws } ∧
      ws.flatten = cstr "a.com/x?y=(1)#it's" :=
  ⟨by decide, render_url_escaped_safe_run env_no_entities (md_render_html_render 0)
    (cstr "a.com/x?y=(1)#it's") (by decide)⟩

/-- C4, the code at the input `it's`: `render_url_escaped` writes the
apostrophe as it is, so the output is `it's` and not `it&#x27;s`; the
apostrophe is in the set that `URL_NEED_ESCAPE` lets through, and the `case`
of the switch that would write `&#x27;` is never reached. -/
theorem render_url_escaped_apostrophe (env : Env) (r : MD_RENDER_HTML) :
    URL_NEED_ESCAPE env.char_signed (cchar '\'') = false ∧
    written_since r (render_url_escaped env r (cstr "it's")) = cstr "it's" ∧
    written_since r (render_url_escaped env r (cstr "it's")) ≠ cstr "it&#x27;s" := by
  rw [written_since_render_url_escaped]
  cases env.char_signed <;> decide

/-- C5, the code at the one-byte run 0x00: the byte is not a letter or digit,
not in the punctuation set and not `&`, yet `render_url_escaped` writes it
unchanged as the single byte 0x00 instead of `%00`, because `strchr` finds
the terminating NUL of the punctuation string. -/
theorem render_url_escaped_nul (env : Env) (r : MD_RENDER_HTML) :
    is_ascii_alnum 0 = false ∧ (0 : MD_CHAR) ∉ url_safe_punctuation ∧
    (0 : MD_CHAR) ≠ cchar '&' ∧
    URL_NEED_ESCAPE env.char_signed 0 = false ∧
    written_since r (render_url_escaped env r [0]) = [0] ∧
    written_since r (render_url_escaped env r [0]) ≠ cstr "%00" := by
  rw [written_since_render_url_escaped]
  cases env.char_signed <;> decide

/-- Every byte other than 0x00 that is not an ASCII letter or digit, not in
the punctuation set and not `&` is written by `render_url_escaped` as `%`
and the two uppercase hexadecimal digits of its high and low nibble,
whether plain `char` is signed or not. -/
theorem render_url_escaped_percent (env : Env) (r : MD_RENDER_HTML) (b : MD_CHAR)
    (hnul : b ≠ 0) (halnum : is_ascii_alnum b = false) (hpunct : b ∉ url_safe_punctuation)
    (hamp : b ≠ cchar '&') :
    written_since r (render_url_escaped env r [b])
      = [cchar '%', upper_hex_digit (b.val / 16), upper_hex_digit (b.val % 16)] := by
  rw [written_since_render_url_escaped]
  simp only [List.flatMap_cons, List.flatMap_nil, List.append_nil]
  exact url_byte_percent env.char_signed b hnul halnum hpunct hamp

/-- C6: the bytes `render_url_escaped` writes contain no `"`, no `<` and no
`>`; they are the in-order concatenation of the per-byte outputs, in which
`&` is written as `&amp;`; and every `&` in the output is immediately
followed by `amp;`. -/
theorem render_url_escaped_attribute_safe (env : Env) (r : MD_RENDER_HTML)
    (d : List MD_CHAR) :
    ∀ out, out = written_since r (render_url_escaped env r d) →
      cchar '"' ∉ out ∧ cchar '<' ∉ out ∧ cchar '>' ∉ out ∧
      (out = d.flatMap (url_byte env.char_signed) ∧
        url_byte env.char_signed (cchar '&') = cstr "&amp;") ∧
      ∀ i, i < out.length → out.getD i 0 = cchar '&' →
        cstr "amp;" <+: out.drop (i + 1) := by
  intro out hout
  have h : out = d.flatMap (url_byte env.char_signed) := by
    rw [hout, written_since_render_url_escaped]
  refine ⟨?_, ?_, ?_, ⟨h, ?_⟩, ?_⟩
  · rw [h]; exact not_mem_flatMap _ _ _ (fun b => (url_byte_safe _ b).2.2.1)
  · rw [h]; exact not_mem_flatMap _ _ _ (fun b => (url_byte_safe _ b).1)
  · rw [h]; exact not_mem_flatMap _ _ _ (fun b => (url_byte_safe _ b).2.1)
  · cases env.char_signed <;> decide
  · intro i hi hamp
    have hs := amp_starts_flatMap [cstr "&amp;"] (url_byte env.char_signed)
      (fun b => (url_byte_safe _ b).2.2.2) d
    rw [← h] at hs
    obtain ⟨e, he, t, ht⟩ := hs i hi hamp
    rw [List.mem_singleton] at he
    subst he
    have : out.drop (i + 1) = (out.drop i).drop 1 := by rw [List.drop_drop]
    rw [this, ← ht]
    exact ⟨t, rfl⟩

theorem render_url_escaped_attribute_safe_witness :
    cchar '"' ∉ written_since (md_render_html_render 0)
        (render_url_escaped env_no_entities (md_render_html_render 0) (cstr "x?a=1&b=\"><i>")) ∧
    cchar '<' ∉ written_since (md_render_html_render 0)
        (render_url_escaped env_no_entities (md_render_html_render 0) (cstr "x?a=1&b=\"><i>")) ∧
    cchar '>' ∉ written_since (md_render_html_render 0)
        (render_url_escaped env_no_entities (md_render_html_render 0) (cstr "x?a=1&b=\"><i>")) ∧
    (written_since (md_render_html_render 0)
        (render_url_escaped env_no_entities (md_render_html_render 0) (cstr "x?a=1&b=\"><i>"))
        = (cstr "x?a=1&b=\"><i>").flatMap (url_byte env_no_entities.char_signed) ∧
      url_byte env_no_entities.char_signed (cchar '&') = cstr "&amp;") ∧
    ∀ i, i < (written_since (md_render_html_render 0)
        (render_url_escaped env_no_entities (md_render_html_render 0) (cstr "x?a=1&b=\"><i>"))).length →
      (written_since (md_render_html_render 0)
        (render_url_escaped env_no_entities (md_render_html_render 0) (cstr "x?a=1&b=\"><i>"))).getD i 0 = cchar '&' →
      cstr "amp;" <+: (written_since (md_render_html_render 0)
        (render_url_escaped env_no_entities (md_render_html_render 0) (cstr "x?a=1&b=\"><i>"))).drop (i + 1) :=
  render_url_escaped_attribute_safe env_no_entities (md_render_html_render 0)
    (cstr "x?a=1&b=\"><i>") _ rfl

/-- C7: for a codepoint `c` with `0 < c <= 0x10FFFF`, `render_utf8_codepoint`
calls its append function once, with 1 byte when `c <= 0x7F`, 2 bytes when
`0x7F < c <= 0x7FF`, 3 bytes when `0x7FF < c <= 0xFFFF` and 4 bytes above;
the lead byte is `0xxxxxxx`, `110xxxxx`, `1110xxxx` or `11110xxx`, each
further byte is `10xxxxxx`, the payload bits are those of `c` from the top
down, and for a scalar value (no surrogate) standard UTF-8 decoding of the
bytes gives `c` back. -/
theorem render_utf8_codepoint_valid (c : Nat) (hpos : 0 < c) (hmax : c ≤ 0x10FFFF) :
    ∃ bs : List MD_CHAR,
      (∀ (r : MD_RENDER_HTML) (fn_append : FnAppend),
        render_utf8_codepoint r c fn_append = fn_append r bs) ∧
      (c ≤ 0x7F → ∃ b0, bs = [b0] ∧ b0.val = c) ∧
      (0x7F < c → c ≤ 0x7FF → ∃ b0 b1, bs = [b0, b1] ∧
        b0.val / 32 = 6 ∧ b0.val % 32 = c / 64 ∧
        b1.val / 64 = 2 ∧ b1.val % 64 = c % 64) ∧
      (0x7FF < c → c ≤ 0xFFFF → ∃ b0 b1 b2, bs = [b0, b1, b2] ∧
        b0.val / 16 = 14 ∧ b0.val % 16 = c / 4096 ∧
        b1.val / 64 = 2 ∧ b1.val % 64 = c / 64 % 64 ∧
        b2.val / 64 = 2 ∧ b2.val % 64 = c % 64) ∧
      (0xFFFF < c → ∃ b0 b1 b2 b3, bs = [b0, b1, b2, b3] ∧
        b0.val / 8 = 30 ∧ b0.val % 8 = c / 262144 ∧
        b1.val / 64 = 2 ∧ b1.val % 64 = c / 4096 % 64 ∧
        b2.val / 64 = 2 ∧ b2.val % 64 = c / 64 % 64 ∧
        b3.val / 64 = 2 ∧ b3.val % 64 = c % 64) ∧
      ((c < 0xD800 ∨ 0xDFFF < c) → utf8_decode bs = some c) := by
  refine ⟨(utf8_buffer c).2.take (utf8_buffer c).1,
    fun r fn_append => render_utf8_codepoint_in_range c hpos hmax r fn_append,
    ?_, ?_, ?_, ?_, utf8_decode_taken c hpos hmax⟩
  · intro h1
    rw [utf8_taken_eq, if_pos h1]
    exact ⟨_, rfl, by rw [to_uchar_val]; omega⟩
  · intro h1 h2
    rw [utf8_taken_eq, if_neg (by omega), if_pos h2]
    refine ⟨_, _, rfl, ?_⟩
    simp only [to_uchar_val]
    omega
  · intro h1 h2
    rw [utf8_taken_eq, if_neg (by omega), if_neg (by omega), if_pos h2]
    refine ⟨_, _, _, rfl, ?_⟩
    simp only [to_uchar_val]
    omega
  · intro h1
    rw [utf8_taken_eq, if_neg (by omega), if_neg (by omega), if_neg (by omega)]
    refine ⟨_, _, _, _, rfl, ?_⟩
    simp only [to_uchar_val]
    omega

theorem render_utf8_codepoint_valid_witness :
    0 < 0x20AC ∧ 0x20AC ≤ 0x10FFFF ∧
    ∃ bs : List MD_CHAR,
      (∀ (r : MD_RENDER_HTML) (fn_append : FnAppend),
        render_utf8_codepoint r 0x20AC fn_append = fn_append r bs) ∧
      (0x20AC ≤ 0x7F → ∃ b0, bs = [b0] ∧ b0.val = 0x20AC) ∧
      (0x7F < 0x20AC → 0x20AC ≤ 0x7FF → ∃ b0 b1, bs = [b0, b1] ∧
        b0.val / 32 = 6 ∧ b0.val % 32 = 0x20AC / 64 ∧
        b1.val / 64 = 2 ∧ b1.val % 64 = 0x20AC % 64) ∧
      (0x7FF < 0x20AC → 0x20AC ≤ 0xFFFF → ∃ b0 b1 b2, bs = [b0, b1, b2] ∧
        b0.val / 16 = 14 ∧ b0.val % 16 = 0x20AC / 4096 ∧
        b1.val / 64 = 2 ∧ b1.val % 64 = 0x20AC / 64 % 64 ∧
        b2.val / 64 = 2 ∧ b2.val % 64 = 0x20AC % 64) ∧
      (0xFFFF < 0x20AC → ∃ b0 b1 b2 b3, bs = [b0, b1, b2, b3] ∧
        b0.val / 8 = 30 ∧ b0.val % 8 = 0x20AC / 262144 ∧
        b1.val / 64 = 2 ∧ b1.val % 64 = 0x20AC / 4096 % 64 ∧
        b2.val / 64 = 2 ∧ b2.val % 64 = 0x20AC / 64 % 64 ∧
        b3.val / 64 = 2 ∧ b3.val % 64 = 0x20AC % 64) ∧
      ((0x20AC < 0xD800 ∨ 0xDFFF < 0x20AC) → utf8_decode bs = some 0x20AC) :=
  ⟨by decide, by decide, render_utf8_codepoint_valid 0x20AC (by decide) (by decide)⟩

/-- C8: for every codepoint, `render_utf8_codepoint` calls its append
function once with a byte run that is not empty and holds no 0x00 byte; for
codepoint 0 and for every codepoint above 0x10FFFF that run is exactly
EF BF BD. -/
theorem render_utf8_codepoint_replacement (c : Nat) :
    ∃ bs : List MD_CHAR,
      (∀ (r : MD_RENDER_HTML) (fn_append : FnAppend),
        render_utf8_codepoint r c fn_append = fn_append r bs) ∧
      bs ≠ [] ∧ (0 : MD_CHAR) ∉ bs ∧
      ((c = 0 ∨ 0x10FFFF < c) → bs = [0xEF, 0xBF, 0xBD]) := by
  by_cases h : c = 0 ∨ 0x10FFFF < c
  · exact ⟨utf8_replacement_char,
      fun r fn_append => render_utf8_codepoint_out_of_range c h r fn_append,
      by decide, by decide, fun _ => rfl⟩
  · have hpos : 0 < c := by omega
    have hmax : c ≤ 0x10ffff := by omega
    refine ⟨(utf8_buffer c).2.take (utf8_buffer c).1,
      fun r fn_append => render_utf8_codepoint_in_range c hpos hmax r fn_append,
      ?_, ?_, fun h2 => absurd h2 h⟩
    · rw [utf8_taken_eq]; split_ifs <;> simp
    · rw [utf8_taken_eq]
      intro hmem
      have hval : ∀ n, (0 : MD_CHAR) = to_uchar n → n % 256 = 0 := by
        intro n e
        have := congrArg Fin.val e
        rw [to_uchar_val] at this
        exact this.symm
      split_ifs at hmem <;>
        simp only [List.mem_cons, List.mem_singleton, List.not_mem_nil, or_false] at hmem
      · have := hval _ hmem; omega
      · rcases hmem with e | e <;> have := hval _ e <;> omega
      · rcases hmem with e | e | e <;> have := hval _ e <;> omega
      · rcases hmem with e | e | e | e <;> have := hval _ e <;> omega

theorem render_utf8_codepoint_replacement_witness :
    ∃ bs : List MD_CHAR,
      (∀ (r : MD_RENDER_HTML) (fn_append : FnAppend),
        render_utf8_codepoint r 0 fn_append = fn_append r bs) ∧
      bs ≠ [] ∧ (0 : MD_CHAR) ∉ bs ∧
      (((0 : Nat) = 0 ∨ 0x10FFFF < 0) → bs = [0xEF, 0xBF, 0xBD]) :=
  render_utf8_codepoint_replacement 0

/-- C9, the code at the entity run `&amp;` with the verbatim-entities flag
set: the text callback hands the run to `render_html_escaped`, so the sink
receives `&amp;amp;` and not the run `&amp;` itself. -/
theorem text_callback_entity_verbatim_amp :
    (md_render_html_render 2).flags &&& env_no_entities.MD_RENDER_FLAG_VERBATIM_ENTITIES ≠ 0 ∧
    written_since (md_render_html_render 2)
        (text_callback env_no_entities MD_TEXT_ENTITY (cstr "&amp;") (md_render_html_render 2))
      = cstr "&amp;amp;" ∧
    written_since (md_render_html_render 2)
        (text_callback env_no_entities MD_TEXT_ENTITY (cstr "&amp;") (md_render_html_render 2))
      ≠ cstr "&amp;" := by
  decide

/-- With the verbatim-entities flag set, whatever the value of the flag bit,
an entity text event writes the HTML-text escaping of the run. -/
theorem text_callback_entity_verbatim_escaped (env : Env) (r : MD_RENDER_HTML)
    (t : List MD_CHAR) (hmap : r.escape_map = md_render_html_escape_map)
    (hflag : r.flags &&& env.MD_RENDER_FLAG_VERBATIM_ENTITIES ≠ 0) :
    written_since r (text_callback env MD_TEXT_ENTITY t r) = t.flatMap html_escape_spec := by
  rw [text_callback_entity_verbatim env r t hflag, written_since_render_html_escaped, hmap]
  exact congrArg _ (funext html_byte_md_render_html)

/-- C10 as stated fails: with the flag clear and `&foobar;` not found in the
entity table, the text callback writes `&amp;foobar;`, not `&foobar;`. -/
theorem text_callback_entity_unknown_counterexample :
    (md_render_html_render 0).flags &&& env_no_entities.MD_RENDER_FLAG_VERBATIM_ENTITIES = 0 ∧
    env_no_entities.entity_lookup (cstr "&foobar;") = none ∧
    written_since (md_render_html_render 0)
        (text_callback env_no_entities MD_TEXT_ENTITY (cstr "&foobar;")
          (md_render_html_render 0))
      = cstr "&amp;foobar;" ∧
    ¬ (written_since (md_render_html_render 0)
        (text_callback env_no_entities MD_TEXT_ENTITY (cstr "&foobar;")
          (md_render_html_render 0))
      = cstr "&foobar;") := by
  decide

/-- C10, amended: with the verbatim-entities flag clear, for a run that does
not take the numeric branch (`&#` with more than three bytes) and that the
entity table does not hold, an entity text event writes the bytes of the run
through the HTML-text escaper, byte by byte and in order (`&foobar;` becomes
`&amp;foobar;`); every byte of the run contributes output, and the call
returns with the rest of the state unchanged. -/
theorem text_callback_entity_unknown (env : Env) (r : MD_RENDER_HTML) (t : List MD_CHAR)
    (hmap : r.escape_map = md_render_html_escape_map)
    (hflag : r.flags &&& env.MD_RENDER_FLAG_VERBATIM_ENTITIES = 0)
    (hnamed : ¬ (3 < t.length ∧ t.getD 1 0 = cchar '#'))
    (hlookup : env.entity_lookup t = none) :
    ∃ ws, text_callback env MD_TEXT_ENTITY t r = { r with output := r.output ++ ws } ∧
      ws.flatten = t.flatMap html_escape_spec ∧
      ∀ b ∈ t, html_escape_spec b ≠ [] := by
  rw [text_callback_entity_not_found env r t hflag hnamed hlookup]
  obtain ⟨ws, h1, h2⟩ := render_html_escaped_spec r t
  refine ⟨ws, h1, ?_, fun b _ => html_escape_spec_ne_nil b⟩
  rw [h2, hmap]
  exact congrArg _ (funext html_byte_md_render_html)

theorem text_callback_entity_unknown_witness :
    (md_render_html_render 0).escape_map = md_render_html_escape_map ∧
    (md_render_html_render 0).flags &&& env_no_entities.MD_RENDER_FLAG_VERBATIM_ENTITIES = 0 ∧
    ¬ (3 < (cstr "&foobar;").length ∧ (cstr "&foobar;").getD 1 0 = cchar '#') ∧
    env_no_entities.entity_lookup (cstr "&foobar;") = none ∧
    ∃ ws, text_callback env_no_entities MD_TEXT_ENTITY (cstr "&foobar;")
          (md_render_html_render 0)
        = { md_render_html_render 0 with output := (md_render_html_render 0).output ++ ws } ∧
      ws.flatten = (cstr "&foobar;").flatMap html_escape_spec ∧
      ∀ b ∈ cstr "&foobar;", html_escape_spec b ≠ [] :=
  ⟨rfl, by decide, by decide, rfl,
    text_callback_entity_unknown env_no_entities (md_render_html_render 0) (cstr "&foobar;")
      rfl (by decide) (by decide) rfl⟩

/-! ### Numeric entity references -/

theorem dec_step_eq (s : Bool) (a : Nat) (b : MD_CHAR) (hb : is_dec_digit b = true) :
    to_unsigned (10 * ((a % 4294967296 : Nat) : Int) + (char_to_int s b - 48))
      = (10 * a + (b.val - 48)) % 4294967296 := by
  simp only [is_dec_digit, Bool.and_eq_true, decide_eq_true_eq] at hb
  have h128 : ¬ (128 ≤ b.val) := by omega
  simp only [to_unsigned, char_to_int, h128, decide_False, Bool.and_false, Bool.false_eq_true,
    if_false]
  omega

theorem dec_fold_eq (s : Bool) (ds : List MD_CHAR) (hd : ∀ b ∈ ds, is_dec_digit b = true) :
    ∀ a : Nat,
      ds.foldl (fun codepoint ch =>
          to_unsigned (10 * (codepoint : Int) + (char_to_int s ch - 48))) (a % 4294967296)
        = (ds.foldl (fun acc b => 10 * acc + (b.val - 48)) a) % 4294967296 := by
  induction ds with
  | nil => intro a; rfl
  | cons b t ih =>
    intro a
    simp only [List.foldl_cons]
    rw [dec_step_eq s a b (hd b (List.mem_cons_self _ _))]
    exact ih (fun c hc => hd c (List.mem_cons_of_mem _ hc)) _

theorem dec_fold_lt (ds : List MD_CHAR) (hd : ∀ b ∈ ds, is_dec_digit b = true) :
    ∀ (a k : Nat), a < 10 ^ k →
      ds.foldl (fun acc b => 10 * acc + (b.val - 48)) a < 10 ^ (k + ds.length) := by
  induction ds with
  | nil => intro a k h; simpa using h
  | cons b t ih =>
    intro a k h
    have hb := hd b (List.mem_cons_self _ _)
    simp only [is_dec_digit, Bool.and_eq_true, decide_eq_true_eq] at hb
    simp only [List.foldl_cons, List.length_cons]
    have e : k + (t.length + 1) = (k + 1) + t.length := by omega
    rw [e]
    apply ih (fun c hc => hd c (List.mem_cons_of_mem _ hc))
    rw [Nat.pow_succ]
    omega

theorem hex_step_eq (s : Bool) (a : Nat) (b : MD_CHAR) (hb : is_hex_digit b = true) :
    (16 * (a % 4294967296) + hex_val s b) % 4294967296
      = (16 * a + hex_digit_value b) % 4294967296 := by
  simp only [is_hex_digit, is_dec_digit, Bool.or_eq_true, Bool.and_eq_true,
    decide_eq_true_eq] at hb
  have h128 : ¬ (128 ≤ b.val) := by omega
  have hv : hex_val s b = hex_digit_value b := by
    simp only [hex_val, hex_digit_value, to_unsigned, char_to_int, h128, decide_False,
      Bool.and_false, Bool.false_eq_true, if_false]
    split_ifs <;> omega
  rw [hv]
  omega

theorem hex_fold_eq (s : Bool) (hs : List MD_CHAR) (hd : ∀ b ∈ hs, is_hex_digit b = true) :
    ∀ a : Nat,
      hs.foldl (fun codepoint ch => (16 * codepoint + hex_val s ch) % 4294967296)
          (a % 4294967296)
        = (hs.foldl (fun acc b => 16 * acc + hex_digit_value b) a) % 4294967296 := by
  induction hs with
  | nil => intro a; rfl
  | cons b t ih =>
    intro a
    simp only [List.foldl_cons]
    rw [hex_step_eq s a b (hd b (List.mem_cons_self _ _))]
    exact ih (fun c hc => hd c (List.mem_cons_of_mem _ hc)) _

theorem hex_fold_lt (hs : List MD_CHAR) (hd : ∀ b ∈ hs, is_hex_digit b = true) :
    ∀ (a k : Nat), a < 16 ^ k →
      hs.foldl (fun acc b => 16 * acc + hex_digit_value b) a < 16 ^ (k + hs.length) := by
  induction hs with
  | nil => intro a k h; simpa using h
  | cons b t ih =>
    intro a k h
    have hb := hd b (List.mem_cons_self _ _)
    simp only [is_hex_digit, is_dec_digit, Bool.or_eq_true, Bool.and_eq_true,
      decide_eq_true_eq] at hb
    simp only [List.foldl_cons, List.length_cons]
    have e : k + (t.length + 1) = (k + 1) + t.length := by omega
    rw [e]
    apply ih (fun c hc => hd c (List.mem_cons_of_mem _ hc))
    rw [Nat.pow_succ]
    have : hex_digit_value b ≤ 15 := by
      unfold hex_digit_value; split_ifs <;> omega
    omega

/-- The decimal loop of `render_entity` on `&#D;` computes the value of `D`. -/
theorem entity_dec_codepoint_eq (s : Bool) (ds : List MD_CHAR)
    (hd : ∀ b ∈ ds, is_dec_digit b = true) (hlen : ds.length ≤ 7) :
    entity_dec_codepoint s (cchar '&' :: cchar '#' :: (ds ++ [cchar ';'])) = dec_value ds := by
  have htake : ((cchar '&' :: cchar '#' :: (ds ++ [cchar ';'])).drop 2).take
      ((cchar '&' :: cchar '#' :: (ds ++ [cchar ';'])).length - 1 - 2) = ds := by
    simp
  unfold entity_dec_codepoint
  rw [htake]
  have h1 := dec_fold_eq s ds hd 0
  have h2 := dec_fold_lt ds hd 0 0 (by decide)
  have h3 : 10 ^ (0 + ds.length) ≤ 10 ^ 7 := Nat.pow_le_pow_right (by decide) (by omega)
  simp only [Nat.zero_mod] at h1
  rw [h1]
  unfold dec_value
  apply Nat.mod_eq_of_lt
  have : (10 : Nat) ^ 7 < 4294967296 := by decide
  omega

/-- The hexadecimal loop of `render_entity` on `&#xH;` computes the value of `H`. -/
theorem entity_hex_codepoint_eq (s : Bool) (x : MD_CHAR) (hs : List MD_CHAR)
    (hd : ∀ b ∈ hs, is_hex_digit b = true) (hlen : hs.length ≤ 6) :
    entity_hex_codepoint s (cchar '&' :: cchar '#' :: x :: (hs ++ [cchar ';']))
      = hex_value hs := by
  have htake : ((cchar '&' :: cchar '#' :: x :: (hs ++ [cchar ';'])).drop 3).take
      ((cchar '&' :: cchar '#' :: x :: (hs ++ [cchar ';'])).length - 1 - 3) = hs := by
    simp
  unfold entity_hex_codepoint
  rw [htake]
  have h1 := hex_fold_eq s hs hd 0
  have h2 := hex_fold_lt hs hd 0 0 (by decide)
  have h3 : 16 ^ (0 + hs.length) ≤ 16 ^ 6 := Nat.pow_le_pow_right (by decide) (by omega)
  simp only [Nat.zero_mod] at h1
  rw [h1]
  unfold hex_value
  apply Nat.mod_eq_of_lt
  have : (16 : Nat) ^ 6 < 4294967296 := by decide
  omega

theorem cstr_amp_hash : cstr "&#" = [cchar '&', cchar '#'] := rfl

theorem cstr_semicolon : cstr ";" = [cchar ';'] := rfl

theorem render_entity_dec (env : Env) (r : MD_RENDER_HTML) (fn_append : FnAppend)
    (hflag : r.flags &&& env.MD_RENDER_FLAG_VERBATIM_ENTITIES = 0)
    (D : List MD_CHAR) (h1 : 1 ≤ D.length) (h7 : D.length ≤ 7)
    (hd : ∀ b ∈ D, is_dec_digit b = true) :
    render_entity env r (cstr "&#" ++ D ++ cstr ";") fn_append
      = render_utf8_codepoint r (dec_value D) fn_append := by
  have e : cstr "&#" ++ D ++ cstr ";" = cchar '&' :: cchar '#' :: (D ++ [cchar ';']) := by
    rw [cstr_amp_hash, cstr_semicolon]; rfl
  rw [e]
  obtain ⟨d, t, rfl⟩ : ∃ d t, D = d :: t := by
    cases D with
    | nil => simp at h1
    | cons d t => exact ⟨d, t, rfl⟩
  have hdd := hd d (List.mem_cons_self _ _)
  have hx : ¬ (d = cchar 'x' ∨ d = cchar 'X') := by
    intro h
    rcases h with h | h <;> subst h <;> exact absurd hdd (by decide)
  unfold render_entity
  rw [if_neg (by simp [hflag])]
  rw [if_pos (by simp [List.getD]), entity_dec_codepoint_eq env.char_signed _ hd h7]
  have : (cchar '&' :: cchar '#' :: (d :: t ++ [cchar ';'])).getD 2 0 = d := rfl
  simp only [this, if_neg hx]

theorem render_entity_hex (env : Env) (r : MD_RENDER_HTML) (fn_append : FnAppend)
    (hflag : r.flags &&& env.MD_RENDER_FLAG_VERBATIM_ENTITIES = 0)
    (x : MD_CHAR) (H : List MD_CHAR) (hx : x = cchar 'x' ∨ x = cchar 'X')
    (_h1 : 1 ≤ H.length) (h6 : H.length ≤ 6)
    (hd : ∀ b ∈ H, is_hex_digit b = true) :
    render_entity env r (cstr "&#" ++ x :: H ++ cstr ";") fn_append
      = render_utf8_codepoint r (hex_value H) fn_append := by
  have e : cstr "&#" ++ x :: H ++ cstr ";" = cchar '&' :: cchar '#' :: x :: (H ++ [cchar ';']) := by
    rw [cstr_amp_hash, cstr_semicolon]; rfl
  rw [e]
  unfold render_entity
  rw [if_neg (by simp [hflag])]
  rw [if_pos (by simp [List.getD]), entity_hex_codepoint_eq env.char_signed x _ hd h6]
  have : (cchar '&' :: cchar '#' :: x :: (H ++ [cchar ';'])).getD 2 0 = x := rfl
  simp only [this, if_pos hx]

theorem render_utf8_codepoint_ascii_A (r : MD_RENDER_HTML) (fn_append : FnAppend) :
    render_utf8_codepoint r 65 fn_append = fn_append r (cstr "A") :=
  render_utf8_codepoint_in_range 65 (by decide) (by decide) r fn_append

set_option maxRecDepth 8000 in
/-- C11: with the verbatim-entities flag clear, `render_entity` on `&#D;` with
`D` 1 to 7 decimal digits, and on `&#xH;` or `&#XH;` with `H` 1 to 6
hexadecimal digits of either case, makes exactly the call
`render_utf8_codepoint` of the number the digits denote, with the escaper of
the call site; so `&#65;` and `&#x41;` hand `A` to the escaper and `&#0;`
hands it EF BF BD, and as text events they are written as `A` and EF BF BD. -/
theorem render_entity_numeric (env : Env) (r : MD_RENDER_HTML) (fn_append : FnAppend)
    (hflag : r.flags &&& env.MD_RENDER_FLAG_VERBATIM_ENTITIES = 0) :
    (∀ D : List MD_CHAR, 1 ≤ D.length → D.length ≤ 7 → (∀ b ∈ D, is_dec_digit b = true) →
      render_entity env r (cstr "&#" ++ D ++ cstr ";") fn_append
        = render_utf8_codepoint r (dec_value D) fn_append) ∧
    (∀ (x : MD_CHAR) (H : List MD_CHAR), x = cchar 'x' ∨ x = cchar 'X' →
      1 ≤ H.length → H.length ≤ 6 → (∀ b ∈ H, is_hex_digit b = true) →
      render_entity env r (cstr "&#" ++ x :: H ++ cstr ";") fn_append
        = render_utf8_codepoint r (hex_value H) fn_append) ∧
    render_entity env r (cstr "&#65;") fn_append = fn_append r (cstr "A") ∧
    render_entity env r (cstr "&#x41;") fn_append = fn_append r (cstr "A") ∧
    render_entity env r (cstr "&#0;") fn_append = fn_append r [0xEF, 0xBF, 0xBD] ∧
    (r.escape_map = md_render_html_escape_map →
      written_since r (text_callback env MD_TEXT_ENTITY (cstr "&#65;") r) = cstr "A" ∧
      written_since r (text_callback env MD_TEXT_ENTITY (cstr "&#x41;") r) = cstr "A" ∧
      written_since r (text_callback env MD_TEXT_ENTITY (cstr "&#0;") r)
        = [0xEF, 0xBF, 0xBD]) := by
  have e1 : ∀ fn : FnAppend, render_entity env r (cstr "&#65;") fn = fn r (cstr "A") := by
    intro fn
    have := render_entity_dec env r fn hflag (cstr "65") (by decide) (by decide) (by decide)
    exact this.trans (render_utf8_codepoint_ascii_A r fn)
  have e2 : ∀ fn : FnAppend, render_entity env r (cstr "&#x41;") fn = fn r (cstr "A") := by
    intro fn
    have := render_entity_hex env r fn hflag (cchar 'x') (cstr "41") (Or.inl rfl)
      (by decide) (by decide) (by decide)
    exact this.trans (render_utf8_codepoint_ascii_A r fn)
  have e3 : ∀ fn : FnAppend,
      render_entity env r (cstr "&#0;") fn = fn r [0xEF, 0xBF, 0xBD] := by
    intro fn
    have := render_entity_dec env r fn hflag (cstr "0") (by decide) (by decide) (by decide)
    exact this.trans (render_utf8_codepoint_out_of_range 0 (Or.inl rfl) r fn)
  refine ⟨fun D h1 h7 hd => render_entity_dec env r fn_append hflag D h1 h7 hd,
    fun x H hx h1 h6 hd => render_entity_hex env r fn_append hflag x H hx h1 h6 hd,
    e1 fn_append, e2 fn_append, e3 fn_append, ?_⟩
  intro hmap
  have hw : ∀ bs : List MD_CHAR,
      written_since r (render_html_escaped r bs) = bs.flatMap html_escape_spec := by
    intro bs
    rw [written_since_render_html_escaped, hmap]
    exact congrArg _ (funext html_byte_md_render_html)
  refine ⟨?_, ?_, ?_⟩
  · show written_since r (render_entity env r (cstr "&#65;") render_html_escaped) = _
    rw [e1, hw]; decide
  · show written_since r (render_entity env r (cstr "&#x41;") render_html_escaped) = _
    rw [e2, hw]; decide
  · show written_since r (render_entity env r (cstr "&#0;") render_html_escaped) = _
    rw [e3, hw]; decide

set_option maxRecDepth 8000 in
theorem render_entity_numeric_witness :
    (md_render_html_render 0).flags &&& env_no_entities.MD_RENDER_FLAG_VERBATIM_ENTITIES = 0 ∧
    written_since (md_render_html_render 0)
        (text_callback env_no_entities MD_TEXT_ENTITY (cstr "&#x41;") (md_render_html_render 0))
      = cstr "A" ∧
    render_entity env_no_entities (md_render_html_render 0) (cstr "&#" ++ cstr "8364" ++ cstr ";")
        render_text
      = render_utf8_codepoint (md_render_html_render 0) (dec_value (cstr "8364")) render_text :=
  ⟨by decide,
    ((render_entity_numeric env_no_entities (md_render_html_render 0) render_html_escaped
      (by decide)).2.2.2.2.2 rfl).2.1,
    (render_entity_numeric env_no_entities (md_render_html_render 0) render_text
      (by decide)).1 (cstr "8364") (by decide) (by decide) (by decide)⟩

theorem get?_eq_some_getD {α : Type} (l : List α) (i : Nat) (d : α) (h : i < l.length) :
    l.get? i = some (l.getD i d) := by
  simp [List.getD, List.getElem?_eq_getElem h]

/-- At index `n` the offset equals the size, so the loop condition fails and
the loop ends there. -/
theorem render_attribute_loop_stop (env : Env) (f : FnAppend) (text : Option (List MD_CHAR))
    (types : List MD_TEXTTYPE) (offsets : List Nat) (size : Nat)
    (hlen : offsets.length = types.length + 1)
    (hlast : offsets.getD types.length 0 = size) (fuel : Nat) (r : MD_RENDER_HTML) :
    render_attribute_loop env ⟨text, size, types, offsets⟩ f (fuel + 1) types.length r
      = some (r, types.length) := by
  unfold render_attribute_loop
  simp only [get?_eq_some_getD offsets types.length 0 (by omega), hlast, lt_irrefl, if_false]

/-- Below index `n` the loop condition holds and the body runs once. -/
theorem render_attribute_loop_step (env : Env) (f : FnAppend) (text : List MD_CHAR)
    (types : List MD_TEXTTYPE) (offsets : List Nat) (size : Nat)
    (hlen : offsets.length = types.length + 1)
    (hmono : ∀ i, i < types.length → offsets.getD i 0 ≤ offsets.getD (i + 1) 0)
    (hlt : ∀ i, i < types.length → offsets.getD i 0 < size)
    (fuel i : Nat) (hi : i < types.length) (r : MD_RENDER_HTML) :
    render_attribute_loop env ⟨some text, size, types, offsets⟩ f (fuel + 1) i r
      = render_attribute_loop env ⟨some text, size, types, offsets⟩ f fuel (i + 1)
          (render_sub_run env f text types offsets r i) := by
  conv_lhs => unfold render_attribute_loop
  simp only [get?_eq_some_getD offsets i 0 (by omega),
    get?_eq_some_getD offsets (i + 1) 0 (by omega),
    get?_eq_some_getD types i MD_TEXT_NORMAL hi, hlt i hi, hmono i hi, if_true,
    Option.getD_some]
  congr 1

theorem render_attribute_loop_fold (env : Env) (f : FnAppend) (text : List MD_CHAR)
    (types : List MD_TEXTTYPE) (offsets : List Nat) (size : Nat)
    (hlen : offsets.length = types.length + 1)
    (hmono : ∀ i, i < types.length → offsets.getD i 0 ≤ offsets.getD (i + 1) 0)
    (hlt : ∀ i, i < types.length → offsets.getD i 0 < size)
    (hlast : offsets.getD types.length 0 = size) :
    ∀ (k i fuel : Nat) (r : MD_RENDER_HTML), i + k = types.length → k < fuel →
      render_attribute_loop env ⟨some text, size, types, offsets⟩ f fuel i r
        = some ((List.range' i k).foldl (render_sub_run env f text types offsets) r,
            types.length) := by
  intro k
  induction k with
  | zero =>
    intro i fuel r hik hfuel
    have : i = types.length := by omega
    subst this
    obtain ⟨fuel, rfl⟩ : ∃ g, fuel = g + 1 := ⟨fuel - 1, by omega⟩
    rw [render_attribute_loop_stop env f _ types offsets size hlen hlast]
    rfl
  | succ k ih =>
    intro i fuel r hik hfuel
    obtain ⟨fuel, rfl⟩ : ∃ g, fuel = g + 1 := ⟨fuel - 1, by omega⟩
    rw [render_attribute_loop_step env f text types offsets size hlen hmono hlt fuel i
      (by omega)]
    rw [ih (i + 1) fuel _ (by omega) (by omega)]
    rfl

/-- Contiguous sub-runs from offset 0 up to offset `o_k` make up the first
`o_k` bytes of the text. -/
theorem sub_runs_cover (text : List MD_CHAR) (offsets : List Nat) (n : Nat)
    (hfirst : offsets.getD 0 0 = 0)
    (hmono : ∀ i, i < n → offsets.getD i 0 ≤ offsets.getD (i + 1) 0) :
    ∀ k, k ≤ n →
      (List.range k).flatMap (fun i =>
          (text.drop (offsets.getD i 0)).take (offsets.getD (i + 1) 0 - offsets.getD i 0))
        = text.take (offsets.getD k 0) := by
  intro k
  induction k with
  | zero => intro _; rw [hfirst]; rfl
  | succ k ih =>
    intro hk
    rw [List.range_succ, List.flatMap_append, ih (by omega)]
    simp only [List.flatMap_cons, List.flatMap_nil, List.append_nil]
    have h := hmono k (by omega)
    have e : offsets.getD (k + 1) 0
        = offsets.getD k 0 + (offsets.getD (k + 1) 0 - offsets.getD k 0) := by omega
    conv_rhs => rw [e, List.take_add]


/-- C12: for an attribute with `n` sub-runs whose offsets are
`0 = o_0 <= ... <= o_n = size` with `o_i < size` for `i < n`, and for every
escaper `f` of the call site, the loop of `render_attribute` ends, given any
budget above `n`, with its index at `n`: the condition `o_i < size` holds
for `i < n` and fails at `n`, so the body runs `n` times.  The result is the
fold, over the indices `0 .. n-1` in order, of EF BF BD written directly for
an embedded-null sub-run, `render_entity` with `f` on `text[o_i, o_(i+1))`
for an entity and `f` on `text[o_i, o_(i+1))` otherwise; and the sub-runs
rendered, put end to end, are the first `size` bytes of the text: none is
skipped and none comes twice. -/
theorem render_attribute_sub_runs (env : Env) (r : MD_RENDER_HTML) (f : FnAppend)
    (text : List MD_CHAR) (types : List MD_TEXTTYPE) (offsets : List Nat) (size : Nat)
    (hlen : offsets.length = types.length + 1)
    (hfirst : offsets.getD 0 0 = 0)
    (hmono : ∀ i, i < types.length → offsets.getD i 0 ≤ offsets.getD (i + 1) 0)
    (hlt : ∀ i, i < types.length → offsets.getD i 0 < size)
    (hlast : offsets.getD types.length 0 = size) :
    (∀ fuel, types.length < fuel →
      render_attribute_loop env ⟨some text, size, types, offsets⟩ f fuel 0 r
        = some ((List.range types.length).foldl (fun acc i =>
            match types.getD i MD_TEXT_NORMAL with
            | MD_TEXT_NULLCHAR => render_text acc [0xEF, 0xBF, 0xBD]
            | MD_TEXT_ENTITY =>
              render_entity env acc
                ((text.drop (offsets.getD i 0)).take
                  (offsets.getD (i + 1) 0 - offsets.getD i 0)) f
            | _ =>
              f acc
                ((text.drop (offsets.getD i 0)).take
                  (offsets.getD (i + 1) 0 - offsets.getD i 0))) r, types.length)) ∧
    render_attribute env r ⟨some text, size, types, offsets⟩ f
      = (List.range types.length).foldl (fun acc i =>
          match types.getD i MD_TEXT_NORMAL with
          | MD_TEXT_NULLCHAR => render_text acc [0xEF, 0xBF, 0xBD]
          | MD_TEXT_ENTITY =>
            render_entity env acc
              ((text.drop (offsets.getD i 0)).take (offsets.getD (i + 1) 0 - offsets.getD i 0))
              f
          | _ =>
            f acc
              ((text.drop (offsets.getD i 0)).take
                (offsets.getD (i + 1) 0 - offsets.getD i 0))) r ∧
    (List.range types.length).flatMap (fun i =>
        (text.drop (offsets.getD i 0)).take (offsets.getD (i + 1) 0 - offsets.getD i 0))
      = text.take size := by
  have hfold := render_attribute_loop_fold env f text types offsets size hlen hmono hlt hlast
    types.length 0
  have hloop : ∀ fuel, types.length < fuel →
      render_attribute_loop env ⟨some text, size, types, offsets⟩ f fuel 0 r
        = some ((List.range types.length).foldl (render_sub_run env f text types offsets) r,
            types.length) := by
    intro fuel hfuel
    rw [hfold fuel r (by omega) hfuel, List.range_eq_range']
  refine ⟨hloop, ?_, ?_⟩
  · unfold render_attribute
    rw [hloop _ (by simp only []; omega)]
    rfl
  · rw [sub_runs_cover text offsets types.length hfirst hmono types.length (le_refl _), hlast]

theorem render_attribute_sub_runs_witness :
    ([0, 2, 3, 7] : List Nat).length
      = [MD_TEXT_NORMAL, MD_TEXT_NULLCHAR, MD_TEXT_ENTITY].length + 1 ∧
    ([0, 2, 3, 7] : List Nat).getD 0 0 = 0 ∧
    ([0, 2, 3, 7] : List Nat).getD [MD_TEXT_NORMAL, MD_TEXT_NULLCHAR, MD_TEXT_ENTITY].length 0
      = 7 ∧
    render_attribute env_no_entities (md_render_html_render 0)
        ⟨some (cstr "a<?&#9;"), 7, [MD_TEXT_NORMAL, MD_TEXT_NULLCHAR, MD_TEXT_ENTITY],
          [0, 2, 3, 7]⟩ render_html_escaped
      = (List.range [MD_TEXT_NORMAL, MD_TEXT_NULLCHAR, MD_TEXT_ENTITY].length).foldl
          (fun acc i =>
            match [MD_TEXT_NORMAL, MD_TEXT_NULLCHAR, MD_TEXT_ENTITY].getD i MD_TEXT_NORMAL with
            | MD_TEXT_NULLCHAR => render_text acc [0xEF, 0xBF, 0xBD]
            | MD_TEXT_ENTITY =>
              render_entity env_no_entities acc
                (((cstr "a<?&#9;").drop (([0, 2, 3, 7] : List Nat).getD i 0)).take
                  (([0, 2, 3, 7] : List Nat).getD (i + 1) 0 - ([0, 2, 3, 7] : List Nat).getD i 0))
                render_html_escaped
            | _ =>
              render_html_escaped acc
                (((cstr "a<?&#9;").drop (([0, 2, 3, 7] : List Nat).getD i 0)).take
                  (([0, 2, 3, 7] : List Nat).getD (i + 1) 0
                    - ([0, 2, 3, 7] : List Nat).getD i 0)))
          (md_render_html_render 0) :=
  ⟨rfl, rfl, rfl,
    (render_attribute_sub_runs env_no_entities (md_render_html_render 0) render_html_escaped
      (cstr "a<?&#9;") [MD_TEXT_NORMAL, MD_TEXT_NULLCHAR, MD_TEXT_ENTITY] [0, 2, 3, 7] 7
      rfl rfl (by decide) (by decide) rfl).2.1⟩

theorem Emits.erefl (r : MD_RENDER_HTML) : Emits r r [] :=
  ⟨[], by simp, rfl, rfl, rfl⟩

theorem Emits.etrans {r r1 r2 : MD_RENDER_HTML} {a b : List MD_CHAR}
    (h1 : Emits r r1 a) (h2 : Emits r1 r2 b) : Emits r r2 (a ++ b) := by
  obtain ⟨w1, o1, f1, g1, m1⟩ := h1
  obtain ⟨w2, o2, f2, g2, m2⟩ := h2
  exact ⟨w1 ++ w2, by rw [o2, o1, List.append_assoc], by rw [List.flatten_append, f1, f2],
    g2.trans g1, m2.trans m1⟩

theorem Emits.output_eq {r r2 : MD_RENDER_HTML} {bs : List MD_CHAR} (h : Emits r r2 bs) :
    written_since r r2 = bs := by
  obtain ⟨ws, o, f, _, _⟩ := h
  simp [Md4c.written_since, o, f]

theorem Keeps.krefl (r : MD_RENDER_HTML) : Keeps r r [] := ⟨Emits.erefl r, rfl⟩

theorem Keeps.ktrans {r r1 r2 : MD_RENDER_HTML} {a b : List MD_CHAR}
    (h1 : Keeps r r1 a) (h2 : Keeps r1 r2 b) : Keeps r r2 (a ++ b) :=
  ⟨h1.1.etrans h2.1, h2.2.trans h1.2⟩

theorem Keeps.map_eq {r r2 : MD_RENDER_HTML} {bs : List MD_CHAR} (h : Keeps r r2 bs) :
    r2.escape_map = r.escape_map := h.1.choose_spec.2.2.2

theorem Keeps.flags_eq {r r2 : MD_RENDER_HTML} {bs : List MD_CHAR} (h : Keeps r r2 bs) :
    r2.flags = r.flags := h.1.choose_spec.2.2.1

theorem Keeps.of_output {r r2 : MD_RENDER_HTML} {bs : List MD_CHAR} (ws : List (List MD_CHAR))
    (h : r2 = { r with output := r.output ++ ws }) (hf : ws.flatten = bs) : Keeps r r2 bs := by
  subst h
  exact ⟨⟨ws, rfl, hf, rfl, rfl⟩, rfl⟩

theorem keeps_render_text (r : MD_RENDER_HTML) (t : List MD_CHAR) :
    Keeps r (render_text r t) t :=
  Keeps.of_output [t] rfl (by simp)

theorem keeps_literal (r : MD_RENDER_HTML) (s : String) :
    Keeps r (RENDER_LITERAL r s) (cstr s) :=
  keeps_render_text r (cstr s)

theorem keeps_html_escaped (r : MD_RENDER_HTML) (t : List MD_CHAR)
    (hmap : r.escape_map = md_render_html_escape_map) :
    Keeps r (render_html_escaped r t) (html_escaped t) := by
  obtain ⟨ws, h1, h2⟩ := render_html_escaped_spec r t
  refine Keeps.of_output ws h1 ?_
  rw [h2, hmap]
  exact congrArg _ (funext html_byte_md_render_html)

theorem keeps_url_escaped (env : Env) (r : MD_RENDER_HTML) (t : List MD_CHAR) :
    Keeps r (render_url_escaped env r t) (url_escaped env t) := by
  obtain ⟨ws, h1, h2⟩ := render_url_escaped_spec env r t
  exact Keeps.of_output ws h1 h2

/-- An attribute of one literal sub-run goes to the escaper of the call site
as a whole; an empty one makes no call. -/
theorem render_attribute_literal (env : Env) (r : MD_RENDER_HTML) (t : List MD_CHAR)
    (f : FnAppend) :
    render_attribute env r (literal_attribute t) f = if t = [] then r else f r t := by
  cases t with
  | nil => rfl
  | cons a t =>
    simp [render_attribute, literal_attribute, render_attribute_loop]

theorem keeps_attribute_url (env : Env) (r : MD_RENDER_HTML) (t : List MD_CHAR) :
    Keeps r (render_attribute env r (literal_attribute t) (render_url_escaped env))
      (url_escaped env t) := by
  rw [render_attribute_literal]
  split
  · rename_i h; subst h; exact Keeps.krefl r
  · exact keeps_url_escaped env r t

theorem keeps_attribute_html (env : Env) (r : MD_RENDER_HTML) (t : List MD_CHAR)
    (hmap : r.escape_map = md_render_html_escape_map) :
    Keeps r (render_attribute env r (literal_attribute t) render_html_escaped)
      (html_escaped t) := by
  rw [render_attribute_literal]
  split
  · rename_i h; subst h; exact Keeps.krefl r
  · exact keeps_html_escaped r t hmap

/-- The optional `title` part that the link and image emitters write. -/
theorem keeps_title (env : Env) (r : MD_RENDER_HTML) (title : Option (List MD_CHAR))
    (hmap : r.escape_map = md_render_html_escape_map) :
    Keeps r
      (if (optional_attribute title).text.isSome then
        render_attribute env (RENDER_LITERAL r "\" title=\"") (optional_attribute title)
          render_html_escaped
      else r)
      (match title with
        | none => []
        | some t => cstr "\" title=\"" ++ html_escaped t) := by
  cases title with
  | none => exact Keeps.krefl r
  | some t =>
    have h1 := keeps_literal r "\" title=\""
    exact h1.ktrans (keeps_attribute_html env _ t (h1.map_eq.trans hmap))

theorem keeps_open_a_span (env : Env) (r : MD_RENDER_HTML) (h : List MD_CHAR)
    (title : Option (List MD_CHAR)) (hmap : r.escape_map = md_render_html_escape_map) :
    Keeps r (render_open_a_span env r ⟨literal_attribute h, optional_attribute title⟩)
      (cstr "<a href=\"" ++ url_escaped env h ++
        (match title with
          | none => []
          | some t => cstr "\" title=\"" ++ html_escaped t) ++ cstr "\">") := by
  have h1 := keeps_literal r "<a href=\""
  have h2 := keeps_attribute_url env (RENDER_LITERAL r "<a href=\"") h
  have h12 := h1.ktrans h2
  have h3 := keeps_title env _ title (h12.map_eq.trans hmap)
  have h123 := h12.ktrans h3
  exact h123.ktrans (keeps_literal _ "\">")

theorem url_escaped_eq (env : Env) (t : List MD_CHAR) :
    url_escaped env t = t.flatMap (url_byte env.char_signed) := rfl

set_option maxRecDepth 20000 in
/-- C13: entering a Link span at image nesting level 0, with the href and the
optional title each one literal sub-run, writes `<a href="`, the URL-escaped
href and `">` when there is no title, and `<a href="`, the URL-escaped href,
`" title="`, the HTML-escaped title and `">` when there is one; the escaped
forms are what `render_url_escaped` and `render_html_escaped` write.  For
href `http://a.com/x?y=1&z=2` and title `A "cool" site` the output is
`<a href="http://a.com/x?y=1&amp;z=2" title="A &quot;cool&quot; site">`. -/
theorem enter_span_link (env : Env) (r : MD_RENDER_HTML) (h : List MD_CHAR)
    (title : Option (List MD_CHAR)) (hlevel : r.image_nesting_level = 0)
    (hmap : r.escape_map = md_render_html_escape_map) :
    written_since r (enter_span_callback env
        (MD_SPAN_A ⟨literal_attribute h, optional_attribute title⟩) r)
      = (match title with
          | none => cstr "<a href=\"" ++ url_escaped env h ++ cstr "\">"
          | some t =>
            cstr "<a href=\"" ++ url_escaped env h ++ cstr "\" title=\"" ++ html_escaped t
              ++ cstr "\">") ∧
    written_since r (render_url_escaped env r h) = url_escaped env h ∧
    (∀ t, written_since r (render_html_escaped r t) = html_escaped t) ∧
    written_since r (enter_span_callback env
        (MD_SPAN_A ⟨literal_attribute (cstr "http://a.com/x?y=1&z=2"),
          optional_attribute (some (cstr "A \"cool\" site"))⟩) r)
      = cstr "<a href=\"http://a.com/x?y=1&amp;z=2\" title=\"A &quot;cool&quot; site\">" := by
  have hgen : ∀ (h : List MD_CHAR) (title : Option (List MD_CHAR)),
      written_since r (enter_span_callback env
          (MD_SPAN_A ⟨literal_attribute h, optional_attribute title⟩) r)
        = cstr "<a href=\"" ++ url_escaped env h ++
          (match title with
            | none => []
            | some t => cstr "\" title=\"" ++ html_escaped t) ++ cstr "\">" := by
    intro h title
    have : enter_span_callback env
        (MD_SPAN_A ⟨literal_attribute h, optional_attribute title⟩) r
        = render_open_a_span env r ⟨literal_attribute h, optional_attribute title⟩ := by
      simp [enter_span_callback, hlevel]
    rw [this]
    exact (keeps_open_a_span env r h title hmap).1.output_eq
  refine ⟨?_, (keeps_url_escaped env r h).1.output_eq,
    fun t => (keeps_html_escaped r t hmap).1.output_eq, ?_⟩
  · rw [hgen]
    cases title <;> simp [List.append_assoc]
  · rw [hgen, url_escaped_eq]
    generalize env.char_signed = s
    cases s <;> decide

theorem enter_span_link_witness :
    (md_render_html_render 0).image_nesting_level = 0 ∧
    (md_render_html_render 0).escape_map = md_render_html_escape_map ∧
    written_since (md_render_html_render 0) (enter_span_callback env_no_entities
        (MD_SPAN_A ⟨literal_attribute (cstr "a?b=1&c=<2>"), optional_attribute none⟩)
        (md_render_html_render 0))
      = (match (none : Option (List MD_CHAR)) with
          | none => cstr "<a href=\"" ++ url_escaped env_no_entities (cstr "a?b=1&c=<2>")
              ++ cstr "\">"
          | some t =>
            cstr "<a href=\"" ++ url_escaped env_no_entities (cstr "a?b=1&c=<2>")
              ++ cstr "\" title=\"" ++ html_escaped t ++ cstr "\">") :=
  ⟨rfl, rfl, (enter_span_link env_no_entities (md_render_html_render 0) (cstr "a?b=1&c=<2>")
    none rfl rfl).1⟩

/-! ### Images -/

theorem keeps_alt_event (env : Env) (r : MD_RENDER_HTML) (e : Event)
    (hlevel : r.image_nesting_level = 1) (hmap : r.escape_map = md_render_html_escape_map)
    (he : is_alt_event e = true) :
    Keeps r (dispatch env r e) (alt_text [e]) := by
  have hpos : r.image_nesting_level > 0 := by omega
  cases e with
  | enter_block t => simp [is_alt_event] at he
  | leave_block t => simp [is_alt_event] at he
  | enter_span t =>
    have : dispatch env r (Event.enter_span t) = r := by
      simp [dispatch, enter_span_callback, hpos]
    rw [this]; exact Keeps.krefl r
  | leave_span t =>
    have : dispatch env r (Event.leave_span t) = r := by
      cases t <;> first
        | (simp [is_alt_event] at he; done)
        | simp [dispatch, leave_span_callback, hpos]
    rw [this]; exact Keeps.krefl r
  | text ty t =>
    cases ty <;> first
      | (simp [is_alt_event] at he; done)
      | (have h := keeps_html_escaped r t hmap
         simpa [dispatch, text_callback, alt_text] using h)

theorem alt_text_cons (e : Event) (B : List Event) :
    alt_text (e :: B) = alt_text [e] ++ alt_text B := by
  simp [alt_text]

theorem keeps_alt_events (env : Env) (B : List Event) :
    ∀ (r : MD_RENDER_HTML), r.image_nesting_level = 1 →
      r.escape_map = md_render_html_escape_map → (∀ e ∈ B, is_alt_event e = true) →
      Keeps r (dispatch_all env r B) (alt_text B) := by
  induction B with
  | nil => intro r _ _ _; exact Keeps.krefl r
  | cons e B ih =>
    intro r hlevel hmap hB
    have h1 := keeps_alt_event env r e hlevel hmap (hB e (List.mem_cons_self _ _))
    have h2 := ih (dispatch env r e) (h1.2.trans hlevel) (h1.map_eq.trans hmap)
      (fun x hx => hB x (List.mem_cons_of_mem _ hx))
    rw [alt_text_cons]
    exact h1.ktrans h2

theorem emits_open_img_span (env : Env) (r : MD_RENDER_HTML) (src : List MD_CHAR)
    (title : Option (List MD_CHAR)) :
    Emits r (render_open_img_span env r ⟨literal_attribute src, optional_attribute title⟩)
      (cstr "<img src=\"" ++ url_escaped env src ++ cstr "\" alt=\"") ∧
    (render_open_img_span env r
      ⟨literal_attribute src, optional_attribute title⟩).image_nesting_level
        = r.image_nesting_level + 1 := by
  have h1 := keeps_literal r "<img src=\""
  have h2 := keeps_attribute_url env (RENDER_LITERAL r "<img src=\"") src
  have h3 := keeps_literal
    (render_attribute env (RENDER_LITERAL r "<img src=\"") (literal_attribute src)
      (render_url_escaped env)) "\" alt=\""
  have h := (h1.ktrans h2).ktrans h3
  obtain ⟨⟨ws, o, f, g, m⟩, l⟩ := h
  refine ⟨⟨ws, o, f, g, m⟩, ?_⟩
  show _ + 1 = _
  rw [← l]

theorem emits_close_img_span (env : Env) (r : MD_RENDER_HTML) (src : List MD_CHAR)
    (title : Option (List MD_CHAR)) (hmap : r.escape_map = md_render_html_escape_map) :
    Emits r (render_close_img_span env r ⟨literal_attribute src, optional_attribute title⟩)
      ((match title with
          | none => []
          | some t => cstr "\" title=\"" ++ html_escaped t) ++ cstr "\">") ∧
    (render_close_img_span env r
      ⟨literal_attribute src, optional_attribute title⟩).image_nesting_level
        = r.image_nesting_level - 1 := by
  have h1 := keeps_title env r title hmap
  have h := h1.ktrans (keeps_literal _ "\">")
  obtain ⟨⟨ws, o, f, g, m⟩, l⟩ := h
  refine ⟨⟨ws, o, f, g, m⟩, ?_⟩
  show _ - 1 = _
  rw [← l]

theorem dispatch_all_cons (env : Env) (r : MD_RENDER_HTML) (e : Event) (B : List Event) :
    dispatch_all env r (e :: B) = dispatch_all env (dispatch env r e) B := rfl

theorem dispatch_all_append (env : Env) (r : MD_RENDER_HTML) (A B : List Event) :
    dispatch_all env r (A ++ B) = dispatch_all env (dispatch_all env r A) B := by
  simp [dispatch_all, List.foldl_append]

theorem image_events (env : Env) (r : MD_RENDER_HTML) (src : List MD_CHAR)
    (title : Option (List MD_CHAR)) (B : List Event) (hlevel : r.image_nesting_level = 0)
    (hmap : r.escape_map = md_render_html_escape_map)
    (hB : ∀ e ∈ B, is_alt_event e = true) :
    Emits r
      (dispatch_all env r
        (Event.enter_span (MD_SPAN_IMG ⟨literal_attribute src, optional_attribute title⟩)
          :: B ++
          [Event.leave_span (MD_SPAN_IMG ⟨literal_attribute src, optional_attribute title⟩)]))
      (cstr "<img src=\"" ++ url_escaped env src ++ cstr "\" alt=\"" ++ alt_text B ++
        ((match title with
            | none => []
            | some t => cstr "\" title=\"" ++ html_escaped t) ++ cstr "\">")) ∧
    (dispatch_all env r
        (Event.enter_span (MD_SPAN_IMG ⟨literal_attribute src, optional_attribute title⟩)
          :: B ++
          [Event.leave_span (MD_SPAN_IMG ⟨literal_attribute src, optional_attribute title⟩)])
      ).image_nesting_level = 0 := by
  rw [List.cons_append, dispatch_all_cons, dispatch_all_append]
  have hopen : dispatch env r
      (Event.enter_span (MD_SPAN_IMG ⟨literal_attribute src, optional_attribute title⟩))
      = render_open_img_span env r ⟨literal_attribute src, optional_attribute title⟩ := by
    simp [dispatch, enter_span_callback, hlevel]
  rw [hopen]
  obtain ⟨e1, l1⟩ := emits_open_img_span env r src title
  generalize render_open_img_span env r ⟨literal_attribute src, optional_attribute title⟩
    = r1 at e1 l1 ⊢
  have l1' : r1.image_nesting_level = 1 := by rw [l1, hlevel]; rfl
  have m1 : r1.escape_map = md_render_html_escape_map := e1.choose_spec.2.2.2.trans hmap
  have k2 := keeps_alt_events env B r1 l1' m1 hB
  generalize dispatch_all env r1 B = r2 at k2 ⊢
  have l2 : r2.image_nesting_level = 1 := k2.2.trans l1'
  have m2 : r2.escape_map = md_render_html_escape_map := k2.map_eq.trans m1
  have hclose : dispatch_all env r2
      [Event.leave_span (MD_SPAN_IMG ⟨literal_attribute src, optional_attribute title⟩)]
      = render_close_img_span env r2 ⟨literal_attribute src, optional_attribute title⟩ := by
    simp [dispatch_all, dispatch, leave_span_callback, l2]
  rw [hclose]
  obtain ⟨e3, l3⟩ := emits_close_img_span env r2 src title m2
  refine ⟨?_, by rw [l3, l2]; rfl⟩
  have := (e1.etrans k2.1).etrans e3
  simpa [List.append_assoc] using this

set_option maxRecDepth 20000 in
/-- C14: from image nesting level 0, the events Image-enter(src, title), `B`,
Image-leave, with `B` any sequence (well nested or not) of enter and leave
events of spans other than images and of Plain text events, write
`<img src="`, the URL-escaped src, `" alt="`, the HTML-escaped text runs of
`B` in order, then `" title="` and the HTML-escaped title when there is one,
then `">`; no span of `B` writes a tag, and the nesting level is 0 again at
the end.  With alt text `a **bold** word` the output has `alt="a bold word"`. -/
theorem image_alt_text (env : Env) (r : MD_RENDER_HTML) (src : List MD_CHAR)
    (title : Option (List MD_CHAR)) (B : List Event) (hlevel : r.image_nesting_level = 0)
    (hmap : r.escape_map = md_render_html_escape_map)
    (hB : ∀ e ∈ B, is_alt_event e = true) :
    written_since r
      (dispatch_all env r
        (Event.enter_span (MD_SPAN_IMG ⟨literal_attribute src, optional_attribute title⟩)
          :: B ++
          [Event.leave_span (MD_SPAN_IMG ⟨literal_attribute src, optional_attribute title⟩)]))
      = cstr "<img src=\"" ++ url_escaped env src ++ cstr "\" alt=\"" ++ alt_text B ++
        (match title with
          | none => []
          | some t => cstr "\" title=\"" ++ html_escaped t) ++ cstr "\">" ∧
    (dispatch_all env r
        (Event.enter_span (MD_SPAN_IMG ⟨literal_attribute src, optional_attribute title⟩)
          :: B ++
          [Event.leave_span (MD_SPAN_IMG ⟨literal_attribute src, optional_attribute title⟩)])
      ).image_nesting_level = 0 ∧
    written_since r
      (dispatch_all env r
        [Event.enter_span (MD_SPAN_IMG ⟨literal_attribute (cstr "i.png"), optional_attribute none⟩),
         Event.text MD_TEXT_NORMAL (cstr "a "),
         Event.enter_span MD_SPAN_STRONG,
         Event.text MD_TEXT_NORMAL (cstr "bold"),
         Event.leave_span MD_SPAN_STRONG,
         Event.text MD_TEXT_NORMAL (cstr " word"),
         Event.leave_span (MD_SPAN_IMG ⟨literal_attribute (cstr "i.png"), optional_attribute none⟩)])
      = cstr "<img src=\"i.png\" alt=\"a bold word\">" := by
  obtain ⟨h1, h2⟩ := image_events env r src title B hlevel hmap hB
  refine ⟨?_, h2, ?_⟩
  · rw [h1.output_eq]; simp [List.append_assoc]
  · have h := (image_events env r (cstr "i.png") none
      [Event.text MD_TEXT_NORMAL (cstr "a "), Event.enter_span MD_SPAN_STRONG,
       Event.text MD_TEXT_NORMAL (cstr "bold"), Event.leave_span MD_SPAN_STRONG,
       Event.text MD_TEXT_NORMAL (cstr " word")] hlevel hmap (by decide)).1
    have e := h.output_eq
    rw [url_escaped_eq] at e
    rw [show (Event.enter_span (MD_SPAN_IMG ⟨literal_attribute (cstr "i.png"), optional_attribute none⟩)
          :: [Event.text MD_TEXT_NORMAL (cstr "a "), Event.enter_span MD_SPAN_STRONG,
              Event.text MD_TEXT_NORMAL (cstr "bold"), Event.leave_span MD_SPAN_STRONG,
              Event.text MD_TEXT_NORMAL (cstr " word")] ++
          [Event.leave_span (MD_SPAN_IMG ⟨literal_attribute (cstr "i.png"), optional_attribute none⟩)])
        = [Event.enter_span (MD_SPAN_IMG ⟨literal_attribute (cstr "i.png"), optional_attribute none⟩),
         Event.text MD_TEXT_NORMAL (cstr "a "),
         Event.enter_span MD_SPAN_STRONG,
         Event.text MD_TEXT_NORMAL (cstr "bold"),
         Event.leave_span MD_SPAN_STRONG,
         Event.text MD_TEXT_NORMAL (cstr " word"),
         Event.leave_span (MD_SPAN_IMG ⟨literal_attribute (cstr "i.png"), optional_attribute none⟩)]
        from rfl] at e
    rw [e]
    generalize env.char_signed = s
    cases s <;> decide

set_option maxRecDepth 20000 in
theorem image_alt_text_witness :
    (md_render_html_render 0).image_nesting_level = 0 ∧
    (md_render_html_render 0).escape_map = md_render_html_escape_map ∧
    (∀ e ∈ [Event.text MD_TEXT_NORMAL (cstr "x<"), Event.enter_span MD_SPAN_EM,
        Event.text MD_TEXT_NORMAL (cstr "y"), Event.leave_span MD_SPAN_EM],
      is_alt_event e = true) ∧
    written_since (md_render_html_render 0)
      (dispatch_all env_no_entities (md_render_html_render 0)
        (Event.enter_span
            (MD_SPAN_IMG ⟨literal_attribute (cstr "p.gif"), optional_attribute (some (cstr "T"))⟩)
          :: [Event.text MD_TEXT_NORMAL (cstr "x<"), Event.enter_span MD_SPAN_EM,
              Event.text MD_TEXT_NORMAL (cstr "y"), Event.leave_span MD_SPAN_EM] ++
          [Event.leave_span
            (MD_SPAN_IMG
              ⟨literal_attribute (cstr "p.gif"), optional_attribute (some (cstr "T"))⟩)]))
      = cstr "<img src=\"" ++ url_escaped env_no_entities (cstr "p.gif") ++ cstr "\" alt=\""
        ++ alt_text [Event.text MD_TEXT_NORMAL (cstr "x<"), Event.enter_span MD_SPAN_EM,
              Event.text MD_TEXT_NORMAL (cstr "y"), Event.leave_span MD_SPAN_EM] ++
        (match (some (cstr "T") : Option (List MD_CHAR)) with
          | none => []
          | some t => cstr "\" title=\"" ++ html_escaped t) ++ cstr "\">" :=
  ⟨rfl, rfl, by decide,
    (image_alt_text env_no_entities (md_render_html_render 0) (cstr "p.gif") (some (cstr "T"))
      [Event.text MD_TEXT_NORMAL (cstr "x<"), Event.enter_span MD_SPAN_EM,
        Event.text MD_TEXT_NORMAL (cstr "y"), Event.leave_span MD_SPAN_EM] rfl rfl
      (by decide)).1⟩

theorem written_eq_written_since (r r2 : MD_RENDER_HTML) (h : r.output = []) :
    written r2 = written_since r r2 := by
  simp [written, written_since, h]

set_option maxRecDepth 20000 in
/-- C15: from the initial render state of `md_render_html`, the events
Paragraph-enter, Text(Plain, `t`), Paragraph-leave write `<p>`, the
HTML-escaped `t`, `</p>` and a line feed, and nothing else; for
`He said "hi" & left` that is `<p>He said &quot;hi&quot; &amp; left</p>`
and a line feed. -/
theorem paragraph_events (env : Env) (renderer_flags : Nat) (t : List MD_CHAR) :
    written (dispatch_all env (md_render_html_render renderer_flags)
        [Event.enter_block MD_BLOCK_P, Event.text MD_TEXT_NORMAL t,
         Event.leave_block MD_BLOCK_P])
      = cstr "<p>" ++ html_escaped t ++ cstr "</p>\n" ∧
    written (dispatch_all env (md_render_html_render renderer_flags)
        [Event.enter_block MD_BLOCK_P,
         Event.text MD_TEXT_NORMAL (cstr "He said \"hi\" & left"),
         Event.leave_block MD_BLOCK_P])
      = cstr "<p>He said &quot;hi&quot; &amp; left</p>\n" := by
  have hgen : ∀ t : List MD_CHAR,
      written (dispatch_all env (md_render_html_render renderer_flags)
        [Event.enter_block MD_BLOCK_P, Event.text MD_TEXT_NORMAL t,
         Event.leave_block MD_BLOCK_P])
      = cstr "<p>" ++ html_escaped t ++ cstr "</p>\n" := by
    intro t
    rw [written_eq_written_since (md_render_html_render renderer_flags) _ rfl]
    have h1 := keeps_literal (md_render_html_render renderer_flags) "<p>"
    have h2 := keeps_html_escaped (RENDER_LITERAL (md_render_html_render renderer_flags) "<p>")
      t (h1.map_eq.trans rfl)
    have h3 := keeps_literal
      (render_html_escaped (RENDER_LITERAL (md_render_html_render renderer_flags) "<p>") t)
      "</p>\n"
    exact ((h1.ktrans h2).ktrans h3).1.output_eq
  refine ⟨hgen t, ?_⟩
  rw [hgen]
  decide

set_option maxRecDepth 20000 in
/-- C17: entering a ListItem block writes `<li>` when the item is not a task
item, whatever its mark; for a task item it writes
`<li class="task-list-item"><input type="checkbox" class="task-list-item-checkbox" disabled`,
then ` checked` exactly when the mark is `x` or `X`, then `>`.  So mark `x`
gives a checked box, and marks such as `o` or a space give an unchecked one. -/
theorem enter_block_list_item (env : Env) (r : MD_RENDER_HTML) (det : MD_BLOCK_LI_DETAIL) :
    written_since r (enter_block_callback env (MD_BLOCK_LI det) r)
      = (if det.is_task = false then cstr "<li>"
        else
          cstr ("<li class=\"task-list-item\">"
              ++ "<input type=\"checkbox\" class=\"task-list-item-checkbox\" disabled")
            ++ (if det.task_mark = cchar 'x' ∨ det.task_mark = cchar 'X' then cstr " checked"
                else [])
            ++ cstr ">") ∧
    written_since r (enter_block_callback env (MD_BLOCK_LI ⟨true, cchar 'x'⟩) r)
      = cstr ("<li class=\"task-list-item\">"
          ++ "<input type=\"checkbox\" class=\"task-list-item-checkbox\" disabled checked>") ∧
    written_since r (enter_block_callback env (MD_BLOCK_LI ⟨true, cchar 'o'⟩) r)
      = cstr ("<li class=\"task-list-item\">"
          ++ "<input type=\"checkbox\" class=\"task-list-item-checkbox\" disabled>") ∧
    written_since r (enter_block_callback env (MD_BLOCK_LI ⟨true, cchar ' '⟩) r)
      = cstr ("<li class=\"task-list-item\">"
          ++ "<input type=\"checkbox\" class=\"task-list-item-checkbox\" disabled>") ∧
    written_since r (enter_block_callback env (MD_BLOCK_LI ⟨false, cchar 'x'⟩) r)
      = cstr "<li>" := by
  have hgen : ∀ det : MD_BLOCK_LI_DETAIL,
      written_since r (enter_block_callback env (MD_BLOCK_LI det) r)
      = (if det.is_task = false then cstr "<li>"
        else
          cstr ("<li class=\"task-list-item\">"
              ++ "<input type=\"checkbox\" class=\"task-list-item-checkbox\" disabled")
            ++ (if det.task_mark = cchar 'x' ∨ det.task_mark = cchar 'X' then cstr " checked"
                else [])
            ++ cstr ">") := by
    intro det
    show written_since r (render_open_li_block r det) = _
    unfold render_open_li_block
    cases htask : det.is_task
    · simp only [Bool.false_eq_true, if_false, if_true]
      exact (keeps_literal r "<li>").1.output_eq
    · simp only [if_true, Bool.true_eq_false, if_false]
      have h1 := keeps_literal r
        "<li class=\"task-list-item\"><input type=\"checkbox\" class=\"task-list-item-checkbox\" disabled"
      by_cases hm : det.task_mark = cchar 'x' ∨ det.task_mark = cchar 'X'
      · simp only [hm, if_true]
        exact ((h1.ktrans (keeps_literal _ " checked")).ktrans (keeps_literal _ ">")).1.output_eq
      · simp only [hm, if_false]
        have := (h1.ktrans (keeps_literal _ ">")).1.output_eq
        simpa using this
  refine ⟨hgen det, ?_, ?_, ?_, ?_⟩ <;> rw [hgen] <;> decide

theorem cchar_digitChar : ∀ k, k < 10 → cchar (Nat.digitChar k) = to_uchar (48 + k) := by
  decide

theorem toDigitsCore_eq (fuel : Nat) :
    ∀ (n : Nat) (ds : List Char),
      (Nat.toDigitsCore 10 fuel n ds).map cchar
        = decimal_digits_core fuel n ++ ds.map cchar := by
  induction fuel with
  | zero => intro n ds; rfl
  | succ fuel ih =>
    intro n ds
    unfold Nat.toDigitsCore decimal_digits_core
    by_cases h : n < 10
    · have h0 : n / 10 = 0 := by omega
      have hm : n % 10 = n := by omega
      simp only [h0, if_true, h, hm, List.map_cons, cchar_digitChar n h]
      rfl
    · have h0 : ¬ (n / 10 = 0) := by omega
      simp only [h0, if_false, h]
      rw [ih, List.map_cons, cchar_digitChar _ (Nat.mod_lt _ (by decide))]
      simp

theorem decimal_digits_core_spec (fuel : Nat) :
    ∀ (n k : Nat), 0 < k → n < 10 ^ k → k ≤ fuel →
      (∀ b ∈ decimal_digits_core fuel n, is_dec_digit b = true) ∧
      dec_value (decimal_digits_core fuel n) = n ∧
      0 < (decimal_digits_core fuel n).length ∧
      (decimal_digits_core fuel n).length ≤ k ∧
      ((decimal_digits_core fuel n).getD 0 0 = cchar '0' → n = 0) := by
  induction fuel with
  | zero => intro n k hk _ hf; omega
  | succ fuel ih =>
    intro n k hk hn hf
    unfold decimal_digits_core
    by_cases h : n < 10
    · simp only [h, if_true]
      refine ⟨?_, ?_, by simp, by simpa using hk, ?_⟩
      · intro b hb
        rw [List.mem_singleton] at hb
        subst hb
        simp only [is_dec_digit, to_uchar_val, Bool.and_eq_true, decide_eq_true_eq]
        omega
      · simp only [dec_value, List.foldl_cons, List.foldl_nil, to_uchar_val]
        omega
      · intro h0
        have := congrArg Fin.val h0
        simp only [List.getD_cons_zero, to_uchar_val] at this
        have e : (cchar '0').val = 48 := rfl
        omega
    · simp only [h, if_false]
      obtain ⟨k', rfl⟩ : ∃ k', k = k' + 1 := ⟨k - 1, by omega⟩
      have hk' : 0 < k' := by
        rcases Nat.eq_zero_or_pos k' with h0 | h0
        · subst h0; simp at hn; omega
        · exact h0
      have hn' : n / 10 < 10 ^ k' := by
        rw [Nat.pow_succ] at hn
        omega
      obtain ⟨a, b, c, d, e⟩ := ih (n / 10) k' hk' hn' (by omega)
      refine ⟨?_, ?_, ?_, ?_, ?_⟩
      · intro x hx
        rw [List.mem_append, List.mem_singleton] at hx
        rcases hx with hx | hx
        · exact a x hx
        · subst hx
          simp only [is_dec_digit, to_uchar_val, Bool.and_eq_true, decide_eq_true_eq]
          omega
      · have : dec_value (decimal_digits_core fuel (n / 10) ++ [to_uchar (48 + n % 10)])
            = 10 * dec_value (decimal_digits_core fuel (n / 10))
              + ((to_uchar (48 + n % 10)).val - 48) := by
          simp [dec_value, List.foldl_append]
        rw [this, b, to_uchar_val]
        omega
      · simp
      · simp only [List.length_append, List.length_singleton]; omega
      · intro h0
        have hget : (decimal_digits_core fuel (n / 10) ++ [to_uchar (48 + n % 10)]).getD 0 0
            = (decimal_digits_core fuel (n / 10)).getD 0 0 := by
          cases hl : decimal_digits_core fuel (n / 10) with
          | nil => rw [hl] at c; simp at c
          | cons x xs => rfl
        rw [hget] at h0
        have := e h0
        omega

theorem cstr_append (a b : String) : cstr (a ++ b) = cstr a ++ cstr b := by
  simp [cstr, String.toList]

theorem cstr_format_unsigned (n : Nat) (hn : n < 4294967296) :
    cstr (format_unsigned n) = decimal_digits_core (n + 1) n := by
  have h := toDigitsCore_eq (n + 1) n []
  simp only [List.map_nil, List.append_nil] at h
  simp only [format_unsigned, Nat.mod_eq_of_lt hn, cstr, String.toList, Nat.toDigits]
  exact h

theorem decimal_digits_unsigned (n : Nat) (hn : n < 4294967296) :
    (∀ b ∈ decimal_digits_core (n + 1) n, is_dec_digit b = true) ∧
    dec_value (decimal_digits_core (n + 1) n) = n ∧
    0 < (decimal_digits_core (n + 1) n).length ∧
    (decimal_digits_core (n + 1) n).length ≤ 10 ∧
    ((decimal_digits_core (n + 1) n).getD 0 0 = cchar '0' → n = 0) := by
  have hpow : n < 10 ^ (n + 1) :=
    lt_of_lt_of_le (Nat.lt_pow_self (by decide) n) (Nat.pow_le_pow_right (by decide) (by omega))
  obtain ⟨a, b, c, d, e⟩ := decimal_digits_core_spec (n + 1) n (n + 1) (by omega) hpow (le_refl _)
  refine ⟨a, b, c, ?_, e⟩
  by_cases h9 : n < 9
  · omega
  · have h10 : n < 10 ^ 10 := by
      have : (4294967296 : Nat) < 10 ^ 10 := by decide
      omega
    exact (decimal_digits_core_spec (n + 1) n 10 (by decide) h10 (by omega)).2.2.2.1

theorem written_since_open_ol (env : Env) (r : MD_RENDER_HTML) (start : Nat)
    (h1 : start ≠ 1) :
    written_since r (enter_block_callback env (MD_BLOCK_OL ⟨start⟩) r)
      = (cstr ("<ol start=\"" ++ format_unsigned start ++ "\">\n")).take 63 := by
  show written_since r (render_open_ol_block r ⟨start⟩) = _
  unfold render_open_ol_block
  simp only [h1, if_false]
  exact (keeps_render_text r _).1.output_eq

set_option maxRecDepth 20000 in
/-- C16: entering an OrderedList block with start number 1 writes `<ol>` and
a line feed; with any other unsigned 32-bit start number `N` it writes
`<ol start="`, the decimal digits of `N` (no sign, no padding: at least one
digit, value `N`, a leading `0` only for `N = 0`), `">` and a line feed.
Start 5 gives `<ol start="5">`, and 0 and 4294967295 are written in full. -/
theorem enter_block_ordered_list (env : Env) (r : MD_RENDER_HTML) (start : Nat)
    (hstart : start < 4294967296) :
    (start = 1 →
      written_since r (enter_block_callback env (MD_BLOCK_OL ⟨start⟩) r) = cstr "<ol>\n") ∧
    (start ≠ 1 → ∃ ds : List MD_CHAR,
      written_since r (enter_block_callback env (MD_BLOCK_OL ⟨start⟩) r)
        = cstr "<ol start=\"" ++ ds ++ cstr "\">\n" ∧
      ds ≠ [] ∧ (∀ b ∈ ds, is_dec_digit b = true) ∧ dec_value ds = start ∧
      (ds.getD 0 0 = cchar '0' → start = 0 ∧ ds.length = 1)) ∧
    written_since r (enter_block_callback env (MD_BLOCK_OL ⟨5⟩) r)
      = cstr "<ol start=\"5\">\n" ∧
    written_since r (enter_block_callback env (MD_BLOCK_OL ⟨0⟩) r)
      = cstr "<ol start=\"0\">\n" ∧
    written_since r (enter_block_callback env (MD_BLOCK_OL ⟨4294967295⟩) r)
      = cstr "<ol start=\"4294967295\">\n" := by
  refine ⟨?_, ?_, ?_, ?_, ?_⟩
  · intro h1
    subst h1
    exact (keeps_literal r "<ol>\n").1.output_eq
  · intro h1
    obtain ⟨a, b, c, d, e⟩ := decimal_digits_unsigned start hstart
    refine ⟨decimal_digits_core (start + 1) start, ?_, ?_, a, b, ?_⟩
    · rw [written_since_open_ol env r start h1, cstr_append, cstr_append,
        cstr_format_unsigned start hstart]
      apply List.take_of_length_le
      have e1 : (cstr "<ol start=\"").length = 11 := rfl
      have e2 : (cstr "\">\n").length = 3 := rfl
      simp only [List.length_append, e1, e2]
      omega
    · intro hnil
      rw [hnil] at c
      simp at c
    · intro h0
      have hz := e h0
      subst hz
      exact ⟨rfl, rfl⟩
  · rw [written_since_open_ol env r 5 (by decide)]; decide
  · rw [written_since_open_ol env r 0 (by decide)]; decide
  · rw [written_since_open_ol env r 4294967295 (by decide)]; decide

theorem enter_block_ordered_list_witness :
    (42 : Nat) < 4294967296 ∧ (42 : Nat) ≠ 1 ∧
    ∃ ds : List MD_CHAR,
      written_since (md_render_html_render 0)
          (enter_block_callback env_no_entities (MD_BLOCK_OL ⟨42⟩) (md_render_html_render 0))
        = cstr "<ol start=\"" ++ ds ++ cstr "\">\n" ∧
      ds ≠ [] ∧ (∀ b ∈ ds, is_dec_digit b = true) ∧ dec_value ds = 42 ∧
      (ds.getD 0 0 = cchar '0' → (42 : Nat) = 0 ∧ ds.length = 1) :=
  ⟨by decide, by decide,
    (enter_block_ordered_list env_no_entities (md_render_html_render 0) 42
      (by decide)).2.1 (by decide)⟩

set_option maxRecDepth 100000 in
/-- C18, the code on an image nested in the alt text of another image, the
events Image-enter(a.png), Text `x`, Image-enter(b.png), Text `y`,
Image-leave(b.png), Text `z`, Image-leave(a.png) from the initial state: the
inner enter does not raise the nesting level, so the leave of the inner image
already writes the closing `">` and puts the level to 0 while the outer image
is still open; `z` is then written outside the tag and the leave of the outer
image writes nothing. -/
theorem nested_image_closes_early :
    (dispatch_all env_no_entities (md_render_html_render 0)
      [Event.enter_span (image_span "a.png"),
       Event.text MD_TEXT_NORMAL (cstr "x"),
       Event.enter_span (image_span "b.png"),
       Event.text MD_TEXT_NORMAL (cstr "y")]).image_nesting_level = 1 ∧
    written (dispatch_all env_no_entities (md_render_html_render 0)
      [Event.enter_span (image_span "a.png"),
       Event.text MD_TEXT_NORMAL (cstr "x"),
       Event.enter_span (image_span "b.png"),
       Event.text MD_TEXT_NORMAL (cstr "y"),
       Event.leave_span (image_span "b.png")])
      = cstr "<img src=\"a.png\" alt=\"xy\">" ∧
    (dispatch_all env_no_entities (md_render_html_render 0)
      [Event.enter_span (image_span "a.png"),
       Event.text MD_TEXT_NORMAL (cstr "x"),
       Event.enter_span (image_span "b.png"),
       Event.text MD_TEXT_NORMAL (cstr "y"),
       Event.leave_span (image_span "b.png")]).image_nesting_level = 0 ∧
    written (dispatch_all env_no_entities (md_render_html_render 0)
      [Event.enter_span (image_span "a.png"),
       Event.text MD_TEXT_NORMAL (cstr "x"),
       Event.enter_span (image_span "b.png"),
       Event.text MD_TEXT_NORMAL (cstr "y"),
       Event.leave_span (image_span "b.png"),
       Event.text MD_TEXT_NORMAL (cstr "z")])
      = cstr "<img src=\"a.png\" alt=\"xy\">z" ∧
    written (dispatch_all env_no_entities (md_render_html_render 0)
      [Event.enter_span (image_span "a.png"),
       Event.text MD_TEXT_NORMAL (cstr "x"),
       Event.enter_span (image_span "b.png"),
       Event.text MD_TEXT_NORMAL (cstr "y"),
       Event.leave_span (image_span "b.png"),
       Event.text MD_TEXT_NORMAL (cstr "z"),
       Event.leave_span (image_span "a.png")])
      = cstr "<img src=\"a.png\" alt=\"xy\">z" := by
  decide

set_option maxRecDepth 100000 in
/-- C19 as stated fails for raw HTML: at nesting level 1 a RawHtml text event
with content `"><b>` is written as it stands, with its `"`, `<` and `>`. -/
theorem text_callback_raw_html_in_image :
    0 < render_inside_image.image_nesting_level ∧
    render_inside_image.escape_map = md_render_html_escape_map ∧
    written_since render_inside_image
        (text_callback env_no_entities MD_TEXT_HTML (cstr "\"><b>") render_inside_image)
      = cstr "\"><b>" ∧
    ¬ (cchar '<' ∉ written_since render_inside_image
        (text_callback env_no_entities MD_TEXT_HTML (cstr "\"><b>") render_inside_image) ∧
      cchar '>' ∉ written_since render_inside_image
        (text_callback env_no_entities MD_TEXT_HTML (cstr "\"><b>") render_inside_image) ∧
      cchar '"' ∉ written_since render_inside_image
        (text_callback env_no_entities MD_TEXT_HTML (cstr "\"><b>") render_inside_image)) := by
  decide

/-! ### Entity references through the HTML-text escaper -/

theorem html_escaped_append (a b : List MD_CHAR) :
    html_escaped (a ++ b) = html_escaped a ++ html_escaped b := by
  simp [html_escaped]

theorem html_escaped_safe (x : List MD_CHAR) :
    cchar '<' ∉ html_escaped x ∧ cchar '>' ∉ html_escaped x ∧ cchar '"' ∉ html_escaped x ∧
    amp_starts html_entities (html_escaped x) :=
  ⟨not_mem_flatMap _ _ _ (fun b => (html_escape_spec_safe b).1),
   not_mem_flatMap _ _ _ (fun b => (html_escape_spec_safe b).2.1),
   not_mem_flatMap _ _ _ (fun b => (html_escape_spec_safe b).2.2.1),
   amp_starts_flatMap _ _ (fun b => (html_escape_spec_safe b).2.2.2) x⟩

/-- The one call `render_utf8_codepoint` makes, whatever the codepoint. -/
theorem render_utf8_codepoint_call (c : Nat) :
    ∃ bs : List MD_CHAR, 1 ≤ bs.length ∧ bs.length ≤ 4 ∧
      (bs.length = 4 → 128 ≤ (bs.getD 1 0).val) ∧
      ∀ (r : MD_RENDER_HTML) (fn_append : FnAppend),
        render_utf8_codepoint r c fn_append = fn_append r bs := by
  by_cases h : c = 0 ∨ 0x10ffff < c
  · exact ⟨utf8_replacement_char, by decide, by decide, by decide,
      fun r fn_append => render_utf8_codepoint_out_of_range c h r fn_append⟩
  · refine ⟨(utf8_buffer c).2.take (utf8_buffer c).1, ?_, ?_, ?_,
      fun r fn_append => render_utf8_codepoint_in_range c (by omega) (by omega) r fn_append⟩
    · rw [utf8_taken_eq]; split_ifs <;> simp
    · rw [utf8_taken_eq]; split_ifs <;> simp
    · rw [utf8_taken_eq]
      split_ifs <;> simp only [List.length_cons, List.length_nil] <;> intro hl <;>
        first
          | omega
          | (simp only [List.getD_cons_succ, List.getD_cons_zero, to_uchar_val]; omega)

/-- Whatever the flags, the run and the entity table, an entity handed to
`render_entity` with the HTML-text escaper is written as the escaping of some
byte run. -/
theorem keeps_entity_html (env : Env) (r : MD_RENDER_HTML) (t : List MD_CHAR)
    (hmap : r.escape_map = md_render_html_escape_map) :
    ∃ x, Keeps r (render_entity env r t render_html_escaped) (html_escaped x) := by
  unfold render_entity
  split
  · exact ⟨t, keeps_html_escaped r t hmap⟩
  · split
    · obtain ⟨bs, _, _, _, hbs⟩ := render_utf8_codepoint_call
        (if t.getD 2 0 = cchar 'x' ∨ t.getD 2 0 = cchar 'X' then
          entity_hex_codepoint env.char_signed t
        else entity_dec_codepoint env.char_signed t)
      refine ⟨bs, ?_⟩
      simp only [hbs]
      exact keeps_html_escaped r bs hmap
    · split
      · rename_i ent _
        obtain ⟨b0, _, _, _, h0⟩ := render_utf8_codepoint_call ent.codepoints0
        obtain ⟨b1, _, _, _, h1⟩ := render_utf8_codepoint_call ent.codepoints1
        have k0 := keeps_html_escaped r b0 hmap
        simp only [h0, h1]
        split
        · refine ⟨b0 ++ b1, ?_⟩
          rw [html_escaped_append]
          exact k0.ktrans (keeps_html_escaped _ b1 (k0.map_eq.trans hmap))
        · exact ⟨b0, k0⟩
      · exact ⟨t, keeps_html_escaped r t hmap⟩

set_option maxRecDepth 20000 in
/-- C19, amended: while the image nesting level is greater than 0, a text
event of kind Plain, LineBreakHard, LineBreakSoft, EmbeddedNullChar or
EntityReference (and of the kinds that share the default branch with Plain),
of every content, writes bytes without `<`, `>` and `"`: Plain content and
entity content go through the HTML-text escaper, a line break is written as
one space and an embedded null as EF BF BD. -/
theorem text_callback_in_image (env : Env) (r : MD_RENDER_HTML) (type : MD_TEXTTYPE)
    (t : List MD_CHAR) (hmap : r.escape_map = md_render_html_escape_map)
    (hlevel : 0 < r.image_nesting_level) (htype : type ≠ MD_TEXT_HTML) :
    (cchar '<' ∉ written_since r (text_callback env type t r) ∧
      cchar '>' ∉ written_since r (text_callback env type t r) ∧
      cchar '"' ∉ written_since r (text_callback env type t r)) ∧
    (type = MD_TEXT_NORMAL →
      written_since r (text_callback env type t r) = html_escaped t) ∧
    (type = MD_TEXT_ENTITY → ∃ x,
      written_since r (text_callback env type t r) = html_escaped x) ∧
    (type = MD_TEXT_BR ∨ type = MD_TEXT_SOFTBR →
      written_since r (text_callback env type t r) = cstr " ") ∧
    (type = MD_TEXT_NULLCHAR →
      written_since r (text_callback env type t r) = [0xEF, 0xBF, 0xBD]) := by
  have hne : r.image_nesting_level ≠ 0 := by omega
  have hesc : ∀ x, written_since r (text_callback env type t r) = html_escaped x →
      (cchar '<' ∉ written_since r (text_callback env type t r) ∧
      cchar '>' ∉ written_since r (text_callback env type t r) ∧
      cchar '"' ∉ written_since r (text_callback env type t r)) := by
    intro x hx
    rw [hx]
    exact ⟨(html_escaped_safe x).1, (html_escaped_safe x).2.1, (html_escaped_safe x).2.2.1⟩
  cases type with
  | MD_TEXT_HTML => exact absurd rfl htype
  | MD_TEXT_NORMAL =>
    have h : written_since r (text_callback env MD_TEXT_NORMAL t r) = html_escaped t :=
      (keeps_html_escaped r t hmap).1.output_eq
    exact ⟨hesc t h, fun _ => h, by simp, by simp, by simp⟩
  | MD_TEXT_CODE =>
    have h : written_since r (text_callback env MD_TEXT_CODE t r) = html_escaped t :=
      (keeps_html_escaped r t hmap).1.output_eq
    exact ⟨hesc t h, by simp, by simp, by simp, by simp⟩
  | MD_TEXT_LATEXMATH =>
    have h : written_since r (text_callback env MD_TEXT_LATEXMATH t r) = html_escaped t :=
      (keeps_html_escaped r t hmap).1.output_eq
    exact ⟨hesc t h, by simp, by simp, by simp, by simp⟩
  | MD_TEXT_ENTITY =>
    obtain ⟨x, hx⟩ := keeps_entity_html env r t hmap
    have h : written_since r (text_callback env MD_TEXT_ENTITY t r) = html_escaped x :=
      hx.1.output_eq
    exact ⟨hesc x h, by simp, fun _ => ⟨x, h⟩, by simp, by simp⟩
  | MD_TEXT_BR =>
    have h : written_since r (text_callback env MD_TEXT_BR t r) = cstr " " := by
      simp only [text_callback, hne, if_false]
      exact (keeps_literal r " ").1.output_eq
    refine ⟨?_, by simp, by simp, fun _ => h, by simp⟩
    rw [h]; decide
  | MD_TEXT_SOFTBR =>
    have h : written_since r (text_callback env MD_TEXT_SOFTBR t r) = cstr " " := by
      simp only [text_callback, hne, if_false]
      exact (keeps_literal r " ").1.output_eq
    refine ⟨?_, by simp, by simp, fun _ => h, by simp⟩
    rw [h]; decide
  | MD_TEXT_NULLCHAR =>
    have h : written_since r (text_callback env MD_TEXT_NULLCHAR t r) = [0xEF, 0xBF, 0xBD] := by
      simp only [text_callback]
      rw [render_utf8_codepoint_out_of_range 0 (Or.inl rfl)]
      exact (keeps_render_text r _).1.output_eq
    refine ⟨?_, by simp, by simp, by simp, fun _ => h⟩
    rw [h]; decide

theorem text_callback_in_image_witness :
    render_inside_image.escape_map = md_render_html_escape_map ∧
    0 < render_inside_image.image_nesting_level ∧
    MD_TEXT_BR ≠ MD_TEXT_HTML ∧
    written_since render_inside_image
        (text_callback env_no_entities MD_TEXT_BR (cstr "") render_inside_image)
      = cstr " " :=
  ⟨rfl, by decide, by decide,
    (text_callback_in_image env_no_entities render_inside_image MD_TEXT_BR (cstr "")
      rfl (by decide) (by decide)).2.2.2.1 (Or.inl rfl)⟩

/-- Under the flag clear, a run of more than three bytes whose second byte is
`#` takes the numeric branch of `render_entity`, whatever its other bytes. -/
theorem render_entity_numeric_branch (env : Env) (r : MD_RENDER_HTML) (t : List MD_CHAR)
    (fn_append : FnAppend)
    (hflag : r.flags &&& env.MD_RENDER_FLAG_VERBATIM_ENTITIES = 0)
    (hlen : 3 < t.length) (hhash : t.getD 1 0 = cchar '#') :
    render_entity env r t fn_append
      = render_utf8_codepoint r
          (if t.getD 2 0 = cchar 'x' ∨ t.getD 2 0 = cchar 'X' then
            entity_hex_codepoint env.char_signed t
          else entity_dec_codepoint env.char_signed t) fn_append := by
  unfold render_entity
  rw [if_neg (by simp [hflag]),
    if_pos (by rw [Bool.and_eq_true, decide_eq_true_eq, decide_eq_true_eq]; exact ⟨hlen, hhash⟩)]

set_option maxRecDepth 100000 in
/-- C20 as stated fails: with the flag clear, the text event for `&#zz;`
writes CC AE (the codepoint 814 that the decimal loop computes from `zz`) and
the one for `&#x1g;` writes a space (codepoint 32); neither writes the run
itself through the escaper, which would be `&amp;#zz;` and `&amp;#x1g;`. -/
theorem text_callback_malformed_numeric_entity :
    (md_render_html_render 0).flags &&& env_no_entities.MD_RENDER_FLAG_VERBATIM_ENTITIES = 0 ∧
    written_since (md_render_html_render 0)
        (text_callback env_no_entities MD_TEXT_ENTITY (cstr "&#zz;") (md_render_html_render 0))
      = [0xCC, 0xAE] ∧
    ¬ (written_since (md_render_html_render 0)
        (text_callback env_no_entities MD_TEXT_ENTITY (cstr "&#zz;") (md_render_html_render 0))
      = written_since (md_render_html_render 0)
          (render_html_escaped (md_render_html_render 0) (cstr "&#zz;"))) ∧
    written_since (md_render_html_render 0)
        (text_callback env_no_entities MD_TEXT_ENTITY (cstr "&#x1g;") (md_render_html_render 0))
      = cstr " " ∧
    ¬ (written_since (md_render_html_render 0)
        (text_callback env_no_entities MD_TEXT_ENTITY (cstr "&#x1g;") (md_render_html_render 0))
      = written_since (md_render_html_render 0)
          (render_html_escaped (md_render_html_render 0) (cstr "&#x1g;"))) := by
  decide

set_option maxRecDepth 20000 in
/-- C20, amended: with the verbatim-entities flag clear, every entity run of
more than three bytes that starts with `&#` is treated as numeric, whether or
not its digits are digits: `render_entity` computes a codepoint from the bytes
by the digit loop (hexadecimal after `x` or `X`, decimal otherwise, in
unsigned arithmetic) and makes the one call of `render_utf8_codepoint` for
it, so the escaper of the call site receives a run of 1 to 4 bytes that is
never the original run; `&#zz;` gives CC AE and `&#x1g;` gives a space. -/
theorem render_entity_malformed_numeric (env : Env) (r : MD_RENDER_HTML) (t : List MD_CHAR)
    (fn_append : FnAppend)
    (hflag : r.flags &&& env.MD_RENDER_FLAG_VERBATIM_ENTITIES = 0)
    (hlen : 3 < t.length) (hhash : t.getD 1 0 = cchar '#') :
    render_entity env r t fn_append
      = render_utf8_codepoint r
          (if t.getD 2 0 = cchar 'x' ∨ t.getD 2 0 = cchar 'X' then
            entity_hex_codepoint env.char_signed t
          else entity_dec_codepoint env.char_signed t) fn_append ∧
    (∃ bs : List MD_CHAR, render_entity env r t fn_append = fn_append r bs ∧
      1 ≤ bs.length ∧ bs.length ≤ 4 ∧ bs ≠ t) ∧
    render_entity env r (cstr "&#zz;") fn_append = fn_append r [0xCC, 0xAE] ∧
    render_entity env r (cstr "&#x1g;") fn_append = fn_append r (cstr " ") := by
  have hb := render_entity_numeric_branch env r t fn_append hflag hlen hhash
  refine ⟨hb, ?_, ?_, ?_⟩
  · obtain ⟨bs, h1, h4, h128, hcall⟩ := render_utf8_codepoint_call
      (if t.getD 2 0 = cchar 'x' ∨ t.getD 2 0 = cchar 'X' then
        entity_hex_codepoint env.char_signed t
      else entity_dec_codepoint env.char_signed t)
    refine ⟨bs, hb.trans (hcall r fn_append), h1, h4, ?_⟩
    intro hbt
    subst hbt
    have h4' : bs.length = 4 := by omega
    have := h128 h4'
    rw [hhash] at this
    exact absurd this (by decide)
  · rw [render_entity_numeric_branch env r (cstr "&#zz;") fn_append hflag (by decide) (by decide)]
    have : (if (cstr "&#zz;").getD 2 0 = cchar 'x' ∨ (cstr "&#zz;").getD 2 0 = cchar 'X' then
          entity_hex_codepoint env.char_signed (cstr "&#zz;")
        else entity_dec_codepoint env.char_signed (cstr "&#zz;")) = 814 := by
      generalize env.char_signed = s
      cases s <;> decide
    rw [this]
    exact render_utf8_codepoint_in_range 814 (by decide) (by decide) r fn_append
  · rw [render_entity_numeric_branch env r (cstr "&#x1g;") fn_append hflag (by decide) (by decide)]
    have : (if (cstr "&#x1g;").getD 2 0 = cchar 'x' ∨ (cstr "&#x1g;").getD 2 0 = cchar 'X' then
          entity_hex_codepoint env.char_signed (cstr "&#x1g;")
        else entity_dec_codepoint env.char_signed (cstr "&#x1g;")) = 32 := by
      generalize env.char_signed = s
      cases s <;> decide
    rw [this]
    exact render_utf8_codepoint_in_range 32 (by decide) (by decide) r fn_append

set_option maxRecDepth 20000 in
theorem render_entity_malformed_numeric_witness :
    (md_render_html_render 0).flags &&& env_no_entities.MD_RENDER_FLAG_VERBATIM_ENTITIES = 0 ∧
    3 < (cstr "&#1a;").length ∧ (cstr "&#1a;").getD 1 0 = cchar '#' ∧
    ∃ bs : List MD_CHAR,
      render_entity env_no_entities (md_render_html_render 0) (cstr "&#1a;") render_text
        = render_text (md_render_html_render 0) bs ∧
      1 ≤ bs.length ∧ bs.length ≤ 4 ∧ bs ≠ cstr "&#1a;" :=
  ⟨by decide, by decide, by decide,
    (render_entity_malformed_numeric env_no_entities (md_render_html_render 0) (cstr "&#1a;")
      render_text (by decide) (by decide) (by decide)).2.1⟩

theorem keeps_then {r r1 r2 : MD_RENDER_HTML} (h1 : ∃ a, Keeps r r1 a)
    (h2 : ∃ b, Keeps r1 r2 b) : ∃ c, Keeps r r2 c := by
  obtain ⟨a, ha⟩ := h1
  obtain ⟨b, hb⟩ := h2
  exact ⟨a ++ b, ha.ktrans hb⟩

theorem keepsFn_render_text : KeepsFn render_text :=
  fun r t => ⟨t, keeps_render_text r t⟩

theorem keepsFn_render_html_escaped : KeepsFn render_html_escaped := by
  intro r t
  obtain ⟨ws, h1, h2⟩ := render_html_escaped_spec r t
  exact ⟨_, Keeps.of_output ws h1 h2⟩

theorem keepsFn_render_url_escaped (env : Env) : KeepsFn (render_url_escaped env) :=
  fun r t => ⟨_, keeps_url_escaped env r t⟩

theorem keeps_some_literal (r : MD_RENDER_HTML) (s : String) :
    ∃ bs, Keeps r (RENDER_LITERAL r s) bs := ⟨_, keeps_literal r s⟩

theorem keeps_some_utf8_codepoint (f : FnAppend) (hf : KeepsFn f) (r : MD_RENDER_HTML)
    (c : Nat) : ∃ bs, Keeps r (render_utf8_codepoint r c f) bs := by
  obtain ⟨bs, _, _, _, h⟩ := render_utf8_codepoint_call c
  rw [h]
  exact hf r bs

theorem keeps_some_entity (env : Env) (f : FnAppend) (hf : KeepsFn f) (r : MD_RENDER_HTML)
    (t : List MD_CHAR) : ∃ bs, Keeps r (render_entity env r t f) bs := by
  unfold render_entity
  split
  · exact hf r t
  · split
    · exact keeps_some_utf8_codepoint f hf r _
    · split
      · rename_i ent _
        simp only []
        split
        · exact keeps_then (keeps_some_utf8_codepoint f hf r _)
            (keeps_some_utf8_codepoint f hf _ _)
        · exact keeps_some_utf8_codepoint f hf r _
      · exact hf r t

theorem keeps_some_attribute_loop (env : Env) (attr : MD_ATTRIBUTE) (f : FnAppend)
    (hf : KeepsFn f) :
    ∀ (fuel i : Nat) (r r2 : MD_RENDER_HTML) (j : Nat),
      render_attribute_loop env attr f fuel i r = some (r2, j) →
      ∃ bs, Keeps r r2 bs := by
  intro fuel
  induction fuel with
  | zero => intro i r r2 j h; simp [render_attribute_loop] at h
  | succ fuel ih =>
    intro i r r2 j h
    unfold render_attribute_loop at h
    split at h
    · exact absurd h (by simp)
    · split at h
      · split at h
        · rename_i type next _ _
          split at h
          · refine keeps_then ?_ (ih _ _ _ _ h)
            cases type <;> first
              | exact hf r _
              | exact keeps_some_utf8_codepoint render_text keepsFn_render_text r 0
              | exact keeps_some_entity env f hf r _
          · exact absurd h (by simp)
        · exact absurd h (by simp)
      · simp only [Option.some.injEq, Prod.mk.injEq] at h
        rw [← h.1]
        exact ⟨[], Keeps.krefl r⟩

theorem keeps_some_attribute (env : Env) (attr : MD_ATTRIBUTE) (f : FnAppend)
    (hf : KeepsFn f) (r : MD_RENDER_HTML) :
    ∃ bs, Keeps r (render_attribute env r attr f) bs := by
  unfold render_attribute
  split
  · rename_i r1 j h
    exact keeps_some_attribute_loop env attr f hf _ _ r r1 j h
  · exact ⟨[], Keeps.krefl r⟩

theorem keeps_some_refl (r : MD_RENDER_HTML) : ∃ bs, Keeps r r bs := ⟨[], Keeps.krefl r⟩

theorem keeps_some_literal_after {r x : MD_RENDER_HTML} (s : String)
    (h : ∃ a, Keeps r x a) : ∃ b, Keeps r (RENDER_LITERAL x s) b :=
  keeps_then h (keeps_some_literal x s)

theorem keeps_some_attribute_after {r x : MD_RENDER_HTML} (env : Env) (attr : MD_ATTRIBUTE)
    (f : FnAppend) (hf : KeepsFn f) (h : ∃ a, Keeps r x a) :
    ∃ b, Keeps r (render_attribute env x attr f) b :=
  keeps_then h (keeps_some_attribute env attr f hf x)

theorem keeps_some_open_ol_block (r : MD_RENDER_HTML) (det : MD_BLOCK_OL_DETAIL) :
    ∃ bs, Keeps r (render_open_ol_block r det) bs := by
  unfold render_open_ol_block
  split
  · exact keeps_some_literal r _
  · exact ⟨_, keeps_render_text r _⟩

theorem keeps_some_open_li_block (r : MD_RENDER_HTML) (det : MD_BLOCK_LI_DETAIL) :
    ∃ bs, Keeps r (render_open_li_block r det) bs := by
  unfold render_open_li_block
  split
  · dsimp only
    apply keeps_some_literal_after
    split
    · exact keeps_some_literal_after _ (keeps_some_literal r _)
    · exact keeps_some_literal r _
  · exact keeps_some_literal r _

theorem keeps_some_open_code_block (env : Env) (r : MD_RENDER_HTML)
    (det : MD_BLOCK_CODE_DETAIL) : ∃ bs, Keeps r (render_open_code_block env r det) bs := by
  unfold render_open_code_block
  dsimp only
  apply keeps_some_literal_after
  split
  · exact keeps_some_literal_after _ (keeps_some_attribute_after env _ _
      keepsFn_render_html_escaped (keeps_some_literal_after _ (keeps_some_literal r _)))
  · exact keeps_some_literal r _

theorem keeps_some_open_td_block (r : MD_RENDER_HTML) (cell_type : String)
    (det : MD_BLOCK_TD_DETAIL) : ∃ bs, Keeps r (render_open_td_block r cell_type det) bs := by
  unfold render_open_td_block
  dsimp only
  split <;>
    exact keeps_some_literal_after _ (keeps_some_literal_after _ (keeps_some_literal r _))

theorem keeps_some_title {r x : MD_RENDER_HTML} (env : Env) (title : MD_ATTRIBUTE)
    (h : ∃ a, Keeps r x a) :
    ∃ bs, Keeps r
      (if title.text.isSome then
        render_attribute env (RENDER_LITERAL x "\" title=\"") title render_html_escaped
      else x) bs := by
  split
  · exact keeps_some_attribute_after env _ _ keepsFn_render_html_escaped
      (keeps_some_literal_after _ h)
  · exact h

theorem keeps_some_open_a_span (env : Env) (r : MD_RENDER_HTML) (det : MD_SPAN_A_DETAIL) :
    ∃ bs, Keeps r (render_open_a_span env r det) bs := by
  unfold render_open_a_span
  dsimp only
  apply keeps_some_literal_after
  exact keeps_some_title env det.title (keeps_some_attribute_after env _ _
    (keepsFn_render_url_escaped env) (keeps_some_literal r _))

theorem keeps_some_open_wikilink_span (env : Env) (r : MD_RENDER_HTML)
    (det : MD_SPAN_WIKILINK_DETAIL) :
    ∃ bs, Keeps r (render_open_wikilink_span env r det) bs := by
  unfold render_open_wikilink_span
  dsimp only
  exact keeps_some_literal_after _ (keeps_some_attribute_after env _ _
    keepsFn_render_html_escaped (keeps_some_literal r _))

theorem level_open_img_span (env : Env) (r : MD_RENDER_HTML) (det : MD_SPAN_IMG_DETAIL) :
    (render_open_img_span env r det).image_nesting_level = r.image_nesting_level + 1 := by
  have h : ∃ bs, Keeps r
      (RENDER_LITERAL (render_attribute env (RENDER_LITERAL r "<img src=\"") det.src
        (render_url_escaped env)) "\" alt=\"") bs :=
    keeps_some_literal_after _ (keeps_some_attribute_after env _ _
      (keepsFn_render_url_escaped env) (keeps_some_literal r _))
  obtain ⟨bs, h⟩ := h
  show _ + 1 = _
  rw [← h.2]

theorem level_close_img_span (env : Env) (r : MD_RENDER_HTML) (det : MD_SPAN_IMG_DETAIL) :
    (render_close_img_span env r det).image_nesting_level = r.image_nesting_level - 1 := by
  have h : ∃ bs, Keeps r
      (RENDER_LITERAL
        (if det.title.text.isSome then
          render_attribute env (RENDER_LITERAL r "\" title=\"") det.title render_html_escaped
        else r) "\">") bs :=
    keeps_some_literal_after _ (keeps_some_title env det.title (keeps_some_refl r))
  obtain ⟨bs, h⟩ := h
  show _ - 1 = _
  rw [← h.2]

theorem keeps_some_enter_block (env : Env) (type : MD_BLOCKTYPE) (r : MD_RENDER_HTML) :
    ∃ bs, Keeps r (enter_block_callback env type r) bs := by
  cases type <;> first
    | exact keeps_some_refl r
    | exact keeps_some_literal r _
    | exact keeps_some_open_ol_block r _
    | exact keeps_some_open_li_block r _
    | exact keeps_some_open_code_block env r _
    | exact keeps_some_open_td_block r _ _

theorem keeps_some_leave_block (type : MD_BLOCKTYPE) (r : MD_RENDER_HTML) :
    ∃ bs, Keeps r (leave_block_callback type r) bs := by
  cases type <;> first
    | exact keeps_some_refl r
    | exact keeps_some_literal r _

theorem keeps_some_text (env : Env) (type : MD_TEXTTYPE) (t : List MD_CHAR)
    (r : MD_RENDER_HTML) : ∃ bs, Keeps r (text_callback env type t r) bs := by
  cases type <;> first
    | exact keepsFn_render_html_escaped r t
    | exact keeps_some_utf8_codepoint render_text keepsFn_render_text r 0
    | exact keeps_some_literal r _
    | exact keepsFn_render_text r t
    | exact keeps_some_entity env render_html_escaped keepsFn_render_html_escaped r t

/-- The image nesting level after one event, from the level before it. -/
theorem dispatch_level (env : Env) (r : MD_RENDER_HTML) (e : Event) :
    (dispatch env r e).image_nesting_level =
      (match e with
        | Event.enter_span (MD_SPAN_IMG _) =>
          if r.image_nesting_level > 0 then r.image_nesting_level
          else r.image_nesting_level + 1
        | Event.leave_span (MD_SPAN_IMG _) =>
          if r.image_nesting_level = 1 then r.image_nesting_level - 1
          else r.image_nesting_level
        | _ => r.image_nesting_level) := by
  cases e with
  | enter_block type => exact (keeps_some_enter_block env type r).choose_spec.2
  | leave_block type => exact (keeps_some_leave_block type r).choose_spec.2
  | text type t => exact (keeps_some_text env type t r).choose_spec.2
  | enter_span type =>
    by_cases hl : r.image_nesting_level > 0
    · have : dispatch env r (Event.enter_span type) = r := by
        simp [dispatch, enter_span_callback, hl]
      rw [this]
      cases type <;> simp [hl]
    · cases type <;> simp only [dispatch, enter_span_callback, hl, if_false] <;> first
        | exact (keeps_some_literal r _).choose_spec.2
        | exact (keeps_some_open_a_span env r _).choose_spec.2
        | exact (keeps_some_open_wikilink_span env r _).choose_spec.2
        | exact level_open_img_span env r _
  | leave_span type =>
    by_cases hl : r.image_nesting_level > 0
    · cases type with
      | MD_SPAN_IMG det =>
        simp only [dispatch, leave_span_callback, hl, if_true]
        split
        · exact level_close_img_span env r det
        · rfl
      | _ => simp only [dispatch, leave_span_callback, hl, if_true]
    · have h1 : ¬ r.image_nesting_level = 1 := by omega
      cases type <;> simp only [dispatch, leave_span_callback, hl, h1, if_false] <;>
        exact (keeps_some_literal r _).choose_spec.2

theorem dispatch_all_level (env : Env) (events : List Event) :
    ∀ r : MD_RENDER_HTML, r.image_nesting_level = 0 ∨ r.image_nesting_level = 1 →
      (dispatch_all env r events).image_nesting_level = 0 ∨
      (dispatch_all env r events).image_nesting_level = 1 := by
  induction events with
  | nil => intro r h; exact h
  | cons e t ih =>
    intro r h
    rw [dispatch_all_cons]
    apply ih
    rw [dispatch_level]
    rcases h with h | h <;> cases e with
      | enter_span type => cases type <;> simp [h]
      | leave_span type => cases type <;> simp [h]
      | _ => simp [h]

/-- C22: for every finite sequence of block, span and text events, well
nested or not, dispatched from the initial state, the image nesting level
after the sequence is 0 or 1 (so never negative); and for every next event
the level goes up by one exactly when the event is an Image-enter at level
0, goes down by one exactly when it is an Image-leave at level 1, and is
unchanged otherwise, in particular by every block event and every text
event. -/
theorem image_nesting_level_invariant (env : Env) (renderer_flags : Nat)
    (events : List Event) :
    ((render_after env renderer_flags events).image_nesting_level = 0 ∨
      (render_after env renderer_flags events).image_nesting_level = 1) ∧
    ∀ e : Event,
      ((∃ det, e = Event.enter_span (MD_SPAN_IMG det)) →
        (render_after env renderer_flags events).image_nesting_level = 0 →
        (dispatch env (render_after env renderer_flags events) e).image_nesting_level = 1) ∧
      ((∃ det, e = Event.leave_span (MD_SPAN_IMG det)) →
        (render_after env renderer_flags events).image_nesting_level = 1 →
        (dispatch env (render_after env renderer_flags events) e).image_nesting_level = 0) ∧
      (¬ ((∃ det, e = Event.enter_span (MD_SPAN_IMG det)) ∧
            (render_after env renderer_flags events).image_nesting_level = 0) →
        ¬ ((∃ det, e = Event.leave_span (MD_SPAN_IMG det)) ∧
            (render_after env renderer_flags events).image_nesting_level = 1) →
        (dispatch env (render_after env renderer_flags events) e).image_nesting_level
          = (render_after env renderer_flags events).image_nesting_level) ∧
      ((∃ type, e = Event.enter_block type) ∨ (∃ type, e = Event.leave_block type) ∨
          (∃ type t, e = Event.text type t) →
        (dispatch env (render_after env renderer_flags events) e).image_nesting_level
          = (render_after env renderer_flags events).image_nesting_level) ∧
      dispatch env (render_after env renderer_flags events) e
        = render_after env renderer_flags (events ++ [e]) := by
  have hinv : (render_after env renderer_flags events).image_nesting_level = 0 ∨
      (render_after env renderer_flags events).image_nesting_level = 1 :=
    dispatch_all_level env events (md_render_html_render renderer_flags) (Or.inl rfl)
  refine ⟨hinv, ?_⟩
  intro e
  generalize hr : render_after env renderer_flags events = r at hinv ⊢
  refine ⟨?_, ?_, ?_, ?_, ?_⟩
  · rintro ⟨det, rfl⟩ h0
    rw [dispatch_level]
    simp [h0]
  · rintro ⟨det, rfl⟩ h1
    rw [dispatch_level]
    simp [h1]
  · intro hup hdown
    rw [dispatch_level]
    cases e with
    | enter_span type =>
      cases type with
      | MD_SPAN_IMG det =>
        have : r.image_nesting_level = 1 := by
          rcases hinv with h | h
          · exact absurd ⟨⟨det, rfl⟩, h⟩ hup
          · exact h
        simp [this]
      | _ => rfl
    | leave_span type =>
      cases type with
      | MD_SPAN_IMG det =>
        have : ¬ r.image_nesting_level = 1 := fun h => hdown ⟨⟨det, rfl⟩, h⟩
        simp [this]
      | _ => rfl
    | _ => rfl
  · rintro (⟨type, rfl⟩ | ⟨type, rfl⟩ | ⟨type, t, rfl⟩) <;> rw [dispatch_level]
  · rw [← hr]
    simp [render_after, dispatch_all, List.foldl_append]

/-- A named entity that the table maps to the single codepoint `c` is
written, with the flag clear, as the escaping of the UTF-8 bytes of `c`. -/
theorem text_callback_entity_found_lt (env : Env) (r : MD_RENDER_HTML)
    (hmap : r.escape_map = md_render_html_escape_map)
    (hflag : r.flags &&& env.MD_RENDER_FLAG_VERBATIM_ENTITIES = 0)
    (hlookup : env.entity_lookup (cstr "&lt;") = some ⟨60, 0⟩) :
    written_since r (text_callback env MD_TEXT_ENTITY (cstr "&lt;") r) = cstr "&lt;" := by
  have h : text_callback env MD_TEXT_ENTITY (cstr "&lt;") r
      = render_html_escaped r [60] := by
    simp only [text_callback, render_entity]
    rw [if_neg (by simp [hflag]), if_neg (by decide), hlookup]
    simp only []
    rw [if_neg (by decide)]
    exact render_utf8_codepoint_in_range 60 (by decide) (by decide) r render_html_escaped
  rw [h, (keeps_html_escaped r [60] hmap).1.output_eq]
  decide

set_option maxRecDepth 20000 in
theorem text_callback_entity_numeric_lt (env : Env) (r : MD_RENDER_HTML)
    (hmap : r.escape_map = md_render_html_escape_map)
    (hflag : r.flags &&& env.MD_RENDER_FLAG_VERBATIM_ENTITIES = 0) :
    written_since r (text_callback env MD_TEXT_ENTITY (cstr "&#60;") r) = cstr "&lt;" := by
  have h : text_callback env MD_TEXT_ENTITY (cstr "&#60;") r
      = render_html_escaped r [60] := by
    show render_entity env r (cstr "&#60;") render_html_escaped = _
    have := render_entity_dec env r render_html_escaped hflag (cstr "60") (by decide)
      (by decide) (by decide)
    exact this.trans
      (render_utf8_codepoint_in_range 60 (by decide) (by decide) r render_html_escaped)
  rw [h, (keeps_html_escaped r [60] hmap).1.output_eq]
  decide

/-- C23: with the escape map that `md_render_html` builds, for every entity
byte run, every flag value, every result of the entity-table lookup and
every image nesting level, a text event of kind EntityReference writes no
`<`, no `>` and no `"`, and every `&` it writes is the first byte of one of
`&amp;`, `&lt;`, `&gt;`, `&quot;`; with the flag clear, `&#60;` is written as
`&lt;`, and so is `&lt;` when the table maps it to codepoint 60. -/
theorem text_callback_entity_safe (env : Env) (r : MD_RENDER_HTML) (t : List MD_CHAR)
    (hmap : r.escape_map = md_render_html_escape_map) :
    (cchar '<' ∉ written_since r (text_callback env MD_TEXT_ENTITY t r) ∧
      cchar '>' ∉ written_since r (text_callback env MD_TEXT_ENTITY t r) ∧
      cchar '"' ∉ written_since r (text_callback env MD_TEXT_ENTITY t r) ∧
      ∀ i, i < (written_since r (text_callback env MD_TEXT_ENTITY t r)).length →
        (written_since r (text_callback env MD_TEXT_ENTITY t r)).getD i 0 = cchar '&' →
        ∃ e ∈ html_entities,
          e <+: (written_since r (text_callback env MD_TEXT_ENTITY t r)).drop i) ∧
    (r.flags &&& env.MD_RENDER_FLAG_VERBATIM_ENTITIES = 0 →
      written_since r (text_callback env MD_TEXT_ENTITY (cstr "&#60;") r) = cstr "&lt;") ∧
    (r.flags &&& env.MD_RENDER_FLAG_VERBATIM_ENTITIES = 0 →
      env.entity_lookup (cstr "&lt;") = some ⟨60, 0⟩ →
      written_since r (text_callback env MD_TEXT_ENTITY (cstr "&lt;") r) = cstr "&lt;") := by
  refine ⟨?_, fun hflag => text_callback_entity_numeric_lt env r hmap hflag,
    fun hflag hlookup => text_callback_entity_found_lt env r hmap hflag hlookup⟩
  obtain ⟨x, hx⟩ := keeps_entity_html env r t hmap
  have h : written_since r (text_callback env MD_TEXT_ENTITY t r) = html_escaped x :=
    hx.1.output_eq
  rw [h]
  exact html_escaped_safe x

set_option maxRecDepth 20000 in
theorem text_callback_entity_safe_witness :
    (md_render_html_render 0).escape_map = md_render_html_escape_map ∧
    (md_render_html_render 0).flags &&& env_two_entities.MD_RENDER_FLAG_VERBATIM_ENTITIES = 0 ∧
    env_two_entities.entity_lookup (cstr "&lt;") = some ⟨60, 0⟩ ∧
    written_since (md_render_html_render 0)
        (text_callback env_two_entities MD_TEXT_ENTITY (cstr "&lt;") (md_render_html_render 0))
      = cstr "&lt;" ∧
    cchar '<' ∉ written_since (md_render_html_render 0)
        (text_callback env_two_entities MD_TEXT_ENTITY (cstr "&NotEqualTilde;")
          (md_render_html_render 0)) :=
  ⟨rfl, by decide, by decide,
    (text_callback_entity_safe env_two_entities (md_render_html_render 0) (cstr "&lt;")
      rfl).2.2 (by decide) (by decide),
    (text_callback_entity_safe env_two_entities (md_render_html_render 0)
      (cstr "&NotEqualTilde;") rfl).1.1⟩

theorem written_since_self (r : MD_RENDER_HTML) : written_since r r = [] := by
  simp [written_since]

/-- A first write of a non-empty literal, followed by writes only, leaves a
non-empty output. -/
theorem written_ne_nil_of_literal {r r2 : MD_RENDER_HTML} (s : String) (hs : cstr s ≠ [])
    (h : ∃ b, Keeps (RENDER_LITERAL r s) r2 b) : written_since r r2 ≠ [] := by
  obtain ⟨b, hb⟩ := h
  rw [((keeps_literal r s).ktrans hb).1.output_eq]
  intro hnil
  exact hs (List.append_eq_nil.mp hnil).1

theorem written_literal_ne_nil (r : MD_RENDER_HTML) (s : String) (hs : cstr s ≠ []) :
    written_since r (RENDER_LITERAL r s) ≠ [] :=
  written_ne_nil_of_literal s hs (keeps_some_refl _)

theorem open_ol_ne_nil (r : MD_RENDER_HTML) (det : MD_BLOCK_OL_DETAIL) :
    written_since r (render_open_ol_block r det) ≠ [] := by
  unfold render_open_ol_block
  split
  · exact written_literal_ne_nil r _ (by decide)
  · rw [(keeps_render_text r _).1.output_eq, cstr_append, cstr_append]
    have : cstr "<ol start=\"" = cchar '<' :: cstr "ol start=\"" := rfl
    rw [this]
    simp

theorem open_li_ne_nil (r : MD_RENDER_HTML) (det : MD_BLOCK_LI_DETAIL) :
    written_since r (render_open_li_block r det) ≠ [] := by
  unfold render_open_li_block
  split
  · dsimp only
    apply written_ne_nil_of_literal
      "<li class=\"task-list-item\"><input type=\"checkbox\" class=\"task-list-item-checkbox\" disabled"
      (by decide)
    apply keeps_some_literal_after
    split
    · exact keeps_some_literal _ _
    · exact keeps_some_refl _
  · exact written_literal_ne_nil r _ (by decide)

theorem open_code_ne_nil (env : Env) (r : MD_RENDER_HTML) (det : MD_BLOCK_CODE_DETAIL) :
    written_since r (render_open_code_block env r det) ≠ [] := by
  unfold render_open_code_block
  dsimp only
  apply written_ne_nil_of_literal "<pre><code" (by decide)
  apply keeps_some_literal_after
  split
  · exact keeps_some_literal_after _ (keeps_some_attribute_after env _ _
      keepsFn_render_html_escaped (keeps_some_literal _ _))
  · exact keeps_some_refl _

theorem open_td_ne_nil (r : MD_RENDER_HTML) (cell_type : String) (det : MD_BLOCK_TD_DETAIL) :
    written_since r (render_open_td_block r cell_type det) ≠ [] := by
  unfold render_open_td_block
  dsimp only
  apply written_ne_nil_of_literal "<" (by decide)
  split <;> exact keeps_some_literal_after _ (keeps_some_literal _ _)

theorem head_at_open_ne_nil : ∀ level, 1 ≤ level → level ≤ 6 →
    cstr (head_at ["<h1>", "<h2>", "<h3>", "<h4>", "<h5>", "<h6>"] level) ≠ [] := by
  intro level h1 h6
  interval_cases level <;> decide

theorem head_at_close_ne_nil : ∀ level, 1 ≤ level → level ≤ 6 →
    cstr (head_at ["</h1>\n", "</h2>\n", "</h3>\n", "</h4>\n", "</h5>\n", "</h6>\n"] level)
      ≠ [] := by
  intro level h1 h6
  interval_cases level <;> decide

/-- C21 as stated fails for the horizontal rule: entering it writes `<hr>`
and a line feed, leaving it writes nothing. -/
theorem block_hr_enter_writes :
    written_since (md_render_html_render 0)
        (enter_block_callback env_no_entities MD_BLOCK_HR (md_render_html_render 0))
      = cstr "<hr>\n" ∧
    written_since (md_render_html_render 0)
        (leave_block_callback MD_BLOCK_HR (md_render_html_render 0)) = [] ∧
    ¬ (written_since (md_render_html_render 0)
          (leave_block_callback MD_BLOCK_HR (md_render_html_render 0)) = [] ↔
        written_since (md_render_html_render 0)
          (enter_block_callback env_no_entities MD_BLOCK_HR (md_render_html_render 0)) = []) := by
  decide

/-- C21, amended: for every block kind other than the horizontal rule
(headings with a level from 1 to 6), leaving writes nothing exactly when
entering writes nothing.  Entering and leaving both leave the state as it is
for the document boundary and the raw-HTML block; for the horizontal rule
entering writes `<hr>` and a line feed and leaving writes nothing; for every
other kind entering writes a non-empty opening and leaving makes one write of
a non-empty literal that is fixed by the kind (and the heading level), such
as `</blockquote>` and a line feed for a quote. -/
theorem block_callbacks_pairing (env : Env) (r : MD_RENDER_HTML) (type : MD_BLOCKTYPE)
    (hlevel : ∀ det, type = MD_BLOCK_H det → 1 ≤ det.level ∧ det.level ≤ 6) :
    (type = MD_BLOCK_DOC ∨ type = MD_BLOCK_HTML →
      enter_block_callback env type r = r ∧ leave_block_callback type r = r) ∧
    (type = MD_BLOCK_HR →
      written_since r (enter_block_callback env type r) = cstr "<hr>\n" ∧
      leave_block_callback type r = r) ∧
    (type ≠ MD_BLOCK_DOC → type ≠ MD_BLOCK_HTML → type ≠ MD_BLOCK_HR →
      written_since r (enter_block_callback env type r) ≠ [] ∧
      ∃ literal : String, cstr literal ≠ [] ∧
        ∀ r2, leave_block_callback type r2 = RENDER_LITERAL r2 literal) ∧
    (type ≠ MD_BLOCK_HR →
      (written_since r (leave_block_callback type r) = [] ↔
        written_since r (enter_block_callback env type r) = [])) ∧
    leave_block_callback MD_BLOCK_QUOTE r = RENDER_LITERAL r "</blockquote>\n" := by
  have hmain : type ≠ MD_BLOCK_DOC → type ≠ MD_BLOCK_HTML → type ≠ MD_BLOCK_HR →
      written_since r (enter_block_callback env type r) ≠ [] ∧
      ∃ literal : String, cstr literal ≠ [] ∧
        ∀ r2, leave_block_callback type r2 = RENDER_LITERAL r2 literal := by
    intro hdoc hhtml hhr
    cases type with
    | MD_BLOCK_DOC => exact absurd rfl hdoc
    | MD_BLOCK_HTML => exact absurd rfl hhtml
    | MD_BLOCK_HR => exact absurd rfl hhr
    | MD_BLOCK_OL det => exact ⟨open_ol_ne_nil r det, _, by decide, fun _ => rfl⟩
    | MD_BLOCK_LI det => exact ⟨open_li_ne_nil r det, _, by decide, fun _ => rfl⟩
    | MD_BLOCK_CODE det => exact ⟨open_code_ne_nil env r det, _, by decide, fun _ => rfl⟩
    | MD_BLOCK_TH det => exact ⟨open_td_ne_nil r _ det, _, by decide, fun _ => rfl⟩
    | MD_BLOCK_TD det => exact ⟨open_td_ne_nil r _ det, _, by decide, fun _ => rfl⟩
    | MD_BLOCK_H det =>
      obtain ⟨h1, h6⟩ := hlevel det rfl
      exact ⟨written_literal_ne_nil r _ (head_at_open_ne_nil det.level h1 h6), _,
        head_at_close_ne_nil det.level h1 h6, fun _ => rfl⟩
    | _ => exact ⟨written_literal_ne_nil r _ (by decide), _, by decide, fun _ => rfl⟩
  refine ⟨?_, ?_, hmain, ?_, rfl⟩
  · rintro (h | h) <;> subst h <;> exact ⟨rfl, rfl⟩
  · intro h
    subst h
    exact ⟨(keeps_literal r "<hr>\n").1.output_eq, rfl⟩
  · intro hhr
    by_cases hdoc : type = MD_BLOCK_DOC
    · subst hdoc
      exact ⟨fun _ => written_since_self r, fun _ => written_since_self r⟩
    · by_cases hhtml : type = MD_BLOCK_HTML
      · subst hhtml
        exact ⟨fun _ => written_since_self r, fun _ => written_since_self r⟩
      · obtain ⟨hne, literal, hlit, hleave⟩ := hmain hdoc hhtml hhr
        constructor
        · intro h
          rw [hleave r] at h
          exact absurd h (written_literal_ne_nil r literal hlit)
        · intro h
          exact absurd h hne

theorem block_callbacks_pairing_witness :
    (∀ det, MD_BLOCK_H ⟨3⟩ = MD_BLOCK_H det → 1 ≤ det.level ∧ det.level ≤ 6) ∧
    (MD_BLOCK_H ⟨3⟩ ≠ MD_BLOCK_DOC → MD_BLOCK_H ⟨3⟩ ≠ MD_BLOCK_HTML →
      MD_BLOCK_H ⟨3⟩ ≠ MD_BLOCK_HR →
      written_since (md_render_html_render 0)
          (enter_block_callback env_no_entities (MD_BLOCK_H ⟨3⟩) (md_render_html_render 0))
        ≠ [] ∧
      ∃ literal : String, cstr literal ≠ [] ∧
        ∀ r2, leave_block_callback (MD_BLOCK_H ⟨3⟩) r2 = RENDER_LITERAL r2 literal) :=
  ⟨fun det h => by cases h; decide,
    (block_callbacks_pairing env_no_entities (md_render_html_render 0) (MD_BLOCK_H ⟨3⟩)
      (fun det h => by cases h; decide)).2.2.1⟩

end Md4c
